import Mathlib

/-!
# PEPsal connection-splicing engine: a shallow embedding of `src/pep.c`

The C program keeps its per-connection state in heap-allocated `pep_proxy`
descriptors that are shared between threads through pointers.  The embedding
makes that state explicit:

* a descriptor pointer is a natural number, the heap is a function from
  pointers to descriptors, and `calloc` hands out the next unused pointer;
* the SYN table is the list of descriptor pointers in insertion order (its
  list view), looked up by the key `(src.addr, src.port)`;
* system calls that only have an outside effect (`close`, `fcntl`, `free`,
  buffer allocation and release, signals) are appended to an event trace;
* results that come from outside (the clock, `read`/`write`/`poll` results,
  `SO_ERROR`, allocation success) are parameters of the embedded functions.

The headers `pepsal.h`, `pepbuf.h`, `syntab.h`, `atomic.h` and `pepqueue.h`
are not part of the sources at hand; what `pep.c` uses from them is modelled
from the specification and marked as such.
-/

namespace Pepsal

/-! ## Data model -/

/-- Connection states, in the order of the `conn_stat` name table of `pep.c`
(`PST_CLOSED = 0`, ..., `PST_PENDING = 3`) followed by `PST_INVAL`, the state
`alloc_proxy` gives a fresh descriptor. -/
inductive proxy_status
  | PST_CLOSED
  | PST_OPEN
  | PST_CONNECT
  | PST_PENDING
  | PST_INVAL
deriving DecidableEq, Repr, Inhabited

open proxy_status

/-- Modelled from the spec: the endpoint I/O status bitset
`{READ_DONE, WRITE_DONE, ERROR, EOF}` (`PEP_IORDONE`, `PEP_IOWDONE`,
`PEP_IOERR`, `PEP_IOEOF` of the missing `pepsal.h`), one boolean per flag.
`iostat |= F` sets the field, `iostat & F` reads it. -/
structure io_status where
  rdone : Bool
  wdone : Bool
  err : Bool
  eof : Bool
deriving DecidableEq, Repr, Inhabited

/-- Modelled from the spec: the byte buffer of the missing `pepbuf.h`, a
fixed-capacity ring with a read-position (where bytes received from the socket
are stored), a write-position (where the bytes sent to the peer start) and a
byte count, `0 ≤ count ≤ capacity`, empty iff `count = 0`, full iff
`count = capacity`. -/
structure pep_buffer where
  initialized : Bool
  capacity : Nat
  r_pos : Nat
  w_pos : Nat
  count : Nat
deriving DecidableEq, Repr, Inhabited

/-- One half of a proxied connection (`struct pep_endpoint`). -/
structure pep_endpoint where
  addr : Nat
  port : Nat
  fd : Int
  buf : pep_buffer
  poll_events : Nat
  iostat : io_status
deriving DecidableEq, Repr, Inhabited

/-- The descriptor of one spliced connection (`struct pep_proxy`).  The C union
`endpoints[2]` / `{src, dst}` is the pair of fields `src` (index 0) and `dst`
(index 1); an endpoint's `owner` back-pointer is the pointer of the descriptor
holding it. -/
structure pep_proxy where
  status : proxy_status
  src : pep_endpoint
  dst : pep_endpoint
  syn_time : Int
  last_rxtx : Int
  enqueued : Bool
  refcnt : Int
deriving DecidableEq, Repr, Inhabited

/-- Outside effects of the program, in the order they are issued. -/
inductive sys_event
  | fcntl_setfl_sync (fd : Int)
  | close (fd : Int)
  | free (p : Nat)
  | buf_alloc (p : Nat) (j : Nat)
  | buf_release (p : Nat) (j : Nat)
  | setup_socket (fd : Int)
  | kill_poller
deriving DecidableEq, Repr

/-- Modelled from the spec: the SYN table of the missing `syntab.h`/`syntab.c`,
a keyed collection of descriptors with a list view in deterministic order and a
capacity fixed at start-up. -/
structure syn_table where
  conns : List Nat
  max_items : Nat
deriving DecidableEq, Repr

/-- The lookup key of the SYN table (`struct syntab_key`). -/
structure syntab_key where
  addr : Nat
  port : Nat
deriving DecidableEq, Repr

/-- The shared program state.  `wr_locked` is the SYN-table write lock,
`rd_locks` the number of read holds, and `relocks` counts the acquisitions of
the write lock made while it was already held. -/
structure World where
  heap : Nat → pep_proxy
  brk : Nat
  syntab : syn_table
  wr_locked : Bool
  rd_locks : Nat
  relocks : Nat
  trace : List sys_event

/-- Faults that stop the program: a failed `assert` and `pep_error`, which logs
and calls `exit`. -/
inductive fault
  | assert_failed
  | process_exit
deriving DecidableEq, Repr

/-! ## Poll constants (`<sys/poll.h>`) -/

def POLLIN : Nat := 0x001
def POLLOUT : Nat := 0x004
def POLLERR : Nat := 0x008
def POLLHUP : Nat := 0x010
def POLLNVAL : Nat := 0x020

/-- The interest mask `alloc_proxy` gives both endpoints. -/
def ENDPOINT_POLLEVENTS : Nat := POLLIN ||| POLLHUP ||| POLLERR ||| POLLNVAL

def PROXY_ENDPOINTS : Nat := 2

/-! ## Heap access -/

/-- Store `f (heap p)` at `p`: the embedding of an assignment through a
descriptor pointer. -/
def World.modify (w : World) (p : Nat) (f : pep_proxy → pep_proxy) : World :=
  { w with heap := Function.update w.heap p (f (w.heap p)) }

/-- Append outside effects to the trace. -/
def World.emit (w : World) (evs : List sys_event) : World :=
  { w with trace := w.trace ++ evs }

/-- The endpoint `proxy->endpoints[j]`. -/
def pep_proxy.endpoint (x : pep_proxy) (j : Nat) : pep_endpoint :=
  if j = 0 then x.src else x.dst

/-- Assignment to `proxy->endpoints[j]`. -/
def pep_proxy.set_endpoint (x : pep_proxy) (j : Nat) (e : pep_endpoint) : pep_proxy :=
  if j = 0 then { x with src := e } else { x with dst := e }

/-- An endpoint as `calloc` returns it: all fields zero. -/
def zero_endpoint : pep_endpoint :=
  { addr := 0, port := 0, fd := 0,
    buf := { initialized := false, capacity := 0, r_pos := 0, w_pos := 0, count := 0 },
    poll_events := 0,
    iostat := { rdone := false, wdone := false, err := false, eof := false } }

/-- A descriptor as `calloc` returns it: all fields zero (status 0 is
`PST_CLOSED`). -/
def zero_proxy : pep_proxy :=
  { status := PST_CLOSED, src := zero_endpoint, dst := zero_endpoint,
    syn_time := 0, last_rxtx := 0, enqueued := false, refcnt := 0 }

/-! ## Byte buffer operations (modelled from the spec) -/

/-- Modelled from the spec: `pepbuf_initialized`, the "initialised?" query of
the missing `pepbuf.h`. -/
def pepbuf_initialized (b : pep_buffer) : Bool := b.initialized

/-- Modelled from the spec: `pepbuf_init`, which allocates the ring of the
missing `pepbuf.h` with the capacity `cap` and starts it empty. -/
def pepbuf_init (cap : Nat) (_b : pep_buffer) : pep_buffer :=
  { initialized := true, capacity := cap, r_pos := 0, w_pos := 0, count := 0 }

/-- Modelled from the spec: `pepbuf_deinit`, which releases the ring of the
missing `pepbuf.h`. -/
def pepbuf_deinit (_b : pep_buffer) : pep_buffer :=
  { initialized := false, capacity := 0, r_pos := 0, w_pos := 0, count := 0 }

/-- Modelled from the spec: `pepbuf_empty` of the missing `pepbuf.h`, empty iff
the byte count is 0. -/
def pepbuf_empty (b : pep_buffer) : Bool := b.count == 0

/-- Modelled from the spec: `pepbuf_full` of the missing `pepbuf.h`, full iff
the byte count equals the capacity. -/
def pepbuf_full (b : pep_buffer) : Bool := b.count == b.capacity

/-- Modelled from the spec: `PEPBUF_SPACE_LEFT` of the missing `pepbuf.h`, the
length of the writable region. -/
def PEPBUF_SPACE_LEFT (b : pep_buffer) : Nat := b.capacity - b.count

/-- Modelled from the spec: `PEPBUF_SPACE_FILLED` of the missing `pepbuf.h`,
the length of the readable region. -/
def PEPBUF_SPACE_FILLED (b : pep_buffer) : Nat := b.count

/-- Modelled from the spec: `pepbuf_update_rpos` of the missing `pepbuf.h`,
advance the read-position by `n` received bytes; advancing past the free space
is an asserted programming error. -/
def pepbuf_update_rpos (b : pep_buffer) (n : Nat) : Except fault pep_buffer :=
  if n ≤ PEPBUF_SPACE_LEFT b then
    .ok { b with r_pos := (b.r_pos + n) % b.capacity, count := b.count + n }
  else .error .assert_failed

/-- Modelled from the spec: `pepbuf_update_wpos` of the missing `pepbuf.h`,
advance the write-position by `n` sent bytes; advancing past the buffered bytes
is an asserted programming error. -/
def pepbuf_update_wpos (b : pep_buffer) (n : Nat) : Except fault pep_buffer :=
  if n ≤ PEPBUF_SPACE_FILLED b then
    .ok { b with w_pos := (b.w_pos + n) % b.capacity, count := b.count - n }
  else .error .assert_failed

/-! ## SYN table operations (modelled from the spec) -/

/-- Modelled from the spec: `SYNTAB_LOCK_WRITE` of the missing `syntab.h`.  An
acquisition made while the write lock is already held is counted in
`relocks`; the state then continues as after a lock call that returned. -/
def SYNTAB_LOCK_WRITE (w : World) : World :=
  { w with wr_locked := true, relocks := if w.wr_locked then w.relocks + 1 else w.relocks }

/-- Modelled from the spec: `SYNTAB_UNLOCK_WRITE` of the missing `syntab.h`. -/
def SYNTAB_UNLOCK_WRITE (w : World) : World :=
  { w with wr_locked := false }

/-- Modelled from the spec: `SYNTAB_LOCK_READ` of the missing `syntab.h`. -/
def SYNTAB_LOCK_READ (w : World) : World :=
  { w with rd_locks := w.rd_locks + 1 }

/-- Modelled from the spec: `SYNTAB_UNLOCK_READ` of the missing `syntab.h`. -/
def SYNTAB_UNLOCK_READ (w : World) : World :=
  { w with rd_locks := w.rd_locks - 1 }

/-- Modelled from the spec: `syntab_format_key` of the missing `syntab.c`, the
key of a descriptor is its client address and port. -/
def syntab_format_key (x : pep_proxy) : syntab_key :=
  { addr := x.src.addr, port := x.src.port }

/-- Modelled from the spec: `syntab_find` of the missing `syntab.c`,
`find(key) → descriptor?`, which leaves the reference count alone. -/
def syntab_find (w : World) (key : syntab_key) : Option Nat :=
  w.syntab.conns.find? (fun q => decide (syntab_format_key (w.heap q) = key))

/-- Modelled from the spec: `syntab_add` of the missing `syntab.c`,
`insert(descriptor)`, which fails (`-1`) if the key is already present or the
capacity is exceeded and otherwise appends to the list view and returns `0`. -/
def syntab_add (w : World) (p : Nat) : World × Int :=
  if (syntab_find w (syntab_format_key (w.heap p))).isSome
      ∨ w.syntab.max_items ≤ w.syntab.conns.length then (w, -1)
  else ({ w with syntab := { w.syntab with conns := w.syntab.conns ++ [p] } }, 0)

/-- Modelled from the spec: `syntab_delete` of the missing `syntab.c`,
`remove(descriptor)`, idempotent in effect. -/
def syntab_delete (w : World) (p : Nat) : World :=
  { w with syntab := { w.syntab with conns := w.syntab.conns.filter (fun q => q != p) } }

/-! ## Reference counting and destruction -/

/-- Modelled from the spec: `atomic_inc` of the missing `atomic.h` on
`proxy->refcnt`. -/
def atomic_inc_refcnt (w : World) (p : Nat) : World :=
  w.modify p (fun x => { x with refcnt := x.refcnt + 1 })

/-- Modelled from the spec: `atomic_dec` of the missing `atomic.h` on
`proxy->refcnt`: decrement by one, returning the value held before (the caller
frees when that value is 1, that is, when the count reaches zero). -/
def atomic_dec_refcnt (w : World) (p : Nat) : World × Int :=
  (w.modify p (fun x => { x with refcnt := x.refcnt - 1 }), (w.heap p).refcnt)

/-- The function `free_proxy`.  Its assertion `refcnt == 0` holds at its only call
site: `unpin_proxy` calls it when the decrement found the value 1. -/
def free_proxy (w : World) (p : Nat) : World :=
  w.emit [sys_event.free p]

/-- The function `pin_proxy`. -/
def pin_proxy (w : World) (p : Nat) : World :=
  atomic_inc_refcnt w p

/-- The function `unpin_proxy`: drop one reference, free on the last one. -/
def unpin_proxy (w : World) (p : Nat) : World :=
  let r := atomic_dec_refcnt w p
  if r.2 = 1 then free_proxy r.1 p else r.1

/-- One round of the endpoint loop of `destroy_proxy`: close the fd if it is
set (after switching it to synchronous mode), release the buffer if it is
initialised. -/
def destroy_endpoint (w : World) (p : Nat) (j : Nat) : World :=
  let e := (w.heap p).endpoint j
  let w1 := if e.fd ≥ 0 then w.emit [sys_event.fcntl_setfl_sync e.fd, sys_event.close e.fd] else w
  if pepbuf_initialized e.buf then
    (w1.modify p (fun x => x.set_endpoint j { x.endpoint j with buf := pepbuf_deinit (x.endpoint j).buf })).emit
      [sys_event.buf_release p j]
  else w1

/-- The function `destroy_proxy`. -/
def destroy_proxy (w : World) (p : Nat) : World :=
  if (w.heap p).status = PST_CLOSED then
    unpin_proxy w p
  else
    let w1 := w.modify p (fun x => { x with status := PST_CLOSED })
    let w2 := SYNTAB_LOCK_WRITE w1
    let w3 := syntab_delete w2 p
    let w4 := w3.modify p (fun x => { x with status := PST_CLOSED })
    let w5 := SYNTAB_UNLOCK_WRITE w4
    let w6 := destroy_endpoint w5 p 0
    let w7 := destroy_endpoint w6 p 1
    unpin_proxy w7 p

/-- The state just before the final `unpin_proxy` of a real destruction. -/
def destroy_before_unpin (w : World) (p : Nat) : World :=
  destroy_endpoint (destroy_endpoint (SYNTAB_UNLOCK_WRITE ((syntab_delete (SYNTAB_LOCK_WRITE
    (w.modify p (fun x => { x with status := PST_CLOSED }))) p).modify p
      (fun x => { x with status := PST_CLOSED }))) p 0) p 1

/-- An endpoint after the teardown loop: its buffer is released if it was
initialised. -/
def torn_down (e : pep_endpoint) : pep_endpoint :=
  if pepbuf_initialized e.buf then { e with buf := pepbuf_deinit e.buf } else e

/-- The outside effects of tearing down endpoint `j` of descriptor `p`. -/
def teardown_events (p j : Nat) (e : pep_endpoint) : List sys_event :=
  (if e.fd ≥ 0 then [sys_event.fcntl_setfl_sync e.fd, sys_event.close e.fd] else [])
    ++ (if pepbuf_initialized e.buf then [sys_event.buf_release p j] else [])

/-! ## Recording a new connection -/

/-- The address of a peer as the socket calls deliver it (`struct sockaddr_in`),
address and port in network byte order. -/
structure sockaddr_in where
  sin_addr : Nat
  sin_port : Nat
deriving DecidableEq, Repr

/-- Network to host byte order for 16 bits, on a little-endian host. -/
def ntohs (x : Nat) : Nat := (x % 256) * 256 + (x / 256) % 256

/-- Network to host byte order for 32 bits, on a little-endian host. -/
def ntohl (x : Nat) : Nat :=
  (x % 256) * 16777216 + ((x / 256) % 256) * 65536 + ((x / 65536) % 256) * 256
    + (x / 16777216) % 256

/-- The function `alloc_proxy`.  `calloc_ok` tells whether `calloc` succeeds; a
new descriptor gets the next unused pointer, status `PST_INVAL`, one reference
and two endpoints without fd. -/
def alloc_proxy (calloc_ok : Bool) (w : World) : World × Option Nat :=
  if !calloc_ok then (w, none)
  else
    let endp : pep_endpoint :=
      { zero_endpoint with fd := -1,
                           iostat := { rdone := false, wdone := false, err := false, eof := false },
                           poll_events := ENDPOINT_POLLEVENTS }
    let x : pep_proxy := { zero_proxy with status := PST_INVAL, refcnt := 1, src := endp, dst := endp }
    ({ w with heap := Function.update w.heap w.brk x, brk := w.brk + 1 }, some w.brk)

/-- The function `save_proxy_from_socket`.  `getsockname_res` is the original
destination `getsockname` reports (`none` when the call fails) and `t_now` the
clock.  The result value is `none` where the C function returns its variable
`ret` without having assigned it. -/
def save_proxy_from_socket (calloc_ok : Bool) (getsockname_res : Option sockaddr_in)
    (t_now : Int) (cliaddr : sockaddr_in) (w : World) : World × Option Int :=
  match alloc_proxy calloc_ok w with
  | (w0, none) => (w0, some (-1))
  | (w0, some p) =>
    match getsockname_res with
    | none => (unpin_proxy w0 p, some (-1))
    | some orig_dst =>
      let w1 := w0.modify p (fun x =>
        { x with src := { x.src with addr := ntohl cliaddr.sin_addr, port := ntohs cliaddr.sin_port },
                 dst := { x.dst with addr := ntohl orig_dst.sin_addr,
                                     port := ntohs orig_dst.sin_port },
                 syn_time := t_now })
      let key := syntab_format_key (w1.heap p)
      let w2 := SYNTAB_LOCK_WRITE w1
      match syntab_find w2 key with
      | some _dup => (unpin_proxy (SYNTAB_UNLOCK_WRITE w2) p, none)
      | none =>
        let w3 := w2.modify p (fun x => { x with status := PST_PENDING })
        let r := syntab_add w3 p
        let w5 := SYNTAB_UNLOCK_WRITE r.1
        if r.2 < 0 then (unpin_proxy w5 p, some r.2)
        else if r.2 < 0 then (unpin_proxy (syntab_delete w5 p) p, some r.2)
        else (w5, some r.2)

/-! ## Splicing -/

def EAGAIN : Int := 11
def EALREADY : Int := 114
def EINPROGRESS : Int := 115

/-- The word `nonblocking_err_p` reads at index `i` of its static array
`nb_errs`: the three listed error numbers, and beyond them whatever the words
`past` that follow the array in memory hold. -/
def nb_errs_at (past : Nat → Int) (i : Nat) : Int :=
  if i = 0 then EAGAIN else if i = 1 then EINPROGRESS else if i = 2 then EALREADY else past i

/-- The loop of `nonblocking_err_p` from index `i` with `n` rounds to go. -/
def nonblocking_err_p_loop (past : Nat → Int) (err : Int) : Nat → Nat → Int
  | 0, _ => 0
  | n + 1, i => if err = nb_errs_at past i then 1 else nonblocking_err_p_loop past err n (i + 1)

/-- The function `nonblocking_err_p`.  Its loop bound is `sizeof(nb_errs)`, the
size of the array in bytes: 12 for three 4-byte `int`s. -/
def nonblocking_err_p (past : Nat → Int) (err : Int) : Int :=
  nonblocking_err_p_loop past err 12 0

/-- What `read` or `write` reports: a byte count, or `-1` with an `errno`. -/
inductive io_result
  | bytes (n : Nat)
  | fail (errno : Int)
deriving DecidableEq, Repr

/-- The outcome of one `pep_receive` or `pep_send`: the endpoint afterwards, the
value returned, and whether the system call was issued. -/
structure io_step where
  endp : pep_endpoint
  ret : Int
  called : Bool
deriving DecidableEq, Repr

/-- The function `pep_receive`; `read_fd len` is what `read` on the endpoint fd
reports when offered `len` bytes of space. -/
def pep_receive (past : Nat → Int) (read_fd : Nat → io_result) (endp : pep_endpoint) :
    Except fault io_step :=
  if endp.iostat.rdone || endp.iostat.err || endp.iostat.eof || pepbuf_full endp.buf then
    .ok { endp := endp, ret := 0, called := false }
  else
    match read_fd (PEPBUF_SPACE_LEFT endp.buf) with
    | .fail errno =>
      if nonblocking_err_p past errno ≠ 0 then
        .ok { endp := { endp with iostat := { endp.iostat with rdone := true } }, ret := 0,
              called := true }
      else
        .ok { endp := { endp with iostat := { endp.iostat with err := true } }, ret := -1,
              called := true }
    | .bytes 0 =>
      .ok { endp := { endp with iostat := { endp.iostat with eof := true } }, ret := 0,
            called := true }
    | .bytes (n + 1) =>
      match pepbuf_update_rpos endp.buf (n + 1) with
      | .error f => .error f
      | .ok b => .ok { endp := { endp with buf := b }, ret := ((n + 1 : Nat) : Int), called := true }

/-- The function `pep_send`; `write_fd len` is what `write` on `to_fd` reports
when offered `len` buffered bytes. -/
def pep_send (past : Nat → Int) (write_fd : Nat → io_result) (frm : pep_endpoint) :
    Except fault io_step :=
  if frm.iostat.err || frm.iostat.wdone || (pepbuf_empty frm.buf && !frm.iostat.eof) then
    .ok { endp := frm, ret := 0, called := false }
  else
    match write_fd (PEPBUF_SPACE_FILLED frm.buf) with
    | .fail errno =>
      if nonblocking_err_p past errno ≠ 0 then
        .ok { endp := { frm with iostat := { frm.iostat with wdone := true } }, ret := 0,
              called := true }
      else
        .ok { endp := { frm with iostat := { frm.iostat with err := true } }, ret := -1,
              called := true }
    | .bytes n =>
      match pepbuf_update_wpos frm.buf n with
      | .error f => .error f
      | .ok b => .ok { endp := { frm with buf := b }, ret := (n : Int), called := true }

/-- The variables of the loop of `pep_proxy_data`: the endpoint `from`, the last
`rb` and `wb`, how many `read` and `write` calls were issued so far, and the
running totals of the bytes `pep_receive` and `pep_send` returned. -/
structure splice_state where
  endp : pep_endpoint
  rb : Int
  wb : Int
  reads : Nat
  writes : Nat
  bytes_in : Nat
  bytes_out : Nat
deriving DecidableEq, Repr

/-- The state on entry to the loop: `rb = wb = 1`. -/
def splice_start (frm : pep_endpoint) : splice_state :=
  { endp := frm, rb := 1, wb := 1, reads := 0, writes := 0, bytes_in := 0, bytes_out := 0 }

/-- The loop condition `(wb > 0) || (rb > 0)`. -/
def splice_continues (s : splice_state) : Bool := decide (s.wb > 0) || decide (s.rb > 0)

/-- One round of the loop: `rb = pep_receive(from); wb = pep_send(from, to->fd)`.
The `k`-th `read` reports `rd k len`, the `k`-th `write` reports `wr k len`. -/
def splice_round (past : Nat → Int) (rd wr : Nat → Nat → io_result) (s : splice_state) :
    Except fault splice_state :=
  match pep_receive past (rd s.reads) s.endp with
  | .error f => .error f
  | .ok r =>
    match pep_send past (wr s.writes) r.endp with
    | .error f => .error f
    | .ok t =>
      .ok { endp := t.endp, rb := r.ret, wb := t.ret,
            reads := s.reads + (if r.called then 1 else 0),
            writes := s.writes + (if t.called then 1 else 0),
            bytes_in := s.bytes_in + r.ret.toNat,
            bytes_out := s.bytes_out + t.ret.toNat }

/-- The loop of `pep_proxy_data` cut after at most `n` rounds: the state when
the loop has ended or, if it has not yet, after `n` rounds. -/
def splice_rounds (past : Nat → Int) (rd wr : Nat → Nat → io_result) :
    Nat → splice_state → Except fault splice_state
  | 0, s => .ok s
  | n + 1, s =>
    if splice_continues s then
      match splice_round past rd wr s with
      | .error f => .error f
      | .ok s1 => splice_rounds past rd wr n s1
    else .ok s

/-- The loop of `pep_proxy_data` run to its end: `some` of the final state, or
`none` when `fuel` rounds did not end it. -/
def splice_loop (past : Nat → Int) (rd wr : Nat → Nat → io_result) :
    Nat → splice_state → Except fault (Option splice_state)
  | 0, s => if splice_continues s then .ok none else .ok (some s)
  | fuel + 1, s =>
    if splice_continues s then
      match splice_round past rd wr s with
      | .error f => .error f
      | .ok s1 => splice_loop past rd wr fuel s1
    else .ok (some s)

/-- The C expression `x & ~m` on an interest mask. -/
def mask_clear (x m : Nat) : Nat := Nat.bitwise (fun a b => a && !b) x m

/-- The poll-interest update `pep_proxy_data` makes after its loop, on the
endpoints `from` (here `frm`) and `to` (here `dest`). -/
def splice_update_interest (frm dest : pep_endpoint) : pep_endpoint × pep_endpoint :=
  if frm.iostat.err then (frm, dest)
  else
    let frm1 :=
      if pepbuf_full frm.buf || frm.iostat.eof then
        { frm with poll_events := mask_clear frm.poll_events POLLIN }
      else if frm.iostat.rdone then { frm with poll_events := frm.poll_events ||| POLLIN }
      else frm
    let dest1 :=
      if pepbuf_empty frm1.buf then
        { dest with poll_events := mask_clear dest.poll_events POLLOUT }
      else { dest with poll_events := dest.poll_events ||| POLLOUT }
    (frm1, dest1)

/-- The function `pep_proxy_data` on the endpoints `from` (here `frm`) and `to`
(here `dest`): the loop, then the interest update.  `none` when `fuel` rounds
did not end the loop. -/
def pep_proxy_data (past : Nat → Int) (rd wr : Nat → Nat → io_result) (fuel : Nat)
    (frm dest : pep_endpoint) : Except fault (Option (pep_endpoint × pep_endpoint)) :=
  match splice_loop past rd wr fuel (splice_start frm) with
  | .error f => .error f
  | .ok none => .ok none
  | .ok (some s) => .ok (some (splice_update_interest s.endp dest))

/-! ## Poller: dispatch of the poll results -/

/-- One slot of `poll_resources`: the `pollfd` (`fd`, `events`, `revents`) and
the endpoint it stands for, `poll_resources.endpoints[i]`, given as the pointer
of the owning descriptor and the index of the endpoint in it. -/
structure poll_entry where
  fd : Int
  events : Nat
  revents : Nat
  owner : Nat
  idx : Nat
deriving DecidableEq, Repr

/-- What the poller's dispatch loop gets from outside: the `SO_ERROR` value
`getsockopt` stores for an fd, whether the buffer allocation for endpoint `j` of
descriptor `p` succeeds, and the capacity buffers are created with. -/
structure poller_env where
  so_error : Int → Int
  buf_alloc_ok : Nat → Nat → Bool
  buf_capacity : Nat

/-- The variables of the dispatch loop: the shared state, the local list of
ready descriptors (`local_list`, linked through `qnode`) and `num_works`. -/
structure dispatch_state where
  w : World
  local_list : List Nat
  num_works : Nat

/-- The `case PST_OPEN` block of the dispatch loop for the slot `e`. -/
def dispatch_open (st : dispatch_state) (e : poll_entry) : dispatch_state :=
  let p := e.owner
  if e.revents &&& (POLLHUP ||| POLLERR ||| POLLNVAL) ≠ 0 then
    let l := if (st.w.heap p).enqueued then st.local_list.erase p else st.local_list
    { st with w := destroy_proxy st.w p, local_list := l }
  else if e.revents &&& (POLLIN ||| POLLOUT) ≠ 0 then
    { w := st.w.modify p (fun x => { x with enqueued := true }),
      local_list := st.local_list ++ [p],
      num_works := st.num_works + 1 }
  else st

/-- The part of `case PST_CONNECT` after `SO_ERROR` was found to be 0: both
buffers are allocated (a failure ends the process through `pep_error`), the
status becomes `PST_OPEN` and both sockets are set up. -/
def dispatch_promote (env : poller_env) (w : World) (p : Nat) : Except fault World :=
  if !env.buf_alloc_ok p 0 then .error .process_exit
  else
    let w1 := (w.modify p (fun x =>
      { x with src := { x.src with buf := pepbuf_init env.buf_capacity x.src.buf } })).emit
        [sys_event.buf_alloc p 0]
    if !env.buf_alloc_ok p 1 then .error .process_exit
    else
      let w2 := (w1.modify p (fun x =>
        { x with dst := { x.dst with buf := pepbuf_init env.buf_capacity x.dst.buf } })).emit
          [sys_event.buf_alloc p 1]
      let w3 := w2.modify p (fun x => { x with status := PST_OPEN })
      .ok (w3.emit [sys_event.setup_socket (w3.heap p).src.fd,
                    sys_event.setup_socket (w3.heap p).dst.fd])

/-- The body of the dispatch loop of `poller_loop` for the slot `e`. -/
def dispatch_entry (env : poller_env) (st : dispatch_state) (e : poll_entry) :
    Except fault dispatch_state :=
  if e.revents = 0 then .ok st
  else
    let p := e.owner
    if (st.w.heap p).enqueued then .ok st
    else
      match (st.w.heap p).status with
      | PST_CONNECT =>
        let connerr := env.so_error (st.w.heap p).dst.fd
        if connerr ≠ 0 then .ok { st with w := destroy_proxy st.w p }
        else
          match dispatch_promote env st.w p with
          | .error f => .error f
          | .ok w1 => .ok (dispatch_open { st with w := w1 } e)
      | PST_OPEN => .ok (dispatch_open st e)
      | _ => .ok st

/-- The dispatch loop of `poller_loop` over the slots `0 .. num_clients - 1`. -/
def dispatch_loop (env : poller_env) : List poll_entry → dispatch_state →
    Except fault dispatch_state
  | [], st => .ok st
  | e :: es, st =>
    match dispatch_entry env st e with
    | .error f => .error f
    | .ok st1 => dispatch_loop env es st1

/-- The dispatch loop as `poller_loop` enters it: `num_works = 0` and an empty
local list. -/
def poller_dispatch (env : poller_env) (pfds : List poll_entry) (w : World) :
    Except fault dispatch_state :=
  dispatch_loop env pfds { w := w, local_list := [], num_works := 0 }

/-- The bookkeeping of the dispatch loop: no descriptor is on the ready list
twice, a descriptor is on the list exactly when its `enqueued` flag is set,
every listed descriptor is OPEN, and `num_works` counts the list. -/
def dispatch_inv (st : dispatch_state) : Prop :=
  st.local_list.Nodup
  ∧ (∀ p, (st.w.heap p).enqueued = true ↔ p ∈ st.local_list)
  ∧ (∀ p ∈ st.local_list, (st.w.heap p).status = PST_OPEN)
  ∧ st.num_works = st.local_list.length

/-- How many times the buffer of endpoint `j` of descriptor `p` has been
allocated so far. -/
def alloc_count (w : World) (p j : Nat) : Nat :=
  w.trace.count (sys_event.buf_alloc p j)

/-! ## Poller: building the poll arrays -/

/-- The global `poll_resources`: slot `i` stands for `pollfds[i]` together with
`endpoints[i]`; `num_pollfds` is the allocated size, `2 * max_conns` in `main`. -/
structure poll_table where
  slots : Nat → poll_entry
  num_pollfds : Nat

/-- The assignments to `pollfds[i]` and `endpoints[i]`. -/
def poll_table.put (pr : poll_table) (i : Nat) (e : poll_entry) : poll_table :=
  { pr with slots := Function.update pr.slots i e }

/-- The slot `prepare_poll_resources` writes for endpoint `j` of descriptor `p`. -/
def poll_slot (w : World) (p j : Nat) : poll_entry :=
  { fd := ((w.heap p).endpoint j).fd, events := ((w.heap p).endpoint j).poll_events,
    revents := 0, owner := p, idx := j }

/-- The endpoint loop of `prepare_poll_resources` for descriptor `p`, from
endpoint `j` with `n` endpoints to go; the state is the arrays and the running
index `i`. -/
def prepare_endpoints (w : World) (p : Nat) : Nat → Nat → poll_table × Nat → poll_table × Nat
  | 0, _, st => st
  | n + 1, j, st =>
    prepare_endpoints w p n (j + 1) (st.1.put st.2 (poll_slot w p j), st.2 + 1)

/-- The body of the table walk of `prepare_poll_resources` for descriptor `p`. -/
def prepare_visit (w : World) (st : poll_table × Nat) (p : Nat) : poll_table × Nat :=
  let stat := (w.heap p).status
  if stat = PST_PENDING ∨ stat = PST_CLOSED then st
  else prepare_endpoints w p PROXY_ENDPOINTS 0 st

/-- The function `prepare_poll_resources`: the arrays after the walk and the
value returned.  The walk runs under the read lock and changes nothing in the
shared state. -/
def prepare_poll_resources (w : World) (pr : poll_table) : poll_table × Nat :=
  w.syntab.conns.foldl (prepare_visit w) (pr, 0)

/-- Whether the walk of `prepare_poll_resources` takes descriptor `p`: its status
is neither PENDING nor CLOSED. -/
def polled (w : World) (p : Nat) : Bool :=
  !(decide ((w.heap p).status = PST_PENDING) || decide ((w.heap p).status = PST_CLOSED))

/-! ## Poller: reaping the handled descriptors -/

/-- The test the reap loop makes on an endpoint: ERROR, or EOF with an empty
buffer. -/
def reap_test (e : pep_endpoint) : Bool :=
  e.iostat.err || (e.iostat.eof && pepbuf_empty e.buf)

/-- The statement `endp->iostat &= ~(PEP_IOWDONE | PEP_IORDONE | PEP_IOEOF)`. -/
def iostat_renew (x : io_status) : io_status :=
  { x with wdone := false, rdone := false, eof := false }

/-- The endpoint loop of the reap step for descriptor `p`, from endpoint `i`
with `n` endpoints to go.  The flag tells whether the descriptor was unlinked
and destroyed (the `break`). -/
def reap_endpoints (p : Nat) : Nat → Nat → World → World × Bool
  | 0, _, w => (w, false)
  | n + 1, i, w =>
    if reap_test ((w.heap p).endpoint i) then (destroy_proxy w p, true)
    else
      reap_endpoints p n (i + 1)
        (w.modify p (fun x =>
          x.set_endpoint i { x.endpoint i with iostat := iostat_renew (x.endpoint i).iostat }))

/-- The body of the reap loop of `poller_loop` for the list node `p`: clear
`enqueued`, then run the endpoint loop; a destroyed descriptor is unlinked from
the local list. -/
def reap_visit (st : World × List Nat) (p : Nat) : World × List Nat :=
  let r := reap_endpoints p PROXY_ENDPOINTS 0 (st.1.modify p (fun x => { x with enqueued := false }))
  (r.1, if r.2 then st.2.erase p else st.2)

/-- The reap loop of `poller_loop` over the descriptors `l` taken back from the
ready queue (`list_for_each_safe`: the body unlinks at most the node it
visits). -/
def reap_loop (l : List Nat) (w : World) : World × List Nat :=
  l.foldl reap_visit (w, l)

/-- A descriptor after a reap round that did not destroy it. -/
def reaped (x : pep_proxy) : pep_proxy :=
  { x with enqueued := false,
           src := { x.src with iostat := iostat_renew x.src.iostat },
           dst := { x.dst with iostat := iostat_renew x.dst.iostat } }

/-! ## Garbage collector -/

/-- The body of the sweep loop of `garbage_connections_collector` for the table
node `p`: skip what is not pending, destroy what has been pending for at least
`pending_conn_lifetime` seconds. -/
def gc_visit (t_now pending_conn_lifetime : Int) (w : World) (p : Nat) : World :=
  if (w.heap p).status ≠ PST_PENDING then w
  else
    let t_diff := t_now - (w.heap p).syn_time
    if t_diff ≥ pending_conn_lifetime then destroy_proxy w p else w

/-- The function `garbage_connections_collector`, with the clock reading
`t_now` and the configured `pending_conn_lifetime`.  `list_for_each_safe` reads
the successor of a node before the body runs and the body unlinks at most the
node it visits, so the loop visits the nodes the table held on entry, in
order. -/
def garbage_connections_collector (t_now pending_conn_lifetime : Int) (w : World) : World :=
  let w1 := SYNTAB_LOCK_WRITE w
  let w2 := w1.syntab.conns.foldl (gc_visit t_now pending_conn_lifetime) w1
  SYNTAB_UNLOCK_WRITE w2

/-- The collection condition of the sweep. -/
def gc_collects (t_now pending_conn_lifetime : Int) (x : pep_proxy) : Prop :=
  x.status = PST_PENDING ∧ t_now - x.syn_time ≥ pending_conn_lifetime

/-! ## Listener -/

/-- What one round of the accept loop of `listener_loop` gets from outside: the
results of its system and library calls, the egress configuration, and
`others`, the steps other threads (the garbage collector) take on the shared
state between the listener's `SYNTAB_UNLOCK_READ` and its status check. -/
structure listener_env where
  accept_ret : Int
  cliaddr : sockaddr_in
  calloc_ok : Bool
  getsockname_res : Option sockaddr_in
  t_now : Int
  others : World → World
  gethostbyname_ok : Bool
  socket_ret : Int
  mark_egress : Nat
  so_mark_ret : Int
  algo_egress_len : Nat
  so_congestion_ret : Int
  so_transparent_ret : Int
  connect_ret : Int
  connect_errno : Int
  kill_ret : Int
  past : Nat → Int

/-- The code at the label `close_connection` of `listener_loop`. -/
def close_connection (connfd out_fd : Int) (proxy : Option Nat) (w : World) : World :=
  let w1 := w.emit [sys_event.close connfd]
  let w2 := if out_fd ≥ 0 then w1.emit [sys_event.close out_fd] else w1
  match proxy with
  | some p => destroy_proxy w2 p
  | none => w2

/-- The table lookup of the accept loop: `syntab_find`, and when nothing is
found `save_proxy_from_socket` followed by a second `syntab_find`.  The read
lock is held on return. -/
def listener_lookup (env : listener_env) (w : World) : World × Option Nat :=
  let key : syntab_key :=
    { addr := ntohl env.cliaddr.sin_addr, port := ntohs env.cliaddr.sin_port }
  let w1 := SYNTAB_LOCK_READ w
  match syntab_find w1 key with
  | some p => (w1, some p)
  | none =>
    let w2 := SYNTAB_UNLOCK_READ w1
    let w3 := (save_proxy_from_socket env.calloc_ok env.getsockname_res env.t_now env.cliaddr w2).1
    let w4 := SYNTAB_LOCK_READ w3
    (w4, syntab_find w4 key)

/-- The accept loop of `listener_loop` from the pin on, for the descriptor `p`
found in the table and the accepted fd `connfd`. -/
def listener_activate (env : listener_env) (connfd : Int) (p : Nat) (w : World) :
    Except fault World :=
  let w3 := pin_proxy w p
  if (w3.heap p).status ≠ PST_PENDING then .error .assert_failed
  else
    let w4 := env.others (SYNTAB_UNLOCK_READ w3)
    if !env.gethostbyname_ok then .ok (close_connection connfd (-1) (some p) w4)
    else if env.socket_ret < 0 then .ok (close_connection connfd (-1) (some p) w4)
    else
      let out_fd := env.socket_ret
      if env.mark_egress > 0 ∧ env.so_mark_ret < 0 then .error .process_exit
      else if env.algo_egress_len > 0 ∧ env.so_congestion_ret < 0 then .error .process_exit
      else if env.so_transparent_ret < 0 then .error .process_exit
      else if env.connect_ret < 0 ∧ nonblocking_err_p env.past env.connect_errno = 0 then
        .ok (close_connection connfd out_fd (some p) w4)
      else
        let w5 := w4.modify p (fun x =>
          { x with src := { x.src with fd := connfd }, dst := { x.dst with fd := out_fd } })
        if (w5.heap p).status = PST_CLOSED then
          .ok (close_connection connfd out_fd (some p) (unpin_proxy w5 p))
        else
          let w6 := w5.modify p (fun x => { x with status := PST_CONNECT })
          let w7 := unpin_proxy w6 p
          if env.kill_ret ≠ 0 then .error .process_exit
          else .ok (w7.emit [sys_event.kill_poller])

/-- One round of the accept loop of `listener_loop`. -/
def listener_iteration (env : listener_env) (w : World) : Except fault World :=
  if env.accept_ret < 0 then .ok w
  else
    let connfd := env.accept_ret
    let r := listener_lookup env w
    match r.2 with
    | none => .ok (close_connection connfd (-1) none (SYNTAB_UNLOCK_READ r.1))
    | some p => listener_activate env connfd p r.1

/-! ## Ingress MSS clamp -/

def IP_HEADER_SIZE : Int := 24
def TCP_HEADER_SIZE : Int := 26

/-- The constant `MAX_TCP_WINDOW`, `32767U`: an `unsigned int`. -/
def MAX_TCP_WINDOW : Int := 32767

/-- The value of an `int` expression, wrapped to 32 bits two's complement. -/
def wrap_int32 (x : Int) : Int := (x + 2147483648) % 4294967296 - 2147483648

/-- The conversion of an `int` to `unsigned int`, which the comparison with the
unsigned `MAX_TCP_WINDOW` applies to its `int` operand. -/
def to_uint32 (x : Int) : Int := x % 4294967296

/-- The block "update ingress MSS if required" of `listener_loop`: the value
handed to `setsockopt(TCP_MAXSEG)`, or `none` when the option is not set. -/
def ingress_maxseg_option (ingress_mtu : Int) : Option Int :=
  if ingress_mtu > 80 then
    let ingress_maxseg := wrap_int32 (wrap_int32 (ingress_mtu - IP_HEADER_SIZE) - TCP_HEADER_SIZE)
    if to_uint32 ingress_maxseg > MAX_TCP_WINDOW then some MAX_TCP_WINDOW
    else some ingress_maxseg
  else none

/-! ## Sample states -/

/-- An endpoint with the fd `fd`, a buffer of capacity 8 holding `n` bytes when
`init` is set, and the default interest mask. -/
def sample_endpoint (addr port : Nat) (fd : Int) (init : Bool) (n : Nat) : pep_endpoint :=
  { addr := addr, port := port, fd := fd,
    buf := { initialized := init, capacity := if init then 8 else 0, r_pos := n, w_pos := 0,
             count := n },
    poll_events := ENDPOINT_POLLEVENTS,
    iostat := { rdone := false, wdone := false, err := false, eof := false } }

/-- A world whose heap holds the descriptor `x` at pointer 0 (and zeroed memory
elsewhere) and whose SYN table lists `conns`. -/
def sample_world (x : pep_proxy) (conns : List Nat) : World :=
  { heap := fun q => if q = 0 then x else zero_proxy,
    brk := 1, syntab := { conns := conns, max_items := 4 },
    wr_locked := false, rd_locks := 0, relocks := 0, trace := [] }

/-- A closed descriptor still pinned twice, already out of the table. -/
def closed_proxy : pep_proxy :=
  { status := PST_CLOSED, src := sample_endpoint 10 1000 5 false 0,
    dst := sample_endpoint 20 80 6 false 0,
    syn_time := 100, last_rxtx := 0, enqueued := false, refcnt := 2 }

/-- An open descriptor with both fds set, both buffers initialised, held by the
table only. -/
def open_proxy : pep_proxy :=
  { status := PST_OPEN, src := sample_endpoint 10 1000 5 true 3,
    dst := sample_endpoint 20 80 6 true 0,
    syn_time := 100, last_rxtx := 0, enqueued := false, refcnt := 1 }

/-- A descriptor recorded at time 100 and never activated. -/
def pending_proxy : pep_proxy :=
  { status := PST_PENDING, src := sample_endpoint 10 1000 (-1) false 0,
    dst := sample_endpoint 20 80 (-1) false 0,
    syn_time := 100, last_rxtx := 0, enqueued := false, refcnt := 1 }

/-- The client address 10.0.0.1:1000 as the socket layer delivers it. -/
def sample_cliaddr : sockaddr_in := { sin_addr := 0x0100000A, sin_port := 0xE803 }

/-- A pending descriptor recorded for the client of `sample_cliaddr`. -/
def pending_client : pep_proxy :=
  { status := PST_PENDING, src := sample_endpoint 0x0A000001 1000 (-1) false 0,
    dst := sample_endpoint 20 80 (-1) false 0,
    syn_time := 100, last_rxtx := 0, enqueued := false, refcnt := 1 }

/-- A source that delivers 5 bytes (or as many as fit) on the first `read` and
then would block. -/
def sample_rd (k len : Nat) : io_result :=
  if k = 0 then io_result.bytes (min len 5) else io_result.fail EAGAIN

/-- A peer that takes at most 2 bytes per `write`. -/
def sample_wr (_k len : Nat) : io_result := io_result.bytes (min len 2)

/-- A descriptor the listener has activated: both fds attached, connect in
progress, no buffer yet. -/
def connecting_proxy : pep_proxy :=
  { status := PST_CONNECT, src := sample_endpoint 10 1000 5 false 0,
    dst := sample_endpoint 20 80 6 false 0,
    syn_time := 100, last_rxtx := 0, enqueued := false, refcnt := 1 }

/-- An environment in which every connect has succeeded so far and memory is
available. -/
def sample_env : poller_env :=
  { so_error := fun _ => 0, buf_alloc_ok := fun _ _ => true, buf_capacity := 8 }

/-- An environment in which the connect on fd 6 was refused (`ECONNREFUSED`). -/
def refused_env : poller_env :=
  { so_error := fun fd => if fd = 6 then 111 else 0, buf_alloc_ok := fun _ _ => true,
    buf_capacity := 8 }

/-- The two poll slots of the descriptor at pointer 0 (fds 5 and 6) with the
given `revents`. -/
def sample_pfds (src_revents dst_revents : Nat) : List poll_entry :=
  [{ fd := 5, events := ENDPOINT_POLLEVENTS, revents := src_revents, owner := 0, idx := 0 },
   { fd := 6, events := ENDPOINT_POLLEVENTS, revents := dst_revents, owner := 0, idx := 1 }]

/-- The state a dispatch run ends in (the entry state if the process exits). -/
def dispatch_result (env : poller_env) (pfds : List poll_entry) (w : World) : dispatch_state :=
  match poller_dispatch env pfds w with
  | .ok st => st
  | .error _ => { w := w, local_list := [], num_works := 0 }

/-- A round of the accept loop for the client of `sample_cliaddr` in which
`gethostbyname` fails and no other thread interferes. -/
def failing_listener_env : listener_env :=
  { accept_ret := 7, cliaddr := sample_cliaddr, calloc_ok := true,
    getsockname_res := some { sin_addr := 20, sin_port := 80 }, t_now := 130,
    others := fun w => w, gethostbyname_ok := false, socket_ret := 8,
    mark_egress := 0, so_mark_ret := 0, algo_egress_len := 0, so_congestion_ret := 0,
    so_transparent_ret := 0, connect_ret := -1, connect_errno := EINPROGRESS,
    kill_ret := 0, past := fun _ => 0 }

/-- A round of the accept loop for the client of `sample_cliaddr` in which every
call succeeds. -/
def good_listener_env : listener_env :=
  { failing_listener_env with gethostbyname_ok := true }

/-- A round of the accept loop for the client of `sample_cliaddr` during which
the garbage collector sweeps at time 200 with a lifetime of 60 seconds. -/
def raced_listener_env : listener_env :=
  { failing_listener_env with gethostbyname_ok := true,
                              others := garbage_connections_collector 200 60 }

/-- The state a round of the accept loop ends in (the entry state if the
program stops). -/
def listener_result (env : listener_env) (w : World) : World :=
  match listener_iteration env w with
  | .ok w1 => w1
  | .error _ => w

def ECONNRESET : Int := 104
def EPIPE : Int := 32

/-- An endpoint ready for I/O: fd 5, a buffer of capacity 8 holding 3 bytes, no
flag set. -/
def io_endpoint : pep_endpoint := sample_endpoint 10 1000 5 true 3

/-- A `read` that fails with `ECONNRESET`. -/
def reset_rd (_len : Nat) : io_result := io_result.fail ECONNRESET

/-- A `write` that fails with `EPIPE`. -/
def broken_wr (_len : Nat) : io_result := io_result.fail EPIPE

/-- The interest mask `pep_proxy_data` leaves on `from` when ERROR is not set. -/
def interest_in (frm : pep_endpoint) : Nat :=
  if (pepbuf_full frm.buf || frm.iostat.eof) = true then mask_clear frm.poll_events POLLIN
  else if frm.iostat.rdone = true then frm.poll_events ||| POLLIN
  else frm.poll_events

/-- The interest mask `pep_proxy_data` leaves on `to` when ERROR is not set on
`from`. -/
def interest_out (frm dest : pep_endpoint) : Nat :=
  if pepbuf_empty frm.buf = true then mask_clear dest.poll_events POLLOUT
  else dest.poll_events ||| POLLOUT

/-- The endpoints a `pep_proxy_data` call ends with (the entry endpoints if it
does not end within `fuel` rounds). -/
def splice_result (past : Nat → Int) (rd wr : Nat → Nat → io_result) (fuel : Nat)
    (frm dest : pep_endpoint) : pep_endpoint × pep_endpoint :=
  match pep_proxy_data past rd wr fuel frm dest with
  | .ok (some r) => r
  | _ => (frm, dest)

/-- An open descriptor back from a worker: the client has closed (EOF on `src`
with its buffer drained). -/
def finished_proxy : pep_proxy :=
  { open_proxy with enqueued := true,
                    src := { sample_endpoint 10 1000 5 true 0 with
                      iostat := { rdone := false, wdone := false, err := false, eof := true } } }

/-- An open descriptor back from a worker while data is still in flight: the
client has closed (EOF on `src`) but 3 bytes of its buffer are not yet sent. -/
def draining_proxy : pep_proxy :=
  { open_proxy with enqueued := true,
                    src := { sample_endpoint 10 1000 5 true 3 with
                      iostat := { rdone := false, wdone := false, err := false, eof := true } } }

/-- An open descriptor back from a worker with more to do: READ_DONE on `src`,
WRITE_DONE on `dst`. -/
def busy_proxy : pep_proxy :=
  { open_proxy with enqueued := true,
                    src := { sample_endpoint 10 1000 5 true 3 with
                      iostat := { rdone := true, wdone := false, err := false, eof := false } },
                    dst := { sample_endpoint 20 80 6 true 0 with
                      iostat := { rdone := false, wdone := true, err := false, eof := false } } }

/-- A world with three descriptors: a pending one at pointer 1, open ones at
pointers 0 and 2, all in the table. -/
def three_world : World :=
  { heap := fun q => if q = 0 then open_proxy else if q = 1 then pending_proxy
                     else if q = 2 then busy_proxy else zero_proxy,
    brk := 3, syntab := { conns := [0, 1, 2], max_items := 4 },
    wr_locked := false, rd_locks := 0, relocks := 0, trace := [] }

/-- Poll arrays for 4 connections, zeroed. -/
def zero_poll_table : poll_table :=
  { slots := fun _ => { fd := 0, events := 0, revents := 0, owner := 0, idx := 0 },
    num_pollfds := 8 }

/-- The state at program start: an empty SYN table of capacity 4, nothing
allocated, no lock held. -/
def initial_world : World :=
  { heap := fun _ => zero_proxy, brk := 0, syntab := { conns := [], max_items := 4 },
    wr_locked := false, rd_locks := 0, relocks := 0, trace := [] }

/-- A later round of the accept loop: another connection from the client of
`sample_cliaddr`, same address and port, to another destination; every call
succeeds. -/
def second_listener_env : listener_env :=
  { good_listener_env with accept_ret := 9, socket_ret := 10,
                           getsockname_res := some { sin_addr := 30, sin_port := 443 } }

/-! ## Basic facts about the heap operations -/

@[simp] theorem modify_heap_same (w : World) (p : Nat) (f : pep_proxy → pep_proxy) :
    (w.modify p f).heap p = f (w.heap p) := by
  simp [World.modify]

@[simp] theorem modify_heap_other (w : World) (p q : Nat) (f : pep_proxy → pep_proxy)
    (h : q ≠ p) : (w.modify p f).heap q = w.heap q := by
  simp [World.modify, Function.update, h]

@[simp] theorem modify_syntab (w : World) (p : Nat) (f : pep_proxy → pep_proxy) :
    (w.modify p f).syntab = w.syntab := rfl

@[simp] theorem modify_trace (w : World) (p : Nat) (f : pep_proxy → pep_proxy) :
    (w.modify p f).trace = w.trace := rfl

@[simp] theorem modify_brk (w : World) (p : Nat) (f : pep_proxy → pep_proxy) :
    (w.modify p f).brk = w.brk := rfl

@[simp] theorem modify_wr_locked (w : World) (p : Nat) (f : pep_proxy → pep_proxy) :
    (w.modify p f).wr_locked = w.wr_locked := rfl

@[simp] theorem modify_relocks (w : World) (p : Nat) (f : pep_proxy → pep_proxy) :
    (w.modify p f).relocks = w.relocks := rfl

@[simp] theorem emit_heap (w : World) (evs : List sys_event) : (w.emit evs).heap = w.heap := rfl

@[simp] theorem emit_syntab (w : World) (evs : List sys_event) :
    (w.emit evs).syntab = w.syntab := rfl

@[simp] theorem emit_trace (w : World) (evs : List sys_event) :
    (w.emit evs).trace = w.trace ++ evs := rfl

@[simp] theorem emit_brk (w : World) (evs : List sys_event) : (w.emit evs).brk = w.brk := rfl

@[simp] theorem emit_wr_locked (w : World) (evs : List sys_event) :
    (w.emit evs).wr_locked = w.wr_locked := rfl

@[simp] theorem emit_relocks (w : World) (evs : List sys_event) :
    (w.emit evs).relocks = w.relocks := rfl

/-! ## `unpin_proxy` -/

theorem unpin_heap_same (w : World) (p : Nat) :
    (unpin_proxy w p).heap p = { w.heap p with refcnt := (w.heap p).refcnt - 1 } := by
  unfold unpin_proxy atomic_dec_refcnt free_proxy
  by_cases h : (w.heap p).refcnt = 1 <;> simp [h]

theorem unpin_heap_other (w : World) (p q : Nat) (h : q ≠ p) :
    (unpin_proxy w p).heap q = w.heap q := by
  unfold unpin_proxy atomic_dec_refcnt free_proxy
  by_cases h1 : (w.heap p).refcnt = 1 <;> simp [h1, h]

theorem unpin_syntab (w : World) (p : Nat) : (unpin_proxy w p).syntab = w.syntab := by
  unfold unpin_proxy atomic_dec_refcnt free_proxy
  by_cases h1 : (w.heap p).refcnt = 1 <;> simp [h1]

theorem unpin_trace (w : World) (p : Nat) :
    (unpin_proxy w p).trace
      = w.trace ++ (if (w.heap p).refcnt = 1 then [sys_event.free p] else []) := by
  unfold unpin_proxy atomic_dec_refcnt free_proxy
  by_cases h1 : (w.heap p).refcnt = 1 <;> simp [h1]

theorem unpin_locks (w : World) (p : Nat) :
    (unpin_proxy w p).wr_locked = w.wr_locked ∧ (unpin_proxy w p).relocks = w.relocks := by
  unfold unpin_proxy atomic_dec_refcnt free_proxy
  by_cases h1 : (w.heap p).refcnt = 1 <;> simp [h1]

theorem unpin_brk (w : World) (p : Nat) : (unpin_proxy w p).brk = w.brk := by
  unfold unpin_proxy atomic_dec_refcnt free_proxy
  by_cases h1 : (w.heap p).refcnt = 1 <;> simp [h1]

/-! ## `destroy_proxy` on a closed descriptor -/

/-- C1: on a descriptor whose status is already CLOSED, `destroy_proxy` only
unpins.  The reference count drops by exactly one and nothing else in the
descriptor changes (status, both fds, both buffers), the SYN table and every
other descriptor are untouched, the lock is not taken, and the only outside
effect is the `free` of the descriptor when the count was 1: no `close`, no
table removal, no buffer release. -/
theorem destroy_proxy_closed_only_unpins (w : World) (p : Nat)
    (h : (w.heap p).status = PST_CLOSED) :
    (destroy_proxy w p).heap p = { w.heap p with refcnt := (w.heap p).refcnt - 1 }
    ∧ ((destroy_proxy w p).heap p).refcnt = (w.heap p).refcnt - 1
    ∧ ((destroy_proxy w p).heap p).status = PST_CLOSED
    ∧ ((destroy_proxy w p).heap p).src.fd = (w.heap p).src.fd
    ∧ ((destroy_proxy w p).heap p).dst.fd = (w.heap p).dst.fd
    ∧ ((destroy_proxy w p).heap p).src.buf = (w.heap p).src.buf
    ∧ ((destroy_proxy w p).heap p).dst.buf = (w.heap p).dst.buf
    ∧ (destroy_proxy w p).syntab = w.syntab
    ∧ (∀ q, q ≠ p → (destroy_proxy w p).heap q = w.heap q)
    ∧ (destroy_proxy w p).relocks = w.relocks
    ∧ (destroy_proxy w p).wr_locked = w.wr_locked
    ∧ (destroy_proxy w p).trace
        = w.trace ++ (if (w.heap p).refcnt = 1 then [sys_event.free p] else []) := by
  have hd : destroy_proxy w p = unpin_proxy w p := by
    unfold destroy_proxy
    simp [h]
  rw [hd, unpin_heap_same]
  refine ⟨rfl, rfl, ?_, rfl, rfl, rfl, rfl, unpin_syntab w p, ?_, (unpin_locks w p).2,
    (unpin_locks w p).1, unpin_trace w p⟩
  · simpa using h
  · intro q hq
    exact unpin_heap_other w p q hq

theorem destroy_proxy_closed_only_unpins_witness :
    ((sample_world closed_proxy []).heap 0).status = PST_CLOSED
    ∧ ((destroy_proxy (sample_world closed_proxy []) 0).heap 0).refcnt = 1
    ∧ (destroy_proxy (sample_world closed_proxy []) 0).trace = [] :=
  ⟨rfl, (destroy_proxy_closed_only_unpins (sample_world closed_proxy []) 0 rfl).2.1,
    (destroy_proxy_closed_only_unpins (sample_world closed_proxy []) 0 rfl).2.2.2.2.2.2.2.2.2.2.2⟩

theorem destroy_proxy_closed_eq (w : World) (p : Nat) (h : (w.heap p).status = PST_CLOSED) :
    destroy_proxy w p = unpin_proxy w p := by
  unfold destroy_proxy
  simp [h]

theorem destroy_proxy_closed_heap_other (w : World) (p : Nat)
    (h : (w.heap p).status = PST_CLOSED) :
    ∀ q, q ≠ p → (destroy_proxy w p).heap q = w.heap q := by
  intro q hq
  rw [destroy_proxy_closed_eq w p h]
  exact unpin_heap_other w p q hq

/-! ## `destroy_proxy` on a descriptor that is not closed -/

/-- What `destroy_endpoint` leaves in an endpoint: the buffer released if it
was initialised, everything else as it was. -/
theorem destroy_endpoint_heap_same (w : World) (p j : Nat) :
    (destroy_endpoint w p j).heap p
      = if pepbuf_initialized ((w.heap p).endpoint j).buf then
          (w.heap p).set_endpoint j
            { (w.heap p).endpoint j with buf := pepbuf_deinit ((w.heap p).endpoint j).buf }
        else w.heap p := by
  unfold destroy_endpoint
  by_cases h1 : ((w.heap p).endpoint j).fd ≥ 0 <;>
    by_cases h2 : pepbuf_initialized ((w.heap p).endpoint j).buf = true <;> simp [h1, h2]

theorem destroy_endpoint_heap_other (w : World) (p j q : Nat) (h : q ≠ p) :
    (destroy_endpoint w p j).heap q = w.heap q := by
  unfold destroy_endpoint
  by_cases h1 : ((w.heap p).endpoint j).fd ≥ 0 <;>
    by_cases h2 : pepbuf_initialized ((w.heap p).endpoint j).buf = true <;> simp [h1, h2, h]

theorem destroy_endpoint_syntab (w : World) (p j : Nat) :
    (destroy_endpoint w p j).syntab = w.syntab := by
  unfold destroy_endpoint
  by_cases h1 : ((w.heap p).endpoint j).fd ≥ 0 <;>
    by_cases h2 : pepbuf_initialized ((w.heap p).endpoint j).buf = true <;> simp [h1, h2]

theorem destroy_endpoint_locks (w : World) (p j : Nat) :
    (destroy_endpoint w p j).wr_locked = w.wr_locked
    ∧ (destroy_endpoint w p j).relocks = w.relocks
    ∧ (destroy_endpoint w p j).brk = w.brk := by
  unfold destroy_endpoint
  by_cases h1 : ((w.heap p).endpoint j).fd ≥ 0 <;>
    by_cases h2 : pepbuf_initialized ((w.heap p).endpoint j).buf = true <;> simp [h1, h2]

/-- The outside effects of one round of the endpoint loop. -/
theorem destroy_endpoint_trace (w : World) (p j : Nat) :
    (destroy_endpoint w p j).trace
      = w.trace
        ++ (if ((w.heap p).endpoint j).fd ≥ 0 then
              [sys_event.fcntl_setfl_sync ((w.heap p).endpoint j).fd,
               sys_event.close ((w.heap p).endpoint j).fd] else [])
        ++ (if pepbuf_initialized ((w.heap p).endpoint j).buf then
              [sys_event.buf_release p j] else []) := by
  unfold destroy_endpoint
  by_cases h1 : ((w.heap p).endpoint j).fd ≥ 0 <;>
    by_cases h2 : pepbuf_initialized ((w.heap p).endpoint j).buf = true <;> simp [h1, h2]

theorem destroy_proxy_not_closed_eq (w : World) (p : Nat)
    (h : (w.heap p).status ≠ PST_CLOSED) :
    destroy_proxy w p = unpin_proxy (destroy_before_unpin w p) p := by
  unfold destroy_proxy destroy_before_unpin
  simp [h]

theorem destroy_before_unpin_heap_other (w : World) (p q : Nat) (h : q ≠ p) :
    (destroy_before_unpin w p).heap q = w.heap q := by
  unfold destroy_before_unpin
  rw [destroy_endpoint_heap_other _ _ _ _ h, destroy_endpoint_heap_other _ _ _ _ h]
  simp [SYNTAB_UNLOCK_WRITE, SYNTAB_LOCK_WRITE, syntab_delete, h, World.modify, Function.update]

theorem destroy_before_unpin_conns (w : World) (p : Nat) :
    (destroy_before_unpin w p).syntab.conns = w.syntab.conns.filter (fun q => q != p) := by
  unfold destroy_before_unpin
  rw [destroy_endpoint_syntab, destroy_endpoint_syntab]
  simp [SYNTAB_UNLOCK_WRITE, SYNTAB_LOCK_WRITE, syntab_delete, World.modify]

theorem destroy_before_unpin_max_items (w : World) (p : Nat) :
    (destroy_before_unpin w p).syntab.max_items = w.syntab.max_items := by
  unfold destroy_before_unpin
  rw [destroy_endpoint_syntab, destroy_endpoint_syntab]
  simp [SYNTAB_UNLOCK_WRITE, SYNTAB_LOCK_WRITE, syntab_delete, World.modify]

theorem destroy_before_unpin_heap_same (w : World) (p : Nat) :
    (destroy_before_unpin w p).heap p
      = { w.heap p with status := PST_CLOSED, src := torn_down (w.heap p).src,
                        dst := torn_down (w.heap p).dst } := by
  unfold destroy_before_unpin
  rw [destroy_endpoint_heap_same, destroy_endpoint_heap_same]
  simp only [SYNTAB_UNLOCK_WRITE, SYNTAB_LOCK_WRITE, syntab_delete, World.modify,
    Function.update_same, pep_proxy.endpoint, pep_proxy.set_endpoint, torn_down]
  by_cases h1 : pepbuf_initialized (w.heap p).src.buf = true <;>
    by_cases h2 : pepbuf_initialized (w.heap p).dst.buf = true <;> simp [h1, h2]

theorem destroy_before_unpin_trace (w : World) (p : Nat) :
    (destroy_before_unpin w p).trace
      = w.trace ++ (teardown_events p 0 (w.heap p).src ++ teardown_events p 1 (w.heap p).dst) := by
  unfold destroy_before_unpin
  rw [destroy_endpoint_trace, destroy_endpoint_heap_same, destroy_endpoint_trace]
  simp only [SYNTAB_UNLOCK_WRITE, SYNTAB_LOCK_WRITE, syntab_delete, World.modify,
    Function.update_same, pep_proxy.endpoint, pep_proxy.set_endpoint, teardown_events]
  by_cases h1 : pepbuf_initialized (w.heap p).src.buf = true <;>
    by_cases h2 : pepbuf_initialized (w.heap p).dst.buf = true <;> simp [h1, h2]

theorem destroy_before_unpin_locks (w : World) (p : Nat) :
    (destroy_before_unpin w p).wr_locked = false
    ∧ (destroy_before_unpin w p).relocks = (if w.wr_locked then w.relocks + 1 else w.relocks)
    ∧ (destroy_before_unpin w p).brk = w.brk := by
  unfold destroy_before_unpin
  rw [(destroy_endpoint_locks _ _ _).1, (destroy_endpoint_locks _ _ _).2.1,
    (destroy_endpoint_locks _ _ _).2.2, (destroy_endpoint_locks _ _ _).1,
    (destroy_endpoint_locks _ _ _).2.1, (destroy_endpoint_locks _ _ _).2.2]
  simp [SYNTAB_UNLOCK_WRITE, SYNTAB_LOCK_WRITE, syntab_delete, World.modify]

theorem torn_down_not_initialized (e : pep_endpoint) :
    pepbuf_initialized (torn_down e).buf = false := by
  unfold torn_down
  by_cases h : pepbuf_initialized e.buf = true
  · rw [if_pos h]
    rfl
  · rw [if_neg h]
    simpa using h

theorem torn_down_fd (e : pep_endpoint) : (torn_down e).fd = e.fd := by
  unfold torn_down
  by_cases h : pepbuf_initialized e.buf = true <;> simp [h]

/-- C2: on a descriptor whose status is not CLOSED, `destroy_proxy` leaves the
status CLOSED and the descriptor out of the SYN table; among the outside
effects it adds, every endpoint fd that was `>= 0` is closed and every endpoint
buffer that was initialised is released, so that no buffer of the descriptor is
initialised afterwards; the reference count has dropped by exactly one, and the
descriptor is freed exactly when the count has reached zero. -/
theorem destroy_proxy_not_closed (w : World) (p : Nat)
    (h : (w.heap p).status ≠ PST_CLOSED) :
    ((destroy_proxy w p).heap p).status = PST_CLOSED
    ∧ p ∉ (destroy_proxy w p).syntab.conns
    ∧ ((destroy_proxy w p).heap p).refcnt = (w.heap p).refcnt - 1
    ∧ pepbuf_initialized ((destroy_proxy w p).heap p).src.buf = false
    ∧ pepbuf_initialized ((destroy_proxy w p).heap p).dst.buf = false
    ∧ ∃ evs, (destroy_proxy w p).trace = w.trace ++ evs
        ∧ ((w.heap p).src.fd ≥ 0 → sys_event.close (w.heap p).src.fd ∈ evs)
        ∧ ((w.heap p).dst.fd ≥ 0 → sys_event.close (w.heap p).dst.fd ∈ evs)
        ∧ (pepbuf_initialized (w.heap p).src.buf = true → sys_event.buf_release p 0 ∈ evs)
        ∧ (pepbuf_initialized (w.heap p).dst.buf = true → sys_event.buf_release p 1 ∈ evs)
        ∧ (sys_event.free p ∈ evs ↔ ((destroy_proxy w p).heap p).refcnt = 0) := by
  rw [destroy_proxy_not_closed_eq w p h, unpin_heap_same, unpin_syntab, unpin_trace,
    destroy_before_unpin_heap_same, destroy_before_unpin_conns, destroy_before_unpin_trace]
  refine ⟨rfl, ?_, rfl, torn_down_not_initialized _, torn_down_not_initialized _,
    teardown_events p 0 (w.heap p).src ++ teardown_events p 1 (w.heap p).dst
      ++ (if (w.heap p).refcnt = 1 then [sys_event.free p] else []), ?_, ?_, ?_, ?_, ?_, ?_⟩
  · simp
  · simp [List.append_assoc]
  · intro hfd
    simp [teardown_events, hfd]
  · intro hfd
    simp [teardown_events, hfd]
  · intro hb
    simp [teardown_events, hb]
  · intro hb
    simp [teardown_events, hb]
  · by_cases hr : (w.heap p).refcnt = 1
    · simp [hr]
    · have hne : (w.heap p).refcnt - 1 ≠ 0 := by omega
      simp only [hr, if_false, List.append_nil, hne, iff_false]
      unfold teardown_events
      by_cases h1 : (w.heap p).src.fd ≥ 0 <;> by_cases h2 : (w.heap p).dst.fd ≥ 0 <;>
        by_cases h3 : pepbuf_initialized (w.heap p).src.buf = true <;>
          by_cases h4 : pepbuf_initialized (w.heap p).dst.buf = true <;> simp [h1, h2, h3, h4]

theorem destroy_proxy_not_closed_witness :
    ((sample_world open_proxy [0]).heap 0).status ≠ PST_CLOSED
    ∧ ((destroy_proxy (sample_world open_proxy [0]) 0).heap 0).status = PST_CLOSED
    ∧ 0 ∉ (destroy_proxy (sample_world open_proxy [0]) 0).syntab.conns
    ∧ ((destroy_proxy (sample_world open_proxy [0]) 0).heap 0).refcnt
        = ((sample_world open_proxy [0]).heap 0).refcnt - 1 :=
  ⟨by decide, (destroy_proxy_not_closed (sample_world open_proxy [0]) 0 (by decide)).1,
    (destroy_proxy_not_closed (sample_world open_proxy [0]) 0 (by decide)).2.1,
    (destroy_proxy_not_closed (sample_world open_proxy [0]) 0 (by decide)).2.2.1⟩

/-! ## Frame of `destroy_proxy` -/

theorem destroy_proxy_heap_other (w : World) (p q : Nat) (h : q ≠ p) :
    (destroy_proxy w p).heap q = w.heap q := by
  by_cases hc : (w.heap p).status = PST_CLOSED
  · exact (destroy_proxy_closed_heap_other w p hc) q h
  · rw [destroy_proxy_not_closed_eq w p hc, unpin_heap_other _ _ _ h,
      destroy_before_unpin_heap_other _ _ _ h]

theorem destroy_proxy_mem_other (w : World) (p q : Nat) (h : q ≠ p) :
    q ∈ (destroy_proxy w p).syntab.conns ↔ q ∈ w.syntab.conns := by
  by_cases hc : (w.heap p).status = PST_CLOSED
  · rw [destroy_proxy_closed_eq w p hc, unpin_syntab]
  · rw [destroy_proxy_not_closed_eq w p hc, unpin_syntab, destroy_before_unpin_conns]
    simp [h]

theorem destroy_proxy_closes (w : World) (p : Nat) (h : (w.heap p).status ≠ PST_CLOSED) :
    ((destroy_proxy w p).heap p).status = PST_CLOSED ∧ p ∉ (destroy_proxy w p).syntab.conns := by
  rw [destroy_proxy_not_closed_eq w p h, unpin_heap_same, unpin_syntab,
    destroy_before_unpin_heap_same, destroy_before_unpin_conns]
  exact ⟨rfl, by simp⟩

/-! ## Garbage collector sweep -/

theorem gc_visit_other (t l : Int) (w : World) (p q : Nat) (h : p ≠ q) :
    (gc_visit t l w q).heap p = w.heap p
    ∧ (p ∈ (gc_visit t l w q).syntab.conns ↔ p ∈ w.syntab.conns) := by
  unfold gc_visit
  by_cases h1 : (w.heap q).status ≠ PST_PENDING
  · simp [h1]
  · by_cases h2 : t - (w.heap q).syn_time ≥ l
    · simp only [h1, h2, if_false, if_true]
      exact ⟨destroy_proxy_heap_other w q p h, destroy_proxy_mem_other w q p h⟩
    · simp [h1, h2]

theorem gc_visit_keep (t l : Int) (w : World) (p : Nat) (h : ¬ gc_collects t l (w.heap p)) :
    gc_visit t l w p = w := by
  unfold gc_visit
  unfold gc_collects at h
  by_cases h1 : (w.heap p).status ≠ PST_PENDING
  · simp [h1]
  · have h1' : (w.heap p).status = PST_PENDING := by simpa using h1
    have h2 : ¬ t - (w.heap p).syn_time ≥ l := fun hh => h ⟨h1', hh⟩
    simp [h1', h2]

theorem gc_visit_collect (t l : Int) (w : World) (p : Nat) (h : gc_collects t l (w.heap p)) :
    gc_visit t l w p = destroy_proxy w p := by
  unfold gc_visit
  simp [h.1, h.2]

/-- A descriptor that does not meet the collection condition goes through any
number of loop rounds untouched. -/
theorem gc_fold_keep (t l : Int) (p : Nat) (qs : List Nat) :
    ∀ w : World, ¬ gc_collects t l (w.heap p) →
      (qs.foldl (gc_visit t l) w).heap p = w.heap p
      ∧ (p ∈ (qs.foldl (gc_visit t l) w).syntab.conns ↔ p ∈ w.syntab.conns) := by
  induction qs with
  | nil => intro w _; simp
  | cons q qs ih =>
    intro w h
    rw [List.foldl_cons]
    by_cases hq : p = q
    · subst hq
      rw [gc_visit_keep t l w p h]
      exact ih w h
    · obtain ⟨h1, h2⟩ := gc_visit_other t l w p q hq
      have h3 := ih (gc_visit t l w q) (by rw [h1]; exact h)
      exact ⟨h3.1.trans h1, h3.2.trans h2⟩

/-- A descriptor that meets the collection condition and is among the nodes
still to be visited ends closed and out of the table. -/
theorem gc_fold_collect (t l : Int) (p : Nat) (qs : List Nat) :
    ∀ w : World, gc_collects t l (w.heap p) → p ∈ qs →
      ((qs.foldl (gc_visit t l) w).heap p).status = PST_CLOSED
      ∧ p ∉ (qs.foldl (gc_visit t l) w).syntab.conns := by
  induction qs with
  | nil => intro w _ hp; simp at hp
  | cons q qs ih =>
    intro w h hp
    rw [List.foldl_cons]
    by_cases hq : p = q
    · subst hq
      rw [gc_visit_collect t l w p h]
      have hne : (w.heap p).status ≠ PST_CLOSED := by
        rw [h.1]; decide
      have hd := destroy_proxy_closes w p hne
      have hk : ¬ gc_collects t l ((destroy_proxy w p).heap p) := by
        intro hh
        have h1 := hh.1
        rw [hd.1] at h1
        exact absurd h1 (by decide)
      obtain ⟨k1, k2⟩ := gc_fold_keep t l p qs (destroy_proxy w p) hk
      exact ⟨by rw [k1]; exact hd.1, fun hm => hd.2 (k2.mp hm)⟩
    · obtain ⟨h1, _⟩ := gc_visit_other t l w p q hq
      have hp' : p ∈ qs := by
        rcases List.mem_cons.mp hp with hpq | hpq
        · exact absurd hpq hq
        · exact hpq
      exact ih (gc_visit t l w q) (by rw [h1]; exact h) hp'

/-- C3: one sweep of `garbage_connections_collector` over any SYN table at any
time.  A descriptor of the table that is PENDING with
`now - syn_time >= pending_conn_lifetime` ends CLOSED and absent from the
table; every other descriptor of the table (not PENDING, or PENDING and
younger) stays in the table with all its fields, among them status, fds and
reference count, unchanged. -/
theorem gc_sweep_collects_exactly (t_now pending_conn_lifetime : Int) (w : World) (p : Nat)
    (hp : p ∈ w.syntab.conns) :
    (((w.heap p).status = PST_PENDING ∧ t_now - (w.heap p).syn_time ≥ pending_conn_lifetime) →
        ((garbage_connections_collector t_now pending_conn_lifetime w).heap p).status = PST_CLOSED
        ∧ p ∉ (garbage_connections_collector t_now pending_conn_lifetime w).syntab.conns)
    ∧ (¬ ((w.heap p).status = PST_PENDING
            ∧ t_now - (w.heap p).syn_time ≥ pending_conn_lifetime) →
        p ∈ (garbage_connections_collector t_now pending_conn_lifetime w).syntab.conns
        ∧ (garbage_connections_collector t_now pending_conn_lifetime w).heap p = w.heap p) := by
  have e1 : (garbage_connections_collector t_now pending_conn_lifetime w).heap
      = (w.syntab.conns.foldl (gc_visit t_now pending_conn_lifetime) (SYNTAB_LOCK_WRITE w)).heap :=
    rfl
  have e2 : (garbage_connections_collector t_now pending_conn_lifetime w).syntab
      = (w.syntab.conns.foldl (gc_visit t_now pending_conn_lifetime)
          (SYNTAB_LOCK_WRITE w)).syntab := rfl
  rw [e1, e2]
  constructor
  · intro h
    exact gc_fold_collect t_now pending_conn_lifetime p w.syntab.conns (SYNTAB_LOCK_WRITE w) h hp
  · intro h
    obtain ⟨k1, k2⟩ :=
      gc_fold_keep t_now pending_conn_lifetime p w.syntab.conns (SYNTAB_LOCK_WRITE w) h
    exact ⟨k2.mpr hp, k1⟩

theorem gc_sweep_collects_exactly_witness :
    (0 ∈ (sample_world pending_proxy [0]).syntab.conns)
    ∧ ((((sample_world pending_proxy [0]).heap 0).status = PST_PENDING
          ∧ (160 : Int) - ((sample_world pending_proxy [0]).heap 0).syn_time ≥ 60) →
        ((garbage_connections_collector 160 60 (sample_world pending_proxy [0])).heap 0).status
          = PST_CLOSED
        ∧ 0 ∉ (garbage_connections_collector 160 60 (sample_world pending_proxy [0])).syntab.conns)
    ∧ (¬ (((sample_world pending_proxy [0]).heap 0).status = PST_PENDING
          ∧ (160 : Int) - ((sample_world pending_proxy [0]).heap 0).syn_time ≥ 60) →
        0 ∈ (garbage_connections_collector 160 60 (sample_world pending_proxy [0])).syntab.conns
        ∧ (garbage_connections_collector 160 60 (sample_world pending_proxy [0])).heap 0
            = (sample_world pending_proxy [0]).heap 0) :=
  ⟨by decide, gc_sweep_collects_exactly 160 60 (sample_world pending_proxy [0]) 0 (by decide)⟩

/-! ## Duplicate SYN -/

theorem find_congr_on (f g : Nat → Bool) (l : List Nat) (h : ∀ q ∈ l, f q = g q) :
    l.find? f = l.find? g := by
  induction l with
  | nil => rfl
  | cons a l ih =>
    have ha : f a = g a := h a (List.mem_cons_self a l)
    have hl : ∀ q ∈ l, f q = g q := fun q hq => h q (List.mem_cons_of_mem a hq)
    simp [List.find?, ha, ih hl]

/-- A lookup only reads the table list and the descriptors on it. -/
theorem syntab_find_congr (w w2 : World) (key : syntab_key)
    (hc : w2.syntab.conns = w.syntab.conns)
    (hh : ∀ q ∈ w.syntab.conns, w2.heap q = w.heap q) :
    syntab_find w2 key = syntab_find w key := by
  unfold syntab_find
  rw [hc]
  apply find_congr_on
  intro q hq
  rw [hh q hq]

/-- The state in which the duplicate path of `save_proxy_from_socket` reaches
its final `unpin_proxy`: the table is the one on entry, the new descriptor is at
the pointer `brk` with one reference, nothing else has changed. -/
theorem save_proxy_duplicate_path (w : World) (cliaddr : sockaddr_in) (t_now : Int)
    (getsockname_res : Option sockaddr_in) (e : Nat)
    (hwf : ∀ q ∈ w.syntab.conns, q < w.brk)
    (hdup : syntab_find w { addr := ntohl cliaddr.sin_addr, port := ntohs cliaddr.sin_port }
              = some e) :
    ∃ x : World,
      (save_proxy_from_socket true getsockname_res t_now cliaddr w).1 = unpin_proxy x w.brk
      ∧ x.syntab = w.syntab ∧ (x.heap w.brk).refcnt = 1 ∧ x.trace = w.trace
      ∧ ∀ q, q ≠ w.brk → x.heap q = w.heap q := by
  cases getsockname_res with
  | none =>
    refine ⟨(alloc_proxy true w).1, ?_, ?_, ?_, ?_, ?_⟩
    · simp [save_proxy_from_socket, alloc_proxy]
    · simp [alloc_proxy]
    · simp [alloc_proxy, zero_proxy]
    · simp [alloc_proxy]
    · intro q hq
      simp [alloc_proxy, Function.update, hq]
  | some orig_dst =>
    let w1 : World := ((alloc_proxy true w).1).modify w.brk (fun x =>
        { x with src := { x.src with addr := ntohl cliaddr.sin_addr, port := ntohs cliaddr.sin_port },
                 dst := { x.dst with addr := ntohl orig_dst.sin_addr,
                                     port := ntohs orig_dst.sin_port },
                 syn_time := t_now })
    have hkey : syntab_format_key (w1.heap w.brk)
        = { addr := ntohl cliaddr.sin_addr, port := ntohs cliaddr.sin_port } := by
      simp [w1, syntab_format_key, alloc_proxy]
    have hother : ∀ q, q ≠ w.brk → (SYNTAB_LOCK_WRITE w1).heap q = w.heap q := by
      intro q hq
      simp [w1, SYNTAB_LOCK_WRITE, alloc_proxy, World.modify, Function.update, hq]
    have hfind : syntab_find (SYNTAB_LOCK_WRITE w1)
        { addr := ntohl cliaddr.sin_addr, port := ntohs cliaddr.sin_port } = some e := by
      rw [← hdup]
      apply syntab_find_congr
      · simp [w1, SYNTAB_LOCK_WRITE, alloc_proxy, World.modify]
      · intro q hq
        exact hother q (Nat.ne_of_lt (hwf q hq))
    refine ⟨SYNTAB_UNLOCK_WRITE (SYNTAB_LOCK_WRITE w1), ?_, ?_, ?_, ?_, ?_⟩
    · have hsave : save_proxy_from_socket true (some orig_dst) t_now cliaddr w
          = (match syntab_find (SYNTAB_LOCK_WRITE w1) (syntab_format_key (w1.heap w.brk)) with
            | some _dup => (unpin_proxy (SYNTAB_UNLOCK_WRITE (SYNTAB_LOCK_WRITE w1)) w.brk, none)
            | none =>
              let w3 := (SYNTAB_LOCK_WRITE w1).modify w.brk (fun x => { x with status := PST_PENDING })
              let r := syntab_add w3 w.brk
              let w5 := SYNTAB_UNLOCK_WRITE r.1
              if r.2 < 0 then (unpin_proxy w5 w.brk, some r.2)
              else if r.2 < 0 then (unpin_proxy (syntab_delete w5 w.brk) w.brk, some r.2)
              else (w5, some r.2)) := by
        simp [save_proxy_from_socket, alloc_proxy, w1]
      rw [hsave, hkey, hfind]
    · simp [w1, SYNTAB_UNLOCK_WRITE, SYNTAB_LOCK_WRITE, alloc_proxy, World.modify]
    · simp [w1, SYNTAB_UNLOCK_WRITE, SYNTAB_LOCK_WRITE, alloc_proxy, World.modify, zero_proxy]
    · simp [w1, SYNTAB_UNLOCK_WRITE, SYNTAB_LOCK_WRITE, alloc_proxy, World.modify]
    · intro q hq
      exact hother q hq

/-- C4: a SYN for a key the table already holds.  When the table (all of
whose descriptors are allocated, hence below `brk`) has the descriptor `e`
under the key of the client address and port, `save_proxy_from_socket` on a
connection from that client leaves the table as it was: `e` is still what the
key finds, the number of entries is the same, no descriptor already there
changes, and the descriptor the call allocated (at pointer `brk`, with one
reference) ends with reference count 0, is freed, and is not in the table. -/
theorem save_proxy_duplicate_syn_dropped (w : World) (cliaddr : sockaddr_in) (t_now : Int)
    (getsockname_res : Option sockaddr_in) (e : Nat)
    (hwf : ∀ q ∈ w.syntab.conns, q < w.brk)
    (hdup : syntab_find w { addr := ntohl cliaddr.sin_addr, port := ntohs cliaddr.sin_port }
              = some e) :
    (save_proxy_from_socket true getsockname_res t_now cliaddr w).1.syntab = w.syntab
    ∧ syntab_find (save_proxy_from_socket true getsockname_res t_now cliaddr w).1
        { addr := ntohl cliaddr.sin_addr, port := ntohs cliaddr.sin_port } = some e
    ∧ (save_proxy_from_socket true getsockname_res t_now cliaddr w).1.syntab.conns.length
        = w.syntab.conns.length
    ∧ (alloc_proxy true w).2 = some w.brk
    ∧ ((alloc_proxy true w).1.heap w.brk).refcnt = 1
    ∧ ((save_proxy_from_socket true getsockname_res t_now cliaddr w).1.heap w.brk).refcnt = 0
    ∧ w.brk ∉ (save_proxy_from_socket true getsockname_res t_now cliaddr w).1.syntab.conns
    ∧ (save_proxy_from_socket true getsockname_res t_now cliaddr w).1.trace
        = w.trace ++ [sys_event.free w.brk]
    ∧ ∀ q, q ≠ w.brk →
        (save_proxy_from_socket true getsockname_res t_now cliaddr w).1.heap q = w.heap q := by
  obtain ⟨x, hx, hs, hr, ht, hq⟩ :=
    save_proxy_duplicate_path w cliaddr t_now getsockname_res e hwf hdup
  have hfresh : w.brk ∉ w.syntab.conns := fun hm => Nat.lt_irrefl _ (hwf _ hm)
  rw [hx, unpin_syntab, unpin_heap_same, unpin_trace, hs, hr, ht]
  refine ⟨rfl, ?_, rfl, ?_, ?_, ?_, hfresh, ?_, ?_⟩
  · rw [← hdup]
    apply syntab_find_congr
    · rw [unpin_syntab, hs]
    · intro q hq1
      have hne : q ≠ w.brk := Nat.ne_of_lt (hwf q hq1)
      rw [unpin_heap_other _ _ _ hne, hq q hne]
  · simp [alloc_proxy]
  · simp [alloc_proxy, zero_proxy]
  · simp
  · simp
  · intro q hne
    rw [unpin_heap_other _ _ _ hne, hq q hne]

theorem save_proxy_duplicate_syn_dropped_witness :
    (∀ q ∈ (sample_world pending_client [0]).syntab.conns, q < (sample_world pending_client [0]).brk)
    ∧ syntab_find (sample_world pending_client [0])
        { addr := ntohl sample_cliaddr.sin_addr, port := ntohs sample_cliaddr.sin_port } = some 0
    ∧ (save_proxy_from_socket true (some { sin_addr := 20, sin_port := 80 }) 130 sample_cliaddr
        (sample_world pending_client [0])).1.syntab = (sample_world pending_client [0]).syntab
    ∧ ((save_proxy_from_socket true (some { sin_addr := 20, sin_port := 80 }) 130 sample_cliaddr
        (sample_world pending_client [0])).1.heap 1).refcnt = 0 :=
  ⟨by decide, by decide,
    (save_proxy_duplicate_syn_dropped (sample_world pending_client [0]) sample_cliaddr 130
      (some { sin_addr := 20, sin_port := 80 }) 0 (by decide) (by decide)).1,
    (save_proxy_duplicate_syn_dropped (sample_world pending_client [0]) sample_cliaddr 130
      (some { sin_addr := 20, sin_port := 80 }) 0 (by decide) (by decide)).2.2.2.2.2.1⟩

/-! ## Byte conservation of the splice loop -/

/-- One `pep_receive` under the contract of `read` (never more bytes than the
space offered): no assertion fails and the buffer grows by the value returned
when that is positive, and not at all otherwise. -/
theorem pep_receive_count (past : Nat → Int) (f : Nat → io_result) (e : pep_endpoint)
    (hf : ∀ len n, f len = io_result.bytes n → n ≤ len) :
    ∃ r, pep_receive past f e = .ok r ∧ r.endp.buf.count = e.buf.count + r.ret.toNat := by
  unfold pep_receive
  by_cases hg : (e.iostat.rdone || e.iostat.err || e.iostat.eof || pepbuf_full e.buf) = true
  · rw [if_pos hg]
    exact ⟨_, rfl, by simp⟩
  · rw [if_neg hg]
    cases hres : f (PEPBUF_SPACE_LEFT e.buf) with
    | fail errno =>
      by_cases hnb : nonblocking_err_p past errno ≠ 0
      · dsimp only
        rw [if_pos hnb]
        exact ⟨_, rfl, by simp⟩
      · dsimp only
        rw [if_neg hnb]
        exact ⟨_, rfl, by simp⟩
    | bytes n =>
      cases n with
      | zero => exact ⟨_, rfl, by simp⟩
      | succ m =>
        have hle : m + 1 ≤ PEPBUF_SPACE_LEFT e.buf := hf _ _ hres
        simp only [pepbuf_update_rpos, hle, if_true]
        exact ⟨_, rfl, by simp⟩

/-- One `pep_send` under the contract of `write` (never more bytes than
offered): no assertion fails and the buffer shrinks by the value returned when
that is positive, and not at all otherwise. -/
theorem pep_send_count (past : Nat → Int) (f : Nat → io_result) (e : pep_endpoint)
    (hf : ∀ len n, f len = io_result.bytes n → n ≤ len) :
    ∃ t, pep_send past f e = .ok t ∧ t.endp.buf.count + t.ret.toNat = e.buf.count := by
  unfold pep_send
  by_cases hg : (e.iostat.err || e.iostat.wdone || (pepbuf_empty e.buf && !e.iostat.eof)) = true
  · rw [if_pos hg]
    exact ⟨_, rfl, by simp⟩
  · rw [if_neg hg]
    cases hres : f (PEPBUF_SPACE_FILLED e.buf) with
    | fail errno =>
      by_cases hnb : nonblocking_err_p past errno ≠ 0
      · dsimp only
        rw [if_pos hnb]
        exact ⟨_, rfl, by simp⟩
      · dsimp only
        rw [if_neg hnb]
        exact ⟨_, rfl, by simp⟩
    | bytes n =>
      have hle : n ≤ PEPBUF_SPACE_FILLED e.buf := hf _ _ hres
      simp only [pepbuf_update_wpos, hle, if_true]
      refine ⟨_, rfl, ?_⟩
      simp only [Int.toNat_ofNat]
      unfold PEPBUF_SPACE_FILLED at hle
      omega

/-- One round of the loop keeps `bytes_out + buffered - bytes_in` constant. -/
theorem splice_round_conserves (past : Nat → Int) (rd wr : Nat → Nat → io_result)
    (hrd : ∀ k len n, rd k len = io_result.bytes n → n ≤ len)
    (hwr : ∀ k len n, wr k len = io_result.bytes n → n ≤ len) (s : splice_state) :
    ∃ s1, splice_round past rd wr s = .ok s1
      ∧ s1.bytes_out + s1.endp.buf.count + s.bytes_in
          = s.bytes_out + s.endp.buf.count + s1.bytes_in := by
  obtain ⟨r, hr, hrc⟩ := pep_receive_count past (rd s.reads) s.endp (hrd s.reads)
  obtain ⟨t, ht, htc⟩ := pep_send_count past (wr s.writes) r.endp (hwr s.writes)
  unfold splice_round
  rw [hr]
  simp only [ht]
  refine ⟨_, rfl, ?_⟩
  simp only
  omega

/-- Conservation at every point of every run, ended or not. -/
theorem splice_rounds_conserve (past : Nat → Int) (rd wr : Nat → Nat → io_result)
    (hrd : ∀ k len n, rd k len = io_result.bytes n → n ≤ len)
    (hwr : ∀ k len n, wr k len = io_result.bytes n → n ≤ len) (n : Nat) :
    ∀ s : splice_state, ∃ s1, splice_rounds past rd wr n s = .ok s1
      ∧ s1.bytes_out + s1.endp.buf.count + s.bytes_in
          = s.bytes_out + s.endp.buf.count + s1.bytes_in := by
  induction n with
  | zero => intro s; exact ⟨s, rfl, rfl⟩
  | succ n ih =>
    intro s
    unfold splice_rounds
    by_cases hc : splice_continues s = true
    · rw [if_pos hc]
      obtain ⟨s1, h1, c1⟩ := splice_round_conserves past rd wr hrd hwr s
      obtain ⟨s2, h2, c2⟩ := ih s1
      rw [h1]
      exact ⟨s2, h2, by omega⟩
    · rw [if_neg hc]
      exact ⟨s, rfl, rfl⟩

/-- A loop that ends within `fuel` rounds ends in the state `splice_rounds`
reaches, with `rb <= 0` and `wb <= 0`. -/
theorem splice_loop_some (past : Nat → Int) (rd wr : Nat → Nat → io_result) (fuel : Nat) :
    ∀ s s1 : splice_state, splice_loop past rd wr fuel s = .ok (some s1) →
      splice_rounds past rd wr fuel s = .ok s1 ∧ splice_continues s1 = false := by
  induction fuel with
  | zero =>
    intro s s1 h
    unfold splice_loop at h
    by_cases hc : splice_continues s = true
    · rw [if_pos hc] at h
      cases h
    · rw [if_neg hc] at h
      cases h
      exact ⟨rfl, by simpa using hc⟩
  | succ n ih =>
    intro s s1 h
    unfold splice_loop at h
    unfold splice_rounds
    by_cases hc : splice_continues s = true
    · rw [if_pos hc] at h
      rw [if_pos hc]
      cases hround : splice_round past rd wr s with
      | error f =>
        rw [hround] at h
        cases h
      | ok s2 =>
        rw [hround] at h
        exact ih s2 s1 h
    · rw [if_neg hc] at h
      rw [if_neg hc]
      cases h
      exact ⟨rfl, by simpa using hc⟩

/-- Under the contracts of `read` and `write` the loop never stops on a failed
assertion. -/
theorem splice_loop_no_fault (past : Nat → Int) (rd wr : Nat → Nat → io_result)
    (hrd : ∀ k len n, rd k len = io_result.bytes n → n ≤ len)
    (hwr : ∀ k len n, wr k len = io_result.bytes n → n ≤ len) (fuel : Nat) :
    ∀ s : splice_state, ∃ r, splice_loop past rd wr fuel s = .ok r := by
  induction fuel with
  | zero =>
    intro s
    unfold splice_loop
    by_cases hc : splice_continues s = true
    · rw [if_pos hc]; exact ⟨_, rfl⟩
    · rw [if_neg hc]; exact ⟨_, rfl⟩
  | succ n ih =>
    intro s
    unfold splice_loop
    by_cases hc : splice_continues s = true
    · rw [if_pos hc]
      obtain ⟨s1, h1, _⟩ := splice_round_conserves past rd wr hrd hwr s
      rw [h1]
      exact ih s1
    · rw [if_neg hc]; exact ⟨_, rfl⟩

/-- C5: byte conservation of one `pep_proxy_data(from, to)`.  For all results of
`read` (each at most the free space offered) and of `write` (each at most the
buffered bytes offered), at every point of the run, ended or not, and whether
or not an ERROR flag is raised on the way, the bytes accepted by the writes
equal the bytes returned by the reads minus the increase of the bytes buffered
in `from.buf`; no assertion fails; and a run that ends does so in such a state,
so that from an empty buffer the bytes delivered are the bytes read minus the
bytes still buffered. -/
theorem splice_byte_conservation (past : Nat → Int) (rd wr : Nat → Nat → io_result)
    (hrd : ∀ k len n, rd k len = io_result.bytes n → n ≤ len)
    (hwr : ∀ k len n, wr k len = io_result.bytes n → n ≤ len) (frm : pep_endpoint) :
    (∀ n, ∃ s, splice_rounds past rd wr n (splice_start frm) = .ok s
        ∧ (s.bytes_out : Int) = (s.bytes_in : Int) - ((s.endp.buf.count : Int) - frm.buf.count))
    ∧ (∀ fuel, ∃ r, splice_loop past rd wr fuel (splice_start frm) = .ok r)
    ∧ (∀ fuel s, splice_loop past rd wr fuel (splice_start frm) = .ok (some s) →
        (s.bytes_out : Int) = (s.bytes_in : Int) - ((s.endp.buf.count : Int) - frm.buf.count)
        ∧ (frm.buf.count = 0 → s.bytes_out = s.bytes_in - s.endp.buf.count
            ∧ s.endp.buf.count ≤ s.bytes_in)) := by
  refine ⟨?_, ?_, ?_⟩
  · intro n
    obtain ⟨s, hs, hc⟩ := splice_rounds_conserve past rd wr hrd hwr n (splice_start frm)
    refine ⟨s, hs, ?_⟩
    simp only [splice_start] at hc
    omega
  · intro fuel
    exact splice_loop_no_fault past rd wr hrd hwr fuel (splice_start frm)
  · intro fuel s h
    obtain ⟨h1, _⟩ := splice_loop_some past rd wr fuel (splice_start frm) s h
    obtain ⟨s1, hs, hc⟩ := splice_rounds_conserve past rd wr hrd hwr fuel (splice_start frm)
    rw [h1] at hs
    cases hs
    simp only [splice_start] at hc
    constructor
    · omega
    · intro h0
      omega

theorem splice_byte_conservation_witness :
    (∀ k len n, sample_rd k len = io_result.bytes n → n ≤ len)
    ∧ (∀ k len n, sample_wr k len = io_result.bytes n → n ≤ len)
    ∧ splice_loop (fun _ => 0) sample_rd sample_wr 4 (splice_start (sample_endpoint 10 1000 5 true 0))
        = .ok (some { endp := { sample_endpoint 10 1000 5 true 0 with
                                  buf := { initialized := true, capacity := 8, r_pos := 5,
                                           w_pos := 5, count := 0 },
                                  iostat := { rdone := true, wdone := false, err := false,
                                              eof := false } },
                      rb := 0, wb := 0, reads := 2, writes := 3, bytes_in := 5, bytes_out := 5 })
    ∧ (∀ fuel s, splice_loop (fun _ => 0) sample_rd sample_wr fuel
          (splice_start (sample_endpoint 10 1000 5 true 0)) = .ok (some s) →
        (s.bytes_out : Int) = (s.bytes_in : Int)
            - ((s.endp.buf.count : Int) - (sample_endpoint 10 1000 5 true 0).buf.count)
        ∧ ((sample_endpoint 10 1000 5 true 0).buf.count = 0 →
            s.bytes_out = s.bytes_in - s.endp.buf.count ∧ s.endp.buf.count ≤ s.bytes_in)) :=
  have hrd : ∀ k len n, sample_rd k len = io_result.bytes n → n ≤ len := by
    intro k len n h
    unfold sample_rd at h
    by_cases hk : k = 0
    · rw [if_pos hk] at h
      cases h
      exact Nat.min_le_left _ _
    · rw [if_neg hk] at h
      cases h
  have hwr : ∀ k len n, sample_wr k len = io_result.bytes n → n ≤ len := by
    intro k len n h
    unfold sample_wr at h
    cases h
    exact Nat.min_le_left _ _
  ⟨hrd, hwr, rfl,
    (splice_byte_conservation (fun _ => 0) sample_rd sample_wr hrd hwr
      (sample_endpoint 10 1000 5 true 0)).2.2⟩

/-! ## Poller dispatch: the branches of the loop body -/

theorem dispatch_open_hup (st : dispatch_state) (e : poll_entry)
    (h : e.revents &&& (POLLHUP ||| POLLERR ||| POLLNVAL) ≠ 0) :
    dispatch_open st e
      = { st with w := destroy_proxy st.w e.owner,
                  local_list := if (st.w.heap e.owner).enqueued then st.local_list.erase e.owner
                                else st.local_list } := by
  unfold dispatch_open
  dsimp only
  rw [if_pos h]

theorem dispatch_open_ready (st : dispatch_state) (e : poll_entry)
    (h1 : ¬ e.revents &&& (POLLHUP ||| POLLERR ||| POLLNVAL) ≠ 0)
    (h2 : e.revents &&& (POLLIN ||| POLLOUT) ≠ 0) :
    dispatch_open st e
      = { w := st.w.modify e.owner (fun x => { x with enqueued := true }),
          local_list := st.local_list ++ [e.owner],
          num_works := st.num_works + 1 } := by
  unfold dispatch_open
  dsimp only
  rw [if_neg h1, if_pos h2]

theorem dispatch_open_idle (st : dispatch_state) (e : poll_entry)
    (h1 : ¬ e.revents &&& (POLLHUP ||| POLLERR ||| POLLNVAL) ≠ 0)
    (h2 : ¬ e.revents &&& (POLLIN ||| POLLOUT) ≠ 0) :
    dispatch_open st e = st := by
  unfold dispatch_open
  dsimp only
  rw [if_neg h1, if_neg h2]

theorem dispatch_entry_no_event (env : poller_env) (st : dispatch_state) (e : poll_entry)
    (h : e.revents = 0) : dispatch_entry env st e = .ok st := by
  unfold dispatch_entry
  rw [if_pos h]

theorem dispatch_entry_enqueued (env : poller_env) (st : dispatch_state) (e : poll_entry)
    (h1 : (st.w.heap e.owner).enqueued = true) : dispatch_entry env st e = .ok st := by
  unfold dispatch_entry
  by_cases h : e.revents = 0
  · rw [if_pos h]
  · rw [if_neg h]
    dsimp only
    rw [if_pos h1]

theorem dispatch_entry_connect_err (env : poller_env) (st : dispatch_state) (e : poll_entry)
    (h : e.revents ≠ 0) (h1 : (st.w.heap e.owner).enqueued = false)
    (hs : (st.w.heap e.owner).status = PST_CONNECT)
    (hc : env.so_error (st.w.heap e.owner).dst.fd ≠ 0) :
    dispatch_entry env st e = .ok { st with w := destroy_proxy st.w e.owner } := by
  unfold dispatch_entry
  rw [if_neg h]
  dsimp only
  rw [if_neg (by simp [h1]), hs]
  dsimp only
  rw [if_pos hc]

theorem dispatch_entry_connect_ok (env : poller_env) (st : dispatch_state) (e : poll_entry)
    (h : e.revents ≠ 0) (h1 : (st.w.heap e.owner).enqueued = false)
    (hs : (st.w.heap e.owner).status = PST_CONNECT)
    (hc : env.so_error (st.w.heap e.owner).dst.fd = 0) :
    dispatch_entry env st e
      = match dispatch_promote env st.w e.owner with
        | .error f => .error f
        | .ok w1 => .ok (dispatch_open { st with w := w1 } e) := by
  unfold dispatch_entry
  rw [if_neg h]
  dsimp only
  rw [if_neg (by simp [h1]), hs]
  dsimp only
  rw [if_neg (by simp [hc])]

theorem dispatch_entry_open (env : poller_env) (st : dispatch_state) (e : poll_entry)
    (h : e.revents ≠ 0) (h1 : (st.w.heap e.owner).enqueued = false)
    (hs : (st.w.heap e.owner).status = PST_OPEN) :
    dispatch_entry env st e = .ok (dispatch_open st e) := by
  unfold dispatch_entry
  rw [if_neg h]
  dsimp only
  rw [if_neg (by simp [h1]), hs]

theorem dispatch_entry_other_status (env : poller_env) (st : dispatch_state) (e : poll_entry)
    (hs1 : (st.w.heap e.owner).status ≠ PST_CONNECT)
    (hs2 : (st.w.heap e.owner).status ≠ PST_OPEN) :
    dispatch_entry env st e = .ok st := by
  unfold dispatch_entry
  by_cases h : e.revents = 0
  · rw [if_pos h]
  · rw [if_neg h]
    dsimp only
    by_cases h1 : (st.w.heap e.owner).enqueued = true
    · rw [if_pos h1]
    · rw [if_neg h1]
      cases hs : (st.w.heap e.owner).status with
      | PST_CONNECT => exact absurd hs hs1
      | PST_OPEN => exact absurd hs hs2
      | _ => rfl

/-! ## Poller dispatch: frame lemmas -/

theorem dispatch_open_heap_other (st : dispatch_state) (e : poll_entry) (p : Nat)
    (h : p ≠ e.owner) : (dispatch_open st e).w.heap p = st.w.heap p := by
  by_cases h1 : e.revents &&& (POLLHUP ||| POLLERR ||| POLLNVAL) ≠ 0
  · rw [dispatch_open_hup st e h1]
    exact destroy_proxy_heap_other st.w e.owner p h
  · by_cases h2 : e.revents &&& (POLLIN ||| POLLOUT) ≠ 0
    · rw [dispatch_open_ready st e h1 h2]
      exact modify_heap_other st.w e.owner p (fun x => { x with enqueued := true }) h
    · rw [dispatch_open_idle st e h1 h2]

theorem dispatch_promote_heap_other (env : poller_env) (w w1 : World) (q p : Nat)
    (h : p ≠ q) (hok : dispatch_promote env w q = .ok w1) : w1.heap p = w.heap p := by
  unfold dispatch_promote at hok
  by_cases h0 : env.buf_alloc_ok q 0 = true
  · by_cases h1 : env.buf_alloc_ok q 1 = true
    · simp only [h0, h1, Bool.not_true, if_false] at hok
      cases hok
      simp [h]
    · simp [h0, h1] at hok
  · simp [h0] at hok

/-- What a successful promotion leaves in the promoted descriptor. -/
theorem dispatch_promote_heap_same (env : poller_env) (w w1 : World) (q : Nat)
    (hok : dispatch_promote env w q = .ok w1) :
    w1.heap q = { w.heap q with
        status := PST_OPEN,
        src := { (w.heap q).src with buf := pepbuf_init env.buf_capacity (w.heap q).src.buf },
        dst := { (w.heap q).dst with buf := pepbuf_init env.buf_capacity (w.heap q).dst.buf } }
    ∧ w1.syntab = w.syntab
    ∧ w1.trace = w.trace ++ [sys_event.buf_alloc q 0, sys_event.buf_alloc q 1,
        sys_event.setup_socket (w.heap q).src.fd, sys_event.setup_socket (w.heap q).dst.fd] := by
  unfold dispatch_promote at hok
  by_cases h0 : env.buf_alloc_ok q 0 = true
  · by_cases h1 : env.buf_alloc_ok q 1 = true
    · simp only [h0, h1, Bool.not_true, if_false] at hok
      cases hok
      simp
    · simp [h0, h1] at hok
  · simp [h0] at hok

theorem dispatch_promote_ok_iff (env : poller_env) (w : World) (q : Nat) :
    (∃ w1, dispatch_promote env w q = .ok w1)
      ↔ (env.buf_alloc_ok q 0 = true ∧ env.buf_alloc_ok q 1 = true) := by
  unfold dispatch_promote
  by_cases h0 : env.buf_alloc_ok q 0 = true
  · by_cases h1 : env.buf_alloc_ok q 1 = true
    · simp [h0, h1]
    · simp [h0, h1]
  · simp [h0]

theorem dispatch_entry_heap_other (env : poller_env) (st st1 : dispatch_state) (e : poll_entry)
    (p : Nat) (h : p ≠ e.owner) (hok : dispatch_entry env st e = .ok st1) :
    st1.w.heap p = st.w.heap p := by
  by_cases h0 : e.revents = 0
  · rw [dispatch_entry_no_event env st e h0] at hok
    cases hok
    rfl
  by_cases h1 : (st.w.heap e.owner).enqueued = true
  · rw [dispatch_entry_enqueued env st e h1] at hok
    cases hok
    rfl
  have h1' : (st.w.heap e.owner).enqueued = false := by simpa using h1
  by_cases hs : (st.w.heap e.owner).status = PST_CONNECT
  · by_cases hc : env.so_error (st.w.heap e.owner).dst.fd = 0
    · rw [dispatch_entry_connect_ok env st e h0 h1' hs hc] at hok
      cases hp : dispatch_promote env st.w e.owner with
      | error f =>
        rw [hp] at hok
        cases hok
      | ok w1 =>
        rw [hp] at hok
        cases hok
        rw [dispatch_open_heap_other _ _ _ h]
        exact dispatch_promote_heap_other env st.w w1 e.owner p h hp
    · rw [dispatch_entry_connect_err env st e h0 h1' hs hc] at hok
      cases hok
      exact destroy_proxy_heap_other st.w e.owner p h
  by_cases hs2 : (st.w.heap e.owner).status = PST_OPEN
  · rw [dispatch_entry_open env st e h0 h1' hs2] at hok
    cases hok
    exact dispatch_open_heap_other _ _ _ h
  · rw [dispatch_entry_other_status env st e hs hs2] at hok
    cases hok
    rfl

/-- A closed descriptor is not touched by a round of the dispatch loop. -/
theorem dispatch_entry_closed (env : poller_env) (st st1 : dispatch_state) (e : poll_entry)
    (p : Nat) (h : (st.w.heap p).status = PST_CLOSED) (hok : dispatch_entry env st e = .ok st1) :
    st1.w.heap p = st.w.heap p := by
  by_cases hp : p = e.owner
  · subst hp
    rw [dispatch_entry_other_status env st e (by rw [h]; decide) (by rw [h]; decide)] at hok
    cases hok
    rfl
  · exact dispatch_entry_heap_other env st st1 e p hp hok

theorem dispatch_loop_closed (env : poller_env) (p : Nat) (es : List poll_entry) :
    ∀ st st1 : dispatch_state, (st.w.heap p).status = PST_CLOSED →
      dispatch_loop env es st = .ok st1 → (st1.w.heap p).status = PST_CLOSED := by
  induction es with
  | nil =>
    intro st st1 h hok
    unfold dispatch_loop at hok
    cases hok
    exact h
  | cons e es ih =>
    intro st st1 h hok
    unfold dispatch_loop at hok
    cases he : dispatch_entry env st e with
    | error f =>
      rw [he] at hok
      cases hok
    | ok st2 =>
      rw [he] at hok
      have h2 := dispatch_entry_closed env st st2 e p h he
      exact ih st2 st1 (by rw [h2]; exact h) hok

/-! ## Promotion from CONNECTING to OPEN -/

theorem teardown_events_no_alloc (q i p j : Nat) (e : pep_endpoint) :
    (teardown_events q i e).count (sys_event.buf_alloc p j) = 0 := by
  unfold teardown_events
  by_cases h1 : e.fd ≥ 0 <;> by_cases h2 : pepbuf_initialized e.buf = true <;>
    simp [h1, h2, List.count_cons]

theorem unpin_alloc_count (w : World) (q p j : Nat) :
    alloc_count (unpin_proxy w q) p j = alloc_count w p j := by
  unfold alloc_count
  rw [unpin_trace]
  by_cases h : (w.heap q).refcnt = 1 <;> simp [h, List.count_cons]

theorem destroy_proxy_alloc_count (w : World) (q p j : Nat) :
    alloc_count (destroy_proxy w q) p j = alloc_count w p j := by
  by_cases hc : (w.heap q).status = PST_CLOSED
  · rw [destroy_proxy_closed_eq w q hc, unpin_alloc_count]
  · rw [destroy_proxy_not_closed_eq w q hc, unpin_alloc_count]
    unfold alloc_count
    rw [destroy_before_unpin_trace]
    simp [List.count_append, teardown_events_no_alloc]

theorem destroy_proxy_conns_subset (w : World) (q p : Nat)
    (h : p ∈ (destroy_proxy w q).syntab.conns) : p ∈ w.syntab.conns := by
  by_cases hc : (w.heap q).status = PST_CLOSED
  · rw [destroy_proxy_closed_eq w q hc, unpin_syntab] at h
    exact h
  · rw [destroy_proxy_not_closed_eq w q hc, unpin_syntab, destroy_before_unpin_conns] at h
    exact (List.mem_filter.mp h).1

theorem dispatch_open_alloc_count (st : dispatch_state) (e : poll_entry) (p j : Nat) :
    alloc_count (dispatch_open st e).w p j = alloc_count st.w p j := by
  by_cases h1 : e.revents &&& (POLLHUP ||| POLLERR ||| POLLNVAL) ≠ 0
  · rw [dispatch_open_hup st e h1]
    exact destroy_proxy_alloc_count st.w e.owner p j
  · by_cases h2 : e.revents &&& (POLLIN ||| POLLOUT) ≠ 0
    · rw [dispatch_open_ready st e h1 h2]
      rfl
    · rw [dispatch_open_idle st e h1 h2]

theorem dispatch_open_conns_subset (st : dispatch_state) (e : poll_entry) (p : Nat)
    (h : p ∈ (dispatch_open st e).w.syntab.conns) : p ∈ st.w.syntab.conns := by
  by_cases h1 : e.revents &&& (POLLHUP ||| POLLERR ||| POLLNVAL) ≠ 0
  · rw [dispatch_open_hup st e h1] at h
    exact destroy_proxy_conns_subset st.w e.owner p h
  · by_cases h2 : e.revents &&& (POLLIN ||| POLLOUT) ≠ 0
    · rw [dispatch_open_ready st e h1 h2] at h
      exact h
    · rw [dispatch_open_idle st e h1 h2] at h
      exact h

/-- The ready list after the OPEN rules: unchanged, or with the owner of the
slot unlinked, or with the owner of the slot appended. -/
theorem dispatch_open_list (st : dispatch_state) (e : poll_entry) :
    (dispatch_open st e).local_list = st.local_list
    ∨ (dispatch_open st e).local_list = st.local_list.erase e.owner
    ∨ (dispatch_open st e).local_list = st.local_list ++ [e.owner] := by
  by_cases h1 : e.revents &&& (POLLHUP ||| POLLERR ||| POLLNVAL) ≠ 0
  · rw [dispatch_open_hup st e h1]
    by_cases hq : (st.w.heap e.owner).enqueued = true
    · right; left
      simp [hq]
    · left
      simp [hq]
  · by_cases h2 : e.revents &&& (POLLIN ||| POLLOUT) ≠ 0
    · rw [dispatch_open_ready st e h1 h2]
      right; right; rfl
    · rw [dispatch_open_idle st e h1 h2]
      left; rfl

/-- What one round of the dispatch loop can do to the table, to the ready list
and to the allocation count of a buffer, seen from any descriptor `p`. -/
theorem dispatch_entry_effects (env : poller_env) (st st1 : dispatch_state) (e : poll_entry)
    (hok : dispatch_entry env st e = .ok st1) (p j : Nat) :
    (p ∈ st1.w.syntab.conns → p ∈ st.w.syntab.conns)
    ∧ (p ≠ e.owner → p ∉ st.local_list → p ∉ st1.local_list)
    ∧ ((p ≠ e.owner ∨ (st.w.heap p).status ≠ PST_CONNECT) →
        alloc_count st1.w p j = alloc_count st.w p j) := by
  have hlist : ∀ s2 : dispatch_state, s2.local_list = st.local_list →
      p ≠ e.owner → p ∉ st.local_list → p ∉ (dispatch_open s2 e).local_list := by
    intro s2 hs2 hp hn hm
    rcases dispatch_open_list s2 e with h | h | h
    · rw [h, hs2] at hm
      exact hn hm
    · rw [h, hs2] at hm
      exact hn (List.mem_of_mem_erase hm)
    · rw [h, hs2] at hm
      rcases List.mem_append.mp hm with h3 | h3
      · exact hn h3
      · exact hp (by simpa using h3)
  by_cases h0 : e.revents = 0
  · rw [dispatch_entry_no_event env st e h0] at hok
    cases hok
    exact ⟨id, fun _ h => h, fun _ => rfl⟩
  by_cases h1 : (st.w.heap e.owner).enqueued = true
  · rw [dispatch_entry_enqueued env st e h1] at hok
    cases hok
    exact ⟨id, fun _ h => h, fun _ => rfl⟩
  have h1' : (st.w.heap e.owner).enqueued = false := by simpa using h1
  by_cases hs : (st.w.heap e.owner).status = PST_CONNECT
  · by_cases hc : env.so_error (st.w.heap e.owner).dst.fd = 0
    · rw [dispatch_entry_connect_ok env st e h0 h1' hs hc] at hok
      cases hp : dispatch_promote env st.w e.owner with
      | error f =>
        rw [hp] at hok
        cases hok
      | ok w1 =>
        rw [hp] at hok
        cases hok
        obtain ⟨_, k2, k3⟩ := dispatch_promote_heap_same env st.w w1 e.owner hp
        refine ⟨?_, ?_, ?_⟩
        · intro hm
          have := dispatch_open_conns_subset _ e p hm
          rw [k2] at this
          exact this
        · exact hlist _ rfl
        · intro hor
          have hpe : p ≠ e.owner := by
            rcases hor with h | h
            · exact h
            · intro hpe
              rw [hpe] at h
              exact h hs
          rw [dispatch_open_alloc_count]
          unfold alloc_count
          rw [k3]
          simp [List.count_append, List.count_cons, Ne.symm hpe]
    · rw [dispatch_entry_connect_err env st e h0 h1' hs hc] at hok
      cases hok
      exact ⟨destroy_proxy_conns_subset st.w e.owner p, fun _ h => h,
        fun _ => destroy_proxy_alloc_count st.w e.owner p j⟩
  by_cases hs2 : (st.w.heap e.owner).status = PST_OPEN
  · rw [dispatch_entry_open env st e h0 h1' hs2] at hok
    cases hok
    exact ⟨dispatch_open_conns_subset st e p, hlist st rfl,
      fun _ => dispatch_open_alloc_count st e p j⟩
  · rw [dispatch_entry_other_status env st e hs hs2] at hok
    cases hok
    exact ⟨id, fun _ h => h, fun _ => rfl⟩

theorem dispatch_open_status (st : dispatch_state) (e : poll_entry)
    (hs : (st.w.heap e.owner).status = PST_OPEN) :
    ((dispatch_open st e).w.heap e.owner).status = PST_OPEN
    ∨ ((dispatch_open st e).w.heap e.owner).status = PST_CLOSED := by
  by_cases h1 : e.revents &&& (POLLHUP ||| POLLERR ||| POLLNVAL) ≠ 0
  · rw [dispatch_open_hup st e h1]
    right
    exact (destroy_proxy_closes st.w e.owner (by rw [hs]; decide)).1
  · by_cases h2 : e.revents &&& (POLLIN ||| POLLOUT) ≠ 0
    · rw [dispatch_open_ready st e h1 h2]
      left
      simp [hs]
    · rw [dispatch_open_idle st e h1 h2]
      left
      exact hs

/-- No round of the dispatch loop makes a descriptor CONNECTING. -/
theorem dispatch_entry_not_connect (env : poller_env) (st st1 : dispatch_state) (e : poll_entry)
    (p : Nat) (h : (st.w.heap p).status ≠ PST_CONNECT)
    (hok : dispatch_entry env st e = .ok st1) : (st1.w.heap p).status ≠ PST_CONNECT := by
  by_cases hp : p = e.owner
  · subst hp
    by_cases hs2 : (st.w.heap e.owner).status = PST_OPEN
    · by_cases h0 : e.revents = 0
      · rw [dispatch_entry_no_event env st e h0] at hok
        cases hok
        exact h
      by_cases h1 : (st.w.heap e.owner).enqueued = true
      · rw [dispatch_entry_enqueued env st e h1] at hok
        cases hok
        exact h
      rw [dispatch_entry_open env st e h0 (by simpa using h1) hs2] at hok
      cases hok
      rcases dispatch_open_status st e hs2 with k | k <;> rw [k] <;> decide
    · rw [dispatch_entry_other_status env st e h hs2] at hok
      cases hok
      exact h
  · rw [dispatch_entry_heap_other env st st1 e p hp hok]
    exact h

theorem dispatch_loop_conns_subset (env : poller_env) (p : Nat) (es : List poll_entry) :
    ∀ st st1 : dispatch_state, dispatch_loop env es st = .ok st1 →
      p ∈ st1.w.syntab.conns → p ∈ st.w.syntab.conns := by
  induction es with
  | nil =>
    intro st st1 hok hm
    unfold dispatch_loop at hok
    cases hok
    exact hm
  | cons e es ih =>
    intro st st1 hok hm
    unfold dispatch_loop at hok
    cases he : dispatch_entry env st e with
    | error f =>
      rw [he] at hok
      cases hok
    | ok st2 =>
      rw [he] at hok
      exact (dispatch_entry_effects env st st2 e he p 0).1 (ih st2 st1 hok hm)

/-- Once a descriptor is not CONNECTING, the rest of the loop allocates no
buffer for it. -/
theorem dispatch_loop_not_connect (env : poller_env) (p j : Nat) (es : List poll_entry) :
    ∀ st st1 : dispatch_state, (st.w.heap p).status ≠ PST_CONNECT →
      dispatch_loop env es st = .ok st1 →
      (st1.w.heap p).status ≠ PST_CONNECT ∧ alloc_count st1.w p j = alloc_count st.w p j := by
  induction es with
  | nil =>
    intro st st1 h hok
    unfold dispatch_loop at hok
    cases hok
    exact ⟨h, rfl⟩
  | cons e es ih =>
    intro st st1 h hok
    unfold dispatch_loop at hok
    cases he : dispatch_entry env st e with
    | error f =>
      rw [he] at hok
      cases hok
    | ok st2 =>
      rw [he] at hok
      obtain ⟨k1, k2⟩ := ih st2 st1 (dispatch_entry_not_connect env st st2 e p h he) hok
      exact ⟨k1, k2.trans ((dispatch_entry_effects env st st2 e he p j).2.2 (Or.inr h))⟩

/-- A closed descriptor is not put on the ready list. -/
theorem dispatch_loop_closed_not_listed (env : poller_env) (p : Nat) (es : List poll_entry) :
    ∀ st st1 : dispatch_state, (st.w.heap p).status = PST_CLOSED → p ∉ st.local_list →
      dispatch_loop env es st = .ok st1 → p ∉ st1.local_list := by
  induction es with
  | nil =>
    intro st st1 _ hn hok
    unfold dispatch_loop at hok
    cases hok
    exact hn
  | cons e es ih =>
    intro st st1 h hn hok
    unfold dispatch_loop at hok
    cases he : dispatch_entry env st e with
    | error f =>
      rw [he] at hok
      cases hok
    | ok st2 =>
      rw [he] at hok
      have hcl : (st2.w.heap p).status = PST_CLOSED := by
        rw [dispatch_entry_closed env st st2 e p h he]
        exact h
      have hn2 : p ∉ st2.local_list := by
        by_cases hp : p = e.owner
        · subst hp
          rw [dispatch_entry_other_status env st e (by rw [h]; decide) (by rw [h]; decide)] at he
          cases he
          exact hn
        · exact (dispatch_entry_effects env st st2 e he p 0).2.1 hp hn
      exact ih st2 st1 hcl hn2 hok

/-! ## Hang-up on the second slot of a descriptor -/

/-- C7 at its failing input: an OPEN descriptor, not enqueued, whose inbound
slot reports `POLLIN` and whose outbound slot reports `POLLHUP`.  The round for
the inbound slot puts it on the local list and sets `enqueued`; the round for
the outbound slot then stops at `if (proxy->enqueued) continue;`, so the
descriptor leaves the loop OPEN, in the SYN table, and on the list handed to
the workers. -/
theorem hup_on_second_slot_not_destroyed :
    ((sample_world open_proxy [0]).heap 0).status = PST_OPEN
    ∧ ((sample_world open_proxy [0]).heap 0).enqueued = false
    ∧ (∃ e ∈ sample_pfds POLLIN POLLHUP, e.owner = 0
        ∧ e.revents &&& (POLLHUP ||| POLLERR ||| POLLNVAL) ≠ 0)
    ∧ poller_dispatch sample_env (sample_pfds POLLIN POLLHUP) (sample_world open_proxy [0])
        = .ok (dispatch_result sample_env (sample_pfds POLLIN POLLHUP)
                (sample_world open_proxy [0]))
    ∧ ((dispatch_result sample_env (sample_pfds POLLIN POLLHUP)
          (sample_world open_proxy [0])).w.heap 0).status = PST_OPEN
    ∧ 0 ∈ (dispatch_result sample_env (sample_pfds POLLIN POLLHUP)
          (sample_world open_proxy [0])).w.syntab.conns
    ∧ (dispatch_result sample_env (sample_pfds POLLIN POLLHUP)
          (sample_world open_proxy [0])).local_list = [0]
    ∧ (dispatch_result sample_env (sample_pfds POLLIN POLLHUP)
          (sample_world open_proxy [0])).num_works = 1 :=
  ⟨rfl, rfl, by decide, rfl, rfl, by decide, rfl, rfl⟩

/-! ## Handling of a slot of a CONNECTING descriptor -/

/-- C8, amended: the round of the dispatch loop for a slot with non-zero
`revents` whose descriptor is CONNECTING and not enqueued.  If `SO_ERROR` on the
outbound fd is non-zero the descriptor is destroyed (CLOSED, out of the SYN
table) and the ready list and `num_works` are unchanged.  If `SO_ERROR` is zero
and both buffer allocations succeed, each of the two buffers is allocated once
and is initialised, the status becomes OPEN, and the same slot is then handled
by the OPEN rules in the same round: with `POLLHUP`, `POLLERR` or `POLLNVAL` in
its `revents` the descriptor is destroyed and not enqueued; otherwise, with
`POLLIN` or `POLLOUT`, it is enqueued and stays OPEN.  Over the rest of the
dispatch loop a descriptor destroyed this way stays CLOSED, out of the table
and off the ready list, with no buffer allocated for it, and a promoted one has
each of its two buffers allocated exactly once. -/
theorem connect_entry_handling (env : poller_env) (st : dispatch_state) (e : poll_entry)
    (hs : (st.w.heap e.owner).status = PST_CONNECT)
    (hq : (st.w.heap e.owner).enqueued = false) (h0 : e.revents ≠ 0) :
    (env.so_error (st.w.heap e.owner).dst.fd ≠ 0 →
      ∃ st1, dispatch_entry env st e = .ok st1
        ∧ (st1.w.heap e.owner).status = PST_CLOSED
        ∧ e.owner ∉ st1.w.syntab.conns
        ∧ st1.local_list = st.local_list ∧ st1.num_works = st.num_works)
    ∧ (env.so_error (st.w.heap e.owner).dst.fd = 0 →
        env.buf_alloc_ok e.owner 0 = true → env.buf_alloc_ok e.owner 1 = true →
      ∃ w1, dispatch_promote env st.w e.owner = .ok w1
        ∧ (w1.heap e.owner).status = PST_OPEN
        ∧ pepbuf_initialized (w1.heap e.owner).src.buf = true
        ∧ pepbuf_initialized (w1.heap e.owner).dst.buf = true
        ∧ w1.trace = st.w.trace ++ [sys_event.buf_alloc e.owner 0, sys_event.buf_alloc e.owner 1,
            sys_event.setup_socket (st.w.heap e.owner).src.fd,
            sys_event.setup_socket (st.w.heap e.owner).dst.fd]
        ∧ dispatch_entry env st e = .ok (dispatch_open { st with w := w1 } e)
        ∧ (e.revents &&& (POLLHUP ||| POLLERR ||| POLLNVAL) ≠ 0 →
            ((dispatch_open { st with w := w1 } e).w.heap e.owner).status = PST_CLOSED
            ∧ e.owner ∉ (dispatch_open { st with w := w1 } e).w.syntab.conns
            ∧ (dispatch_open { st with w := w1 } e).local_list = st.local_list
            ∧ (dispatch_open { st with w := w1 } e).num_works = st.num_works)
        ∧ (e.revents &&& (POLLHUP ||| POLLERR ||| POLLNVAL) = 0 →
            e.revents &&& (POLLIN ||| POLLOUT) ≠ 0 →
            ((dispatch_open { st with w := w1 } e).w.heap e.owner).status = PST_OPEN
            ∧ ((dispatch_open { st with w := w1 } e).w.heap e.owner).enqueued = true
            ∧ (dispatch_open { st with w := w1 } e).local_list = st.local_list ++ [e.owner]
            ∧ (dispatch_open { st with w := w1 } e).num_works = st.num_works + 1))
    ∧ (∀ (es : List poll_entry) (st_end : dispatch_state),
        dispatch_loop env (e :: es) st = .ok st_end →
        (env.so_error (st.w.heap e.owner).dst.fd ≠ 0 →
          (st_end.w.heap e.owner).status = PST_CLOSED
          ∧ e.owner ∉ st_end.w.syntab.conns
          ∧ (e.owner ∉ st.local_list → e.owner ∉ st_end.local_list)
          ∧ alloc_count st_end.w e.owner 0 = alloc_count st.w e.owner 0
          ∧ alloc_count st_end.w e.owner 1 = alloc_count st.w e.owner 1)
        ∧ (env.so_error (st.w.heap e.owner).dst.fd = 0 →
          alloc_count st_end.w e.owner 0 = alloc_count st.w e.owner 0 + 1
          ∧ alloc_count st_end.w e.owner 1 = alloc_count st.w e.owner 1 + 1)) := by
  refine ⟨?_, ?_, ?_⟩
  rotate_left 2
  · intro es st_end hok
    unfold dispatch_loop at hok
    cases he : dispatch_entry env st e with
    | error f =>
      rw [he] at hok
      cases hok
    | ok st2 =>
      rw [he] at hok
      constructor
      · intro hc
        rw [dispatch_entry_connect_err env st e h0 hq hs hc] at he
        cases he
        have hne : (st.w.heap e.owner).status ≠ PST_CLOSED := by rw [hs]; decide
        obtain ⟨k1, k2⟩ := destroy_proxy_closes st.w e.owner hne
        have hnc : ((destroy_proxy st.w e.owner).heap e.owner).status ≠ PST_CONNECT := by
          rw [k1]; decide
        refine ⟨dispatch_loop_closed env e.owner es _ st_end k1 hok,
          fun hm => k2 (dispatch_loop_conns_subset env e.owner es _ st_end hok hm),
          fun hn => dispatch_loop_closed_not_listed env e.owner es
            { st with w := destroy_proxy st.w e.owner } st_end k1 hn hok, ?_, ?_⟩
        · rw [(dispatch_loop_not_connect env e.owner 0 es _ st_end hnc hok).2]
          exact destroy_proxy_alloc_count st.w e.owner e.owner 0
        · rw [(dispatch_loop_not_connect env e.owner 1 es _ st_end hnc hok).2]
          exact destroy_proxy_alloc_count st.w e.owner e.owner 1
      · intro hc
        rw [dispatch_entry_connect_ok env st e h0 hq hs hc] at he
        cases hp : dispatch_promote env st.w e.owner with
        | error f =>
          rw [hp] at he
          cases he
        | ok w1 =>
          rw [hp] at he
          cases he
          obtain ⟨hh1, _, hh3⟩ := dispatch_promote_heap_same env st.w w1 e.owner hp
          have hst : (w1.heap e.owner).status = PST_OPEN := by rw [hh1]
          have hnc : ((dispatch_open { st with w := w1 } e).w.heap e.owner).status
              ≠ PST_CONNECT := by
            rcases dispatch_open_status { st with w := w1 } e hst with k | k <;> rw [k] <;> decide
          constructor
          · rw [(dispatch_loop_not_connect env e.owner 0 es _ st_end hnc hok).2,
              dispatch_open_alloc_count]
            unfold alloc_count
            rw [hh3]
            simp [List.count_append, List.count_cons]
          · rw [(dispatch_loop_not_connect env e.owner 1 es _ st_end hnc hok).2,
              dispatch_open_alloc_count]
            unfold alloc_count
            rw [hh3]
            simp [List.count_append, List.count_cons]
  · intro hc
    rw [dispatch_entry_connect_err env st e h0 hq hs hc]
    have hne : (st.w.heap e.owner).status ≠ PST_CLOSED := by rw [hs]; decide
    obtain ⟨k1, k2⟩ := destroy_proxy_closes st.w e.owner hne
    exact ⟨_, rfl, k1, k2, rfl, rfl⟩
  · intro hc hb0 hb1
    obtain ⟨w1, hw1⟩ := (dispatch_promote_ok_iff env st.w e.owner).mpr ⟨hb0, hb1⟩
    obtain ⟨hh1, _, hh3⟩ := dispatch_promote_heap_same env st.w w1 e.owner hw1
    have hst : (w1.heap e.owner).status = PST_OPEN := by rw [hh1]
    have hen : (w1.heap e.owner).enqueued = false := by rw [hh1]; exact hq
    refine ⟨w1, hw1, hst, by rw [hh1]; rfl, by rw [hh1]; rfl, hh3, ?_, ?_, ?_⟩
    · rw [dispatch_entry_connect_ok env st e h0 hq hs hc, hw1]
    · intro hh
      rw [dispatch_open_hup _ e hh]
      have hne : (w1.heap e.owner).status ≠ PST_CLOSED := by rw [hst]; decide
      obtain ⟨k1, k2⟩ := destroy_proxy_closes w1 e.owner hne
      refine ⟨k1, k2, ?_, rfl⟩
      simp [hen]
    · intro hh h2
      rw [dispatch_open_ready _ e (by simp [hh]) h2]
      simp [hst]

theorem connect_entry_handling_witness :
    ((sample_world connecting_proxy [0]).heap 0).status = PST_CONNECT
    ∧ ((sample_world connecting_proxy [0]).heap 0).enqueued = false
    ∧ POLLIN ≠ 0
    ∧ (refused_env.so_error ((sample_world connecting_proxy [0]).heap 0).dst.fd ≠ 0 →
      ∃ st1, dispatch_entry refused_env
            { w := sample_world connecting_proxy [0], local_list := [], num_works := 0 }
            { fd := 5, events := ENDPOINT_POLLEVENTS, revents := POLLIN, owner := 0, idx := 0 }
          = .ok st1
        ∧ (st1.w.heap 0).status = PST_CLOSED
        ∧ 0 ∉ st1.w.syntab.conns
        ∧ st1.local_list = [] ∧ st1.num_works = 0) :=
  ⟨rfl, rfl, by decide,
    (connect_entry_handling refused_env
      { w := sample_world connecting_proxy [0], local_list := [], num_works := 0 }
      { fd := 5, events := ENDPOINT_POLLEVENTS, revents := POLLIN, owner := 0, idx := 0 }
      rfl rfl (by decide)).1⟩

/-- C8, as stated, fails: a CONNECTING descriptor whose slot reports
`POLLIN | POLLHUP` with `SO_ERROR` 0 is promoted and then destroyed by the OPEN
rules in the same round; although the `revents` has `POLLIN` it is not
enqueued, and it ends CLOSED, not OPEN. -/
theorem connect_pollin_with_hup_not_enqueued :
    ((sample_world connecting_proxy [0]).heap 0).status = PST_CONNECT
    ∧ ((sample_world connecting_proxy [0]).heap 0).enqueued = false
    ∧ (POLLIN ||| POLLHUP) &&& (POLLIN ||| POLLOUT) ≠ 0
    ∧ sample_env.so_error ((sample_world connecting_proxy [0]).heap 0).dst.fd = 0
    ∧ dispatch_entry sample_env
        { w := sample_world connecting_proxy [0], local_list := [], num_works := 0 }
        { fd := 5, events := ENDPOINT_POLLEVENTS, revents := POLLIN ||| POLLHUP, owner := 0,
          idx := 0 }
        = .ok (dispatch_result sample_env (sample_pfds (POLLIN ||| POLLHUP) 0)
                (sample_world connecting_proxy [0]))
    ∧ ((dispatch_result sample_env (sample_pfds (POLLIN ||| POLLHUP) 0)
          (sample_world connecting_proxy [0])).w.heap 0).status = PST_CLOSED
    ∧ ((dispatch_result sample_env (sample_pfds (POLLIN ||| POLLHUP) 0)
          (sample_world connecting_proxy [0])).w.heap 0).enqueued = false
    ∧ (dispatch_result sample_env (sample_pfds (POLLIN ||| POLLHUP) 0)
          (sample_world connecting_proxy [0])).local_list = [] :=
  ⟨rfl, rfl, by decide, rfl, rfl, rfl, rfl, rfl⟩

/-! ## The listener's pin -/

/-- C9 at its failing inputs.  A PENDING descriptor held by the table only
(count 1) is found and pinned.  When `gethostbyname` fails, the round goes to
`close_connection`, whose `destroy_proxy` drops one reference: the descriptor
ends CLOSED and out of the table with count 1 and is never freed, the
listener's pin being released nowhere.  When the garbage collector destroys the
descriptor during the round, the listener unpins on seeing CLOSED (count 0,
freed) and `close_connection` then calls `destroy_proxy` on it again, which
takes the count to -1.  A round in which all goes well ends with count 1. -/
theorem listener_pin_not_balanced :
    ((sample_world pending_client [0]).heap 0).refcnt = 1
    ∧ syntab_find (sample_world pending_client [0])
        { addr := ntohl sample_cliaddr.sin_addr, port := ntohs sample_cliaddr.sin_port } = some 0
    ∧ listener_iteration failing_listener_env (sample_world pending_client [0])
        = .ok (listener_result failing_listener_env (sample_world pending_client [0]))
    ∧ ((listener_result failing_listener_env (sample_world pending_client [0])).heap 0).refcnt = 1
    ∧ ((listener_result failing_listener_env (sample_world pending_client [0])).heap 0).status
        = PST_CLOSED
    ∧ 0 ∉ (listener_result failing_listener_env (sample_world pending_client [0])).syntab.conns
    ∧ sys_event.free 0
        ∉ (listener_result failing_listener_env (sample_world pending_client [0])).trace
    ∧ listener_iteration raced_listener_env (sample_world pending_client [0])
        = .ok (listener_result raced_listener_env (sample_world pending_client [0]))
    ∧ ((listener_result raced_listener_env (sample_world pending_client [0])).heap 0).refcnt = -1
    ∧ (listener_result raced_listener_env (sample_world pending_client [0])).trace
        = [sys_event.free 0, sys_event.close 7, sys_event.close 8]
    ∧ listener_iteration good_listener_env (sample_world pending_client [0])
        = .ok (listener_result good_listener_env (sample_world pending_client [0]))
    ∧ ((listener_result good_listener_env (sample_world pending_client [0])).heap 0).refcnt = 1
    ∧ ((listener_result good_listener_env (sample_world pending_client [0])).heap 0).status
        = PST_CONNECT :=
  ⟨rfl, rfl, rfl, rfl, rfl, by decide, by decide, rfl, rfl, rfl, rfl, rfl, rfl⟩

/-! ## Ingress MSS clamp -/

/-- C10: the ingress MSS clamp.  For every `int` value of the configured
ingress MTU above 80 the value passed to `TCP_MAXSEG` is
`min (mtu - 24 - 26) 32767`, which lies in `31 .. 32767`; for every MTU of 80
or less the option is not set. -/
theorem ingress_mss_clamp (mtu : Int) (hlo : -2147483648 ≤ mtu) (hhi : mtu ≤ 2147483647) :
    (80 < mtu →
      ingress_maxseg_option mtu = some (min (mtu - 24 - 26) 32767)
      ∧ 31 ≤ min (mtu - 24 - 26) 32767 ∧ min (mtu - 24 - 26) 32767 ≤ 32767)
    ∧ (mtu ≤ 80 → ingress_maxseg_option mtu = none) := by
  constructor
  · intro h
    have h1 : wrap_int32 (wrap_int32 (mtu - IP_HEADER_SIZE) - TCP_HEADER_SIZE) = mtu - 24 - 26 := by
      unfold wrap_int32 IP_HEADER_SIZE TCP_HEADER_SIZE
      omega
    have h2 : to_uint32 (mtu - 24 - 26) = mtu - 24 - 26 := by
      unfold to_uint32
      omega
    unfold ingress_maxseg_option
    rw [if_pos h]
    simp only [h1, h2, MAX_TCP_WINDOW]
    by_cases hc : mtu - 24 - 26 > 32767
    · rw [if_pos hc]
      have hm : min (mtu - 24 - 26) 32767 = 32767 := min_eq_right (le_of_lt hc)
      rw [hm]
      exact ⟨rfl, by omega, le_refl _⟩
    · rw [if_neg hc]
      have hm : min (mtu - 24 - 26) 32767 = mtu - 24 - 26 := min_eq_left (by omega)
      rw [hm]
      exact ⟨rfl, by omega, by omega⟩
  · intro h
    unfold ingress_maxseg_option
    rw [if_neg (by omega)]

theorem ingress_mss_clamp_witness :
    (-2147483648 : Int) ≤ 1500 ∧ (1500 : Int) ≤ 2147483647
    ∧ ((80 : Int) < 1500 →
      ingress_maxseg_option 1500 = some (min (1500 - 24 - 26) 32767)
      ∧ (31 : Int) ≤ min (1500 - 24 - 26) 32767 ∧ min ((1500 : Int) - 24 - 26) 32767 ≤ 32767)
    ∧ ((1500 : Int) ≤ 80 → ingress_maxseg_option 1500 = none) :=
  ⟨by decide, by decide, ingress_mss_clamp 1500 (by decide) (by decide)⟩

/-! ## Bookkeeping of the dispatch loop -/

theorem destroy_proxy_enqueued (w : World) (p : Nat) :
    ((destroy_proxy w p).heap p).enqueued = (w.heap p).enqueued := by
  by_cases hc : (w.heap p).status = PST_CLOSED
  · rw [destroy_proxy_closed_eq w p hc, unpin_heap_same]
  · rw [destroy_proxy_not_closed_eq w p hc, unpin_heap_same, destroy_before_unpin_heap_same]

/-- The bookkeeping survives any change of the shared state that touches only a
descriptor which is not enqueued and leaves it so. -/
theorem dispatch_inv_update (st : dispatch_state) (w1 : World) (q : Nat)
    (hinv : dispatch_inv st) (hq : (st.w.heap q).enqueued = false)
    (hq1 : (w1.heap q).enqueued = false) (hother : ∀ p, p ≠ q → w1.heap p = st.w.heap p) :
    dispatch_inv { st with w := w1 } := by
  obtain ⟨h1, h2, h3, h4⟩ := hinv
  have hnot : q ∉ st.local_list := by
    intro hm
    have := (h2 q).mpr hm
    rw [hq] at this
    cases this
  refine ⟨h1, ?_, ?_, h4⟩
  · intro p
    by_cases hp : p = q
    · subst hp
      constructor
      · intro h
        rw [hq1] at h
        cases h
      · intro hm
        exact absurd hm hnot
    · show (w1.heap p).enqueued = true ↔ p ∈ st.local_list
      rw [hother p hp]
      exact h2 p
  · intro p hm
    have hp : p ≠ q := fun h => hnot (h ▸ hm)
    show (w1.heap p).status = PST_OPEN
    rw [hother p hp]
    exact h3 p hm

theorem dispatch_open_inv (st : dispatch_state) (e : poll_entry) (hinv : dispatch_inv st)
    (hq : (st.w.heap e.owner).enqueued = false) (hs : (st.w.heap e.owner).status = PST_OPEN) :
    dispatch_inv (dispatch_open st e) := by
  by_cases h1 : e.revents &&& (POLLHUP ||| POLLERR ||| POLLNVAL) ≠ 0
  · rw [dispatch_open_hup st e h1]
    have hl : (if (st.w.heap e.owner).enqueued = true then st.local_list.erase e.owner
        else st.local_list) = st.local_list := by simp [hq]
    rw [hl]
    exact dispatch_inv_update st (destroy_proxy st.w e.owner) e.owner hinv hq
      (by rw [destroy_proxy_enqueued]; exact hq)
      (fun p hp => destroy_proxy_heap_other st.w e.owner p hp)
  · by_cases h2 : e.revents &&& (POLLIN ||| POLLOUT) ≠ 0
    · rw [dispatch_open_ready st e h1 h2]
      obtain ⟨k1, k2, k3, k4⟩ := hinv
      have hnot : e.owner ∉ st.local_list := by
        intro hm
        have := (k2 e.owner).mpr hm
        rw [hq] at this
        cases this
      refine ⟨?_, ?_, ?_, ?_⟩
      · show (st.local_list ++ [e.owner]).Nodup
        rw [List.nodup_append]
        refine ⟨k1, List.nodup_singleton _, ?_⟩
        intro a ha hb
        have : a = e.owner := by simpa using hb
        exact hnot (this ▸ ha)
      · intro p
        show ((st.w.modify e.owner (fun x => { x with enqueued := true })).heap p).enqueued = true
          ↔ p ∈ st.local_list ++ [e.owner]
        by_cases hp : p = e.owner
        · subst hp
          simp
        · rw [modify_heap_other _ _ _ _ hp]
          simp [hp, k2 p]
      · intro p hm
        show ((st.w.modify e.owner (fun x => { x with enqueued := true })).heap p).status = PST_OPEN
        by_cases hp : p = e.owner
        · subst hp
          simp [hs]
        · rw [modify_heap_other _ _ _ _ hp]
          have hm1 : p ∈ st.local_list ++ [e.owner] := hm
          rcases List.mem_append.mp hm1 with h | h
          · exact k3 p h
          · exact absurd (by simpa using h) hp
      · show st.num_works + 1 = (st.local_list ++ [e.owner]).length
        simp [k4]
    · rw [dispatch_open_idle st e h1 h2]
      exact hinv

theorem dispatch_entry_inv (env : poller_env) (st st1 : dispatch_state) (e : poll_entry)
    (hinv : dispatch_inv st) (hok : dispatch_entry env st e = .ok st1) : dispatch_inv st1 := by
  by_cases h0 : e.revents = 0
  · rw [dispatch_entry_no_event env st e h0] at hok
    cases hok
    exact hinv
  by_cases h1 : (st.w.heap e.owner).enqueued = true
  · rw [dispatch_entry_enqueued env st e h1] at hok
    cases hok
    exact hinv
  have h1' : (st.w.heap e.owner).enqueued = false := by simpa using h1
  by_cases hs : (st.w.heap e.owner).status = PST_CONNECT
  · by_cases hc : env.so_error (st.w.heap e.owner).dst.fd = 0
    · rw [dispatch_entry_connect_ok env st e h0 h1' hs hc] at hok
      cases hp : dispatch_promote env st.w e.owner with
      | error f =>
        rw [hp] at hok
        cases hok
      | ok w1 =>
        rw [hp] at hok
        cases hok
        obtain ⟨hh1, _, _⟩ := dispatch_promote_heap_same env st.w w1 e.owner hp
        have hq1 : (w1.heap e.owner).enqueued = false := by rw [hh1]; exact h1'
        have hs1 : (w1.heap e.owner).status = PST_OPEN := by rw [hh1]
        exact dispatch_open_inv { st with w := w1 } e
          (dispatch_inv_update st w1 e.owner hinv h1' hq1
            (fun p hp1 => dispatch_promote_heap_other env st.w w1 e.owner p hp1 hp))
          hq1 hs1
    · rw [dispatch_entry_connect_err env st e h0 h1' hs hc] at hok
      cases hok
      exact dispatch_inv_update st (destroy_proxy st.w e.owner) e.owner hinv h1'
        (by rw [destroy_proxy_enqueued]; exact h1')
        (fun p hp => destroy_proxy_heap_other st.w e.owner p hp)
  by_cases hs2 : (st.w.heap e.owner).status = PST_OPEN
  · rw [dispatch_entry_open env st e h0 h1' hs2] at hok
    cases hok
    exact dispatch_open_inv st e hinv h1' hs2
  · rw [dispatch_entry_other_status env st e hs hs2] at hok
    cases hok
    exact hinv

theorem dispatch_loop_inv (env : poller_env) (es : List poll_entry) :
    ∀ st st1 : dispatch_state, dispatch_inv st → dispatch_loop env es st = .ok st1 →
      dispatch_inv st1 := by
  induction es with
  | nil =>
    intro st st1 hinv hok
    unfold dispatch_loop at hok
    cases hok
    exact hinv
  | cons e es ih =>
    intro st st1 hinv hok
    unfold dispatch_loop at hok
    cases he : dispatch_entry env st e with
    | error f =>
      rw [he] at hok
      cases hok
    | ok st2 =>
      rw [he] at hok
      exact ih st2 st1 (dispatch_entry_inv env st st2 e hinv he) hok

/-- C11: the state at the end of the poller's dispatch loop, entered with no
`enqueued` flag set.  No descriptor is on the local ready list more than once,
whatever its two poll slots report; a descriptor is on the list if and only if
its `enqueued` flag is 1; every listed descriptor has status OPEN; and
`num_works` is the number of descriptors on the list. -/
theorem dispatch_loop_bookkeeping (env : poller_env) (pfds : List poll_entry) (w : World)
    (st : dispatch_state) (h0 : ∀ p, (w.heap p).enqueued = false)
    (hok : poller_dispatch env pfds w = .ok st) :
    st.local_list.Nodup
    ∧ (∀ p, st.local_list.count p ≤ 1)
    ∧ (∀ p, (st.w.heap p).enqueued = true ↔ p ∈ st.local_list)
    ∧ (∀ p ∈ st.local_list, (st.w.heap p).status = PST_OPEN)
    ∧ st.num_works = st.local_list.length := by
  have hinit : dispatch_inv { w := w, local_list := [], num_works := 0 } := by
    refine ⟨List.nodup_nil, ?_, ?_, rfl⟩
    · intro p
      simp [h0 p]
    · intro p hp
      simp at hp
  obtain ⟨k1, k2, k3, k4⟩ := dispatch_loop_inv env pfds _ st hinit hok
  exact ⟨k1, fun p => List.nodup_iff_count_le_one.mp k1 p, k2, k3, k4⟩

theorem dispatch_loop_bookkeeping_witness :
    (∀ p, ((sample_world open_proxy [0]).heap p).enqueued = false)
    ∧ (dispatch_result sample_env (sample_pfds POLLIN POLLOUT)
        (sample_world open_proxy [0])).local_list = [0]
    ∧ (dispatch_result sample_env (sample_pfds POLLIN POLLOUT)
        (sample_world open_proxy [0])).num_works = 1
    ∧ (dispatch_result sample_env (sample_pfds POLLIN POLLOUT)
        (sample_world open_proxy [0])).local_list.Nodup
    ∧ (∀ p, ((dispatch_result sample_env (sample_pfds POLLIN POLLOUT)
          (sample_world open_proxy [0])).w.heap p).enqueued = true
        ↔ p ∈ (dispatch_result sample_env (sample_pfds POLLIN POLLOUT)
          (sample_world open_proxy [0])).local_list) :=
  have h0 : ∀ p, ((sample_world open_proxy [0]).heap p).enqueued = false := by
    intro p
    by_cases hp : p = 0
    · subst hp
      rfl
    · simp [sample_world, hp, zero_proxy]
  ⟨h0, rfl, rfl,
    (dispatch_loop_bookkeeping sample_env (sample_pfds POLLIN POLLOUT)
      (sample_world open_proxy [0]) _ h0 rfl).1,
    (dispatch_loop_bookkeeping sample_env (sample_pfds POLLIN POLLOUT)
      (sample_world open_proxy [0]) _ h0 rfl).2.2.1⟩

/-! ## `nonblocking_err_p` -/

theorem nonblocking_err_p_loop_spec (past : Nat → Int) (err : Int) :
    ∀ n i : Nat,
      (nonblocking_err_p_loop past err n i = 1 ∨ nonblocking_err_p_loop past err n i = 0)
      ∧ (nonblocking_err_p_loop past err n i = 1 ↔
          ∃ k, i ≤ k ∧ k < i + n ∧ err = nb_errs_at past k) := by
  intro n
  induction n with
  | zero =>
    intro i
    unfold nonblocking_err_p_loop
    refine ⟨Or.inr rfl, ?_⟩
    constructor
    · intro h
      cases h
    · rintro ⟨k, h1, h2, _⟩
      omega
  | succ n ih =>
    intro i
    unfold nonblocking_err_p_loop
    by_cases h : err = nb_errs_at past i
    · rw [if_pos h]
      exact ⟨Or.inl rfl, fun _ => ⟨i, le_refl i, by omega, h⟩, fun _ => rfl⟩
    · rw [if_neg h]
      obtain ⟨k1, k2⟩ := ih (i + 1)
      refine ⟨k1, ?_⟩
      rw [k2]
      constructor
      · rintro ⟨k, h1, h2, h3⟩
        exact ⟨k, by omega, by omega, h3⟩
      · rintro ⟨k, h1, h2, h3⟩
        have hk : k ≠ i := by
          intro hki
          rw [hki] at h3
          exact h h3
        exact ⟨k, by omega, by omega, h3⟩

/-- What `nonblocking_err_p` computes: it answers 1 for the three listed error
numbers and also for any number found in one of the nine words it reads past
the end of `nb_errs`, and 0 otherwise. -/
theorem nonblocking_err_p_spec (past : Nat → Int) (err : Int) :
    (nonblocking_err_p past err = 1 ∨ nonblocking_err_p past err = 0)
    ∧ (nonblocking_err_p past err = 1 ↔
        (err = EAGAIN ∨ err = EINPROGRESS ∨ err = EALREADY
          ∨ ∃ k, 3 ≤ k ∧ k < 12 ∧ err = past k)) := by
  unfold nonblocking_err_p
  obtain ⟨k1, k2⟩ := nonblocking_err_p_loop_spec past err 12 0
  refine ⟨k1, ?_⟩
  rw [k2]
  constructor
  · rintro ⟨k, _, h2, h3⟩
    by_cases c0 : k = 0
    · left
      rw [h3, c0]
      rfl
    by_cases c1 : k = 1
    · right; left
      rw [h3, c1]
      rfl
    by_cases c2 : k = 2
    · right; right; left
      rw [h3, c2]
      rfl
    · right; right; right
      refine ⟨k, by omega, by omega, ?_⟩
      rw [h3]
      unfold nb_errs_at
      rw [if_neg c0, if_neg c1, if_neg c2]
  · rintro (h | h | h | ⟨k, h1, h2, h3⟩)
    · exact ⟨0, le_refl 0, by omega, h⟩
    · exact ⟨1, by omega, by omega, h⟩
    · exact ⟨2, by omega, by omega, h⟩
    · refine ⟨k, by omega, by omega, ?_⟩
      rw [h3]
      unfold nb_errs_at
      rw [if_neg (by omega), if_neg (by omega), if_neg (by omega)]

theorem nonblocking_err_p_listed (past : Nat → Int) (err : Int)
    (h : err = EAGAIN ∨ err = EINPROGRESS ∨ err = EALREADY) :
    nonblocking_err_p past err ≠ 0 := by
  have h1 : nonblocking_err_p past err = 1 := by
    rw [(nonblocking_err_p_spec past err).2]
    rcases h with h | h | h
    · exact Or.inl h
    · exact Or.inr (Or.inl h)
    · exact Or.inr (Or.inr (Or.inl h))
  rw [h1]
  decide

/-- C12 at its failing input.  The loop of `nonblocking_err_p` runs to
`sizeof(nb_errs)`, 12, and so compares `err` with nine words past the end of
the three-element array: for `ECONNRESET`, which is none of `EAGAIN`,
`EINPROGRESS`, `EALREADY`, the answer is 1 when one of those words holds 104
and 0 when none does, so the result depends on more than `err` and the three
constants. -/
theorem nonblocking_err_p_reads_past_array :
    ECONNRESET ≠ EAGAIN ∧ ECONNRESET ≠ EINPROGRESS ∧ ECONNRESET ≠ EALREADY
    ∧ nonblocking_err_p (fun i => if i = 7 then 104 else 0) ECONNRESET = 1
    ∧ nonblocking_err_p (fun _ => 0) ECONNRESET = 0
    ∧ nonblocking_err_p (fun _ => 0) EAGAIN = 1
    ∧ nonblocking_err_p (fun _ => 0) EINPROGRESS = 1
    ∧ nonblocking_err_p (fun _ => 0) EALREADY = 1 :=
  ⟨by decide, by decide, by decide, by decide, by decide, by decide, by decide, by decide⟩

/-! ## One receive step, one send step -/

/-- The classification `pep_receive` makes.  With READ_DONE, ERROR or EOF set or
a full buffer: no `read`, result 0, nothing changed.  Otherwise one `read` of
the free space, and: `n > 0` bytes (at most the space offered, into a buffer
whose count is within capacity) advance the buffer by `n` within capacity, set
no flag and give `n`; 0 bytes set EOF and give 0; a failure for which
`nonblocking_err_p` answers non-zero sets READ_DONE and gives 0; a failure for
which it answers 0 sets ERROR and gives -1; the last three leave the buffer
alone. -/
theorem pep_receive_classification (past : Nat → Int) (f : Nat → io_result) (e : pep_endpoint) :
    ((e.iostat.rdone || e.iostat.err || e.iostat.eof || pepbuf_full e.buf) = true →
      pep_receive past f e = .ok { endp := e, ret := 0, called := false })
    ∧ ((e.iostat.rdone || e.iostat.err || e.iostat.eof || pepbuf_full e.buf) = false →
      (∀ n, f (PEPBUF_SPACE_LEFT e.buf) = io_result.bytes (n + 1) →
          n + 1 ≤ PEPBUF_SPACE_LEFT e.buf → e.buf.count ≤ e.buf.capacity →
          pep_receive past f e
            = .ok { endp := { e with buf := { e.buf with
                        r_pos := (e.buf.r_pos + (n + 1)) % e.buf.capacity,
                        count := e.buf.count + (n + 1) } },
                    ret := ((n + 1 : Nat) : Int), called := true }
          ∧ e.buf.count + (n + 1) ≤ e.buf.capacity)
      ∧ (f (PEPBUF_SPACE_LEFT e.buf) = io_result.bytes 0 →
          pep_receive past f e
            = .ok { endp := { e with iostat := { e.iostat with eof := true } }, ret := 0,
                    called := true })
      ∧ (∀ errno, f (PEPBUF_SPACE_LEFT e.buf) = io_result.fail errno →
          nonblocking_err_p past errno ≠ 0 →
          pep_receive past f e
            = .ok { endp := { e with iostat := { e.iostat with rdone := true } }, ret := 0,
                    called := true })
      ∧ (∀ errno, f (PEPBUF_SPACE_LEFT e.buf) = io_result.fail errno →
          nonblocking_err_p past errno = 0 →
          pep_receive past f e
            = .ok { endp := { e with iostat := { e.iostat with err := true } }, ret := -1,
                    called := true })) := by
  constructor
  · intro hg
    unfold pep_receive
    rw [if_pos hg]
  · intro hg
    have hg1 : ¬ (e.iostat.rdone || e.iostat.err || e.iostat.eof || pepbuf_full e.buf) = true := by
      rw [hg]
      decide
    refine ⟨?_, ?_, ?_, ?_⟩
    · intro n hres hle hcap
      unfold pep_receive
      rw [if_neg hg1, hres]
      simp only [pepbuf_update_rpos, hle, if_true]
      refine ⟨trivial, ?_⟩
      unfold PEPBUF_SPACE_LEFT at hle
      omega
    · intro hres
      unfold pep_receive
      rw [if_neg hg1, hres]
    · intro errno hres hnb
      unfold pep_receive
      rw [if_neg hg1, hres]
      dsimp only
      rw [if_pos hnb]
    · intro errno hres hnb
      unfold pep_receive
      rw [if_neg hg1, hres]
      dsimp only
      rw [if_neg (by simp [hnb])]

/-- The classification `pep_send` makes.  With ERROR or WRITE_DONE set, or an
empty buffer without EOF: no `write`, result 0, nothing changed.  Otherwise one
`write` of the buffered bytes, and: `n >= 0` bytes (at most those offered)
advance the consumer position by `n`, the count dropping by `n`, and give `n`;
a failure for which `nonblocking_err_p` answers non-zero sets WRITE_DONE and
gives 0; a failure for which it answers 0 sets ERROR and gives -1; both leave
the buffer alone. -/
theorem pep_send_classification (past : Nat → Int) (f : Nat → io_result) (e : pep_endpoint) :
    ((e.iostat.err || e.iostat.wdone || (pepbuf_empty e.buf && !e.iostat.eof)) = true →
      pep_send past f e = .ok { endp := e, ret := 0, called := false })
    ∧ ((e.iostat.err || e.iostat.wdone || (pepbuf_empty e.buf && !e.iostat.eof)) = false →
      (∀ n, f (PEPBUF_SPACE_FILLED e.buf) = io_result.bytes n →
          n ≤ PEPBUF_SPACE_FILLED e.buf →
          pep_send past f e
            = .ok { endp := { e with buf := { e.buf with
                        w_pos := (e.buf.w_pos + n) % e.buf.capacity,
                        count := e.buf.count - n } },
                    ret := (n : Int), called := true }
          ∧ n ≤ e.buf.count)
      ∧ (∀ errno, f (PEPBUF_SPACE_FILLED e.buf) = io_result.fail errno →
          nonblocking_err_p past errno ≠ 0 →
          pep_send past f e
            = .ok { endp := { e with iostat := { e.iostat with wdone := true } }, ret := 0,
                    called := true })
      ∧ (∀ errno, f (PEPBUF_SPACE_FILLED e.buf) = io_result.fail errno →
          nonblocking_err_p past errno = 0 →
          pep_send past f e
            = .ok { endp := { e with iostat := { e.iostat with err := true } }, ret := -1,
                    called := true })) := by
  constructor
  · intro hg
    unfold pep_send
    rw [if_pos hg]
  · intro hg
    have hg1 : ¬ (e.iostat.err || e.iostat.wdone || (pepbuf_empty e.buf && !e.iostat.eof))
        = true := by
      rw [hg]
      decide
    refine ⟨?_, ?_, ?_⟩
    · intro n hres hle
      unfold pep_send
      rw [if_neg hg1, hres]
      simp only [pepbuf_update_wpos, hle, if_true]
      exact ⟨trivial, hle⟩
    · intro errno hres hnb
      unfold pep_send
      rw [if_neg hg1, hres]
      dsimp only
      rw [if_pos hnb]
    · intro errno hres hnb
      unfold pep_send
      rw [if_neg hg1, hres]
      dsimp only
      rw [if_neg (by simp [hnb])]

/-- C13 at its failing input.  A `read` on an endpoint with no flag set and
space in its buffer fails with `ECONNRESET`, which is none of `EAGAIN`,
`EINPROGRESS`, `EALREADY`.  When one of the nine words `nonblocking_err_p`
reads past the end of `nb_errs` holds 104, `pep_receive` sets READ_DONE and
returns 0 instead of setting ERROR and returning -1 (as it does when none of
those words matches). -/
theorem pep_receive_misclassifies_error :
    (io_endpoint.iostat.rdone || io_endpoint.iostat.err || io_endpoint.iostat.eof
        || pepbuf_full io_endpoint.buf) = false
    ∧ ECONNRESET ≠ EAGAIN ∧ ECONNRESET ≠ EINPROGRESS ∧ ECONNRESET ≠ EALREADY
    ∧ pep_receive (fun i => if i = 7 then 104 else 0) reset_rd io_endpoint
        = .ok { endp := { io_endpoint with
                    iostat := { rdone := true, wdone := false, err := false, eof := false } },
                ret := 0, called := true }
    ∧ pep_receive (fun _ => 0) reset_rd io_endpoint
        = .ok { endp := { io_endpoint with
                    iostat := { rdone := false, wdone := false, err := true, eof := false } },
                ret := -1, called := true } :=
  ⟨rfl, by decide, by decide, by decide, rfl, rfl⟩

/-- C14 at its failing input.  A `write` from an endpoint with no flag set and
3 buffered bytes fails with `EPIPE`, which is none of `EAGAIN`, `EINPROGRESS`,
`EALREADY`.  When one of the nine words `nonblocking_err_p` reads past the end
of `nb_errs` holds 32, `pep_send` sets WRITE_DONE and returns 0 instead of
setting ERROR and returning -1 (as it does when none of those words
matches). -/
theorem pep_send_misclassifies_error :
    (io_endpoint.iostat.err || io_endpoint.iostat.wdone
        || (pepbuf_empty io_endpoint.buf && !io_endpoint.iostat.eof)) = false
    ∧ EPIPE ≠ EAGAIN ∧ EPIPE ≠ EINPROGRESS ∧ EPIPE ≠ EALREADY
    ∧ pep_send (fun i => if i = 4 then 32 else 0) broken_wr io_endpoint
        = .ok { endp := { io_endpoint with
                    iostat := { rdone := false, wdone := true, err := false, eof := false } },
                ret := 0, called := true }
    ∧ pep_send (fun _ => 0) broken_wr io_endpoint
        = .ok { endp := { io_endpoint with
                    iostat := { rdone := false, wdone := false, err := true, eof := false } },
                ret := -1, called := true } :=
  ⟨rfl, by decide, by decide, by decide, rfl, rfl⟩

/-! ## Poll interest after a splice -/

theorem testBit_POLLIN (i : Nat) : POLLIN.testBit i = decide (0 = i) := by
  have h : POLLIN = 2 ^ 0 := by
    unfold POLLIN
    norm_num
  rw [h, Nat.testBit_two_pow]

theorem testBit_POLLOUT (i : Nat) : POLLOUT.testBit i = decide (2 = i) := by
  have h : POLLOUT = 2 ^ 2 := by
    unfold POLLOUT
    norm_num
  rw [h, Nat.testBit_two_pow]

theorem testBit_mask_clear (x m i : Nat) :
    (mask_clear x m).testBit i = (x.testBit i && !m.testBit i) := by
  unfold mask_clear
  rw [Nat.testBit_bitwise (by rfl)]

theorem pep_receive_keeps_interest (past : Nat → Int) (f : Nat → io_result) (e : pep_endpoint)
    (r : io_step) (h : pep_receive past f e = .ok r) :
    r.endp.poll_events = e.poll_events := by
  unfold pep_receive at h
  by_cases hg : (e.iostat.rdone || e.iostat.err || e.iostat.eof || pepbuf_full e.buf) = true
  · rw [if_pos hg] at h
    cases h
    rfl
  · rw [if_neg hg] at h
    cases hres : f (PEPBUF_SPACE_LEFT e.buf) with
    | fail errno =>
      rw [hres] at h
      dsimp only at h
      by_cases hnb : nonblocking_err_p past errno ≠ 0
      · rw [if_pos hnb] at h
        cases h
        rfl
      · rw [if_neg hnb] at h
        cases h
        rfl
    | bytes n =>
      rw [hres] at h
      cases n with
      | zero =>
        cases h
        rfl
      | succ m =>
        dsimp only at h
        cases hb : pepbuf_update_rpos e.buf (m + 1) with
        | error f1 =>
          rw [hb] at h
          cases h
        | ok b =>
          rw [hb] at h
          cases h
          rfl

theorem pep_send_keeps_interest (past : Nat → Int) (f : Nat → io_result) (e : pep_endpoint)
    (r : io_step) (h : pep_send past f e = .ok r) :
    r.endp.poll_events = e.poll_events := by
  unfold pep_send at h
  by_cases hg : (e.iostat.err || e.iostat.wdone || (pepbuf_empty e.buf && !e.iostat.eof)) = true
  · rw [if_pos hg] at h
    cases h
    rfl
  · rw [if_neg hg] at h
    cases hres : f (PEPBUF_SPACE_FILLED e.buf) with
    | fail errno =>
      rw [hres] at h
      dsimp only at h
      by_cases hnb : nonblocking_err_p past errno ≠ 0
      · rw [if_pos hnb] at h
        cases h
        rfl
      · rw [if_neg hnb] at h
        cases h
        rfl
    | bytes n =>
      rw [hres] at h
      dsimp only at h
      cases hb : pepbuf_update_wpos e.buf n with
      | error f1 =>
        rw [hb] at h
        cases h
      | ok b =>
        rw [hb] at h
        cases h
        rfl

theorem splice_round_keeps_interest (past : Nat → Int) (rd wr : Nat → Nat → io_result)
    (s s1 : splice_state) (h : splice_round past rd wr s = .ok s1) :
    s1.endp.poll_events = s.endp.poll_events := by
  unfold splice_round at h
  cases hr : pep_receive past (rd s.reads) s.endp with
  | error f =>
    rw [hr] at h
    cases h
  | ok r =>
    rw [hr] at h
    dsimp only at h
    cases ht : pep_send past (wr s.writes) r.endp with
    | error f =>
      rw [ht] at h
      cases h
    | ok t =>
      rw [ht] at h
      cases h
      show t.endp.poll_events = s.endp.poll_events
      rw [pep_send_keeps_interest past _ _ t ht, pep_receive_keeps_interest past _ _ r hr]

/-- The loop of `pep_proxy_data` does not touch the interest mask. -/
theorem splice_loop_keeps_interest (past : Nat → Int) (rd wr : Nat → Nat → io_result)
    (fuel : Nat) :
    ∀ s s1 : splice_state, splice_loop past rd wr fuel s = .ok (some s1) →
      s1.endp.poll_events = s.endp.poll_events := by
  induction fuel with
  | zero =>
    intro s s1 h
    unfold splice_loop at h
    by_cases hc : splice_continues s = true
    · rw [if_pos hc] at h
      cases h
    · rw [if_neg hc] at h
      cases h
      rfl
  | succ n ih =>
    intro s s1 h
    unfold splice_loop at h
    by_cases hc : splice_continues s = true
    · rw [if_pos hc] at h
      cases hround : splice_round past rd wr s with
      | error f =>
        rw [hround] at h
        cases h
      | ok s2 =>
        rw [hround] at h
        rw [ih s2 s1 h, splice_round_keeps_interest past rd wr s s2 hround]
    · rw [if_neg hc] at h
      cases h
      rfl

theorem splice_update_interest_eq (frm dest : pep_endpoint) (herr : frm.iostat.err = false) :
    splice_update_interest frm dest
      = ({ frm with poll_events := interest_in frm },
         { dest with poll_events := interest_out frm dest }) := by
  unfold splice_update_interest interest_in interest_out
  rw [if_neg (by simp [herr])]
  by_cases h1 : (pepbuf_full frm.buf || frm.iostat.eof) = true
  · rw [if_pos h1, if_pos h1]
    dsimp only
    by_cases h3 : pepbuf_empty frm.buf = true
    · rw [if_pos h3, if_pos h3]
    · rw [if_neg h3, if_neg h3]
  · rw [if_neg h1, if_neg h1]
    by_cases h2 : frm.iostat.rdone = true
    · rw [if_pos h2, if_pos h2]
      dsimp only
      by_cases h3 : pepbuf_empty frm.buf = true
      · rw [if_pos h3, if_pos h3]
      · rw [if_neg h3, if_neg h3]
    · rw [if_neg h2, if_neg h2]
      dsimp only
      by_cases h3 : pepbuf_empty frm.buf = true
      · rw [if_pos h3, if_pos h3]
      · rw [if_neg h3, if_neg h3]

theorem interest_in_bits (frm : pep_endpoint) :
    (interest_in frm).testBit 0
        = (if (pepbuf_full frm.buf || frm.iostat.eof) = true then false
           else if frm.iostat.rdone = true then true else frm.poll_events.testBit 0)
    ∧ (∀ i, i ≠ 0 → (interest_in frm).testBit i = frm.poll_events.testBit i) := by
  unfold interest_in
  by_cases h1 : (pepbuf_full frm.buf || frm.iostat.eof) = true
  · rw [if_pos h1, if_pos h1]
    constructor
    · rw [testBit_mask_clear, testBit_POLLIN]
      simp
    · intro i hi
      rw [testBit_mask_clear, testBit_POLLIN]
      simp [Ne.symm hi]
  · rw [if_neg h1, if_neg h1]
    by_cases h2 : frm.iostat.rdone = true
    · rw [if_pos h2, if_pos h2]
      constructor
      · rw [Nat.testBit_or, testBit_POLLIN]
        simp
      · intro i hi
        rw [Nat.testBit_or, testBit_POLLIN]
        simp [Ne.symm hi]
    · rw [if_neg h2, if_neg h2]
      exact ⟨rfl, fun _ _ => rfl⟩

theorem interest_out_bits (frm dest : pep_endpoint) :
    (interest_out frm dest).testBit 2 = !pepbuf_empty frm.buf
    ∧ (∀ i, i ≠ 2 → (interest_out frm dest).testBit i = dest.poll_events.testBit i) := by
  unfold interest_out
  by_cases h3 : pepbuf_empty frm.buf = true
  · rw [if_pos h3, h3]
    constructor
    · rw [testBit_mask_clear, testBit_POLLOUT]
      simp
    · intro i hi
      rw [testBit_mask_clear, testBit_POLLOUT]
      simp [Ne.symm hi]
  · rw [if_neg h3]
    have h3' : pepbuf_empty frm.buf = false := by simpa using h3
    rw [h3']
    constructor
    · rw [Nat.testBit_or, testBit_POLLOUT]
      simp
    · intro i hi
      rw [Nat.testBit_or, testBit_POLLOUT]
      simp [Ne.symm hi]

theorem land_eq_of_bits (x y m : Nat) (h : ∀ i, m.testBit i = true → x.testBit i = y.testBit i) :
    x &&& m = y &&& m := by
  apply Nat.eq_of_testBit_eq
  intro i
  rw [Nat.testBit_and, Nat.testBit_and]
  by_cases hm : m.testBit i = true
  · rw [h i hm]
  · have hm' : m.testBit i = false := by simpa using hm
    rw [hm']
    simp

/-- C15: the poll-interest update of `pep_proxy_data(from, to)`.  Whenever the
call returns without ERROR set on `from`: the `POLLIN` bit of `from` is clear if
`from.buf` is full or EOF is set on `from`, otherwise set if READ_DONE is set,
otherwise what it was on entry; the `POLLOUT` bit of `to` is set if and only if
`from.buf` is not empty; no other bit of either mask changes, so `POLLHUP`,
`POLLERR` and `POLLNVAL` are as before; and nothing else of `to` changes. -/
theorem splice_interest_update (past : Nat → Int) (rd wr : Nat → Nat → io_result) (fuel : Nat)
    (frm dest f1 d1 : pep_endpoint)
    (h : pep_proxy_data past rd wr fuel frm dest = .ok (some (f1, d1)))
    (herr : f1.iostat.err = false) :
    f1.poll_events.testBit 0
        = (if (pepbuf_full f1.buf || f1.iostat.eof) = true then false
           else if f1.iostat.rdone = true then true else frm.poll_events.testBit 0)
    ∧ d1.poll_events.testBit 2 = !pepbuf_empty f1.buf
    ∧ (∀ i, i ≠ 0 → f1.poll_events.testBit i = frm.poll_events.testBit i)
    ∧ (∀ i, i ≠ 2 → d1.poll_events.testBit i = dest.poll_events.testBit i)
    ∧ f1.poll_events &&& (POLLHUP ||| POLLERR ||| POLLNVAL)
        = frm.poll_events &&& (POLLHUP ||| POLLERR ||| POLLNVAL)
    ∧ d1.poll_events &&& (POLLHUP ||| POLLERR ||| POLLNVAL)
        = dest.poll_events &&& (POLLHUP ||| POLLERR ||| POLLNVAL)
    ∧ d1 = { dest with poll_events := d1.poll_events } := by
  unfold pep_proxy_data at h
  cases hloop : splice_loop past rd wr fuel (splice_start frm) with
  | error f =>
    rw [hloop] at h
    cases h
  | ok r =>
    rw [hloop] at h
    cases r with
    | none => cases h
    | some s1 =>
      have hpair : splice_update_interest s1.endp dest = (f1, d1) := by
        injection h with h1
        injection h1
      have hmask : s1.endp.poll_events = frm.poll_events :=
        splice_loop_keeps_interest past rd wr fuel (splice_start frm) s1 hloop
      have herr1 : s1.endp.iostat.err = false := by
        by_cases he : s1.endp.iostat.err = true
        · have : splice_update_interest s1.endp dest = (s1.endp, dest) := by
            unfold splice_update_interest
            rw [if_pos he]
          rw [this] at hpair
          injection hpair with hf _
          rw [← hf, he] at herr
          cases herr
        · simpa using he
      rw [splice_update_interest_eq s1.endp dest herr1] at hpair
      injection hpair with hf hd
      obtain ⟨a1, a2⟩ := interest_in_bits s1.endp
      obtain ⟨b1, b2⟩ := interest_out_bits s1.endp dest
      have c3 : ∀ i, i ≠ 0 → f1.poll_events.testBit i = frm.poll_events.testBit i := by
        intro i hi
        rw [← hf, ← hmask]
        exact a2 i hi
      have c4 : ∀ i, i ≠ 2 → d1.poll_events.testBit i = dest.poll_events.testBit i := by
        intro i hi
        rw [← hd]
        exact b2 i hi
      refine ⟨?_, ?_, c3, c4, ?_, ?_, ?_⟩
      · rw [← hf, ← hmask]
        exact a1
      · rw [← hf, ← hd]
        exact b1
      · apply land_eq_of_bits
        intro i hi
        apply c3
        intro h0
        rw [h0] at hi
        revert hi
        decide
      · apply land_eq_of_bits
        intro i hi
        apply c4
        intro h2
        rw [h2] at hi
        revert hi
        decide
      · rw [← hd]

theorem splice_interest_update_witness :
    pep_proxy_data (fun _ => 0) sample_rd sample_wr 8 io_endpoint (sample_endpoint 20 80 6 true 0)
        = .ok (some ((splice_result (fun _ => 0) sample_rd sample_wr 8 io_endpoint
                        (sample_endpoint 20 80 6 true 0)).1,
                     (splice_result (fun _ => 0) sample_rd sample_wr 8 io_endpoint
                        (sample_endpoint 20 80 6 true 0)).2))
    ∧ (splice_result (fun _ => 0) sample_rd sample_wr 8 io_endpoint
          (sample_endpoint 20 80 6 true 0)).1.iostat.err = false
    ∧ (splice_result (fun _ => 0) sample_rd sample_wr 8 io_endpoint
          (sample_endpoint 20 80 6 true 0)).1.poll_events = ENDPOINT_POLLEVENTS
    ∧ (splice_result (fun _ => 0) sample_rd sample_wr 8 io_endpoint
          (sample_endpoint 20 80 6 true 0)).2.poll_events.testBit 2
        = !pepbuf_empty (splice_result (fun _ => 0) sample_rd sample_wr 8 io_endpoint
            (sample_endpoint 20 80 6 true 0)).1.buf
    ∧ (splice_result (fun _ => 0) sample_rd sample_wr 8 io_endpoint
          (sample_endpoint 20 80 6 true 0)).2.poll_events
          &&& (POLLHUP ||| POLLERR ||| POLLNVAL)
        = (sample_endpoint 20 80 6 true 0).poll_events &&& (POLLHUP ||| POLLERR ||| POLLNVAL) :=
  ⟨rfl, rfl, rfl,
    (splice_interest_update (fun _ => 0) sample_rd sample_wr 8 io_endpoint
      (sample_endpoint 20 80 6 true 0)
      (splice_result (fun _ => 0) sample_rd sample_wr 8 io_endpoint
        (sample_endpoint 20 80 6 true 0)).1
      (splice_result (fun _ => 0) sample_rd sample_wr 8 io_endpoint
        (sample_endpoint 20 80 6 true 0)).2 rfl rfl).2.1,
    (splice_interest_update (fun _ => 0) sample_rd sample_wr 8 io_endpoint
      (sample_endpoint 20 80 6 true 0)
      (splice_result (fun _ => 0) sample_rd sample_wr 8 io_endpoint
        (sample_endpoint 20 80 6 true 0)).1
      (splice_result (fun _ => 0) sample_rd sample_wr 8 io_endpoint
        (sample_endpoint 20 80 6 true 0)).2 rfl rfl).2.2.2.2.2.1⟩

/-! ## Reaping -/

/-- The reap round of a descriptor, unrolled over its two endpoints. -/
theorem reap_visit_eq (st : World × List Nat) (p : Nat) :
    (reap_visit st p).1
      = (if reap_test ((st.1.heap p).src) then
          destroy_proxy (st.1.modify p (fun x => { x with enqueued := false })) p
        else if reap_test ((st.1.heap p).dst) then
          destroy_proxy (st.1.modify p (fun x =>
            { x with enqueued := false,
                     src := { x.src with iostat := iostat_renew x.src.iostat } })) p
        else st.1.modify p reaped) := by
  unfold reap_visit PROXY_ENDPOINTS
  simp only [reap_endpoints, pep_proxy.endpoint, pep_proxy.set_endpoint, modify_heap_same]
  by_cases h0 : reap_test (st.1.heap p).src = true
  · simp [h0]
  · by_cases h1 : reap_test (st.1.heap p).dst = true
    · simp [h0, h1, World.modify]
    · simp [h0, h1, World.modify, reaped]

theorem reap_visit_other (st : World × List Nat) (p q : Nat) (h : p ≠ q) :
    (reap_visit st q).1.heap p = st.1.heap p
    ∧ (p ∈ (reap_visit st q).1.syntab.conns ↔ p ∈ st.1.syntab.conns) := by
  rw [reap_visit_eq]
  by_cases h0 : reap_test (st.1.heap q).src = true
  · rw [if_pos h0]
    exact ⟨by rw [destroy_proxy_heap_other _ _ _ h, modify_heap_other _ _ _ _ h],
      by rw [destroy_proxy_mem_other _ _ _ h, modify_syntab]⟩
  · rw [if_neg h0]
    by_cases h1 : reap_test (st.1.heap q).dst = true
    · rw [if_pos h1]
      exact ⟨by rw [destroy_proxy_heap_other _ _ _ h, modify_heap_other _ _ _ _ h],
        by rw [destroy_proxy_mem_other _ _ _ h, modify_syntab]⟩
    · rw [if_neg h1]
      exact ⟨modify_heap_other _ _ _ _ h, by rw [modify_syntab]⟩

theorem destroy_proxy_status_closed (w : World) (p : Nat) :
    ((destroy_proxy w p).heap p).status = PST_CLOSED := by
  by_cases hc : (w.heap p).status = PST_CLOSED
  · rw [destroy_proxy_closed_eq w p hc, unpin_heap_same]
    exact hc
  · exact (destroy_proxy_closes w p hc).1

/-- A reap round that finds the test true on one endpoint of an open descriptor
destroys it. -/
theorem reap_visit_destroys (st : World × List Nat) (p : Nat)
    (hs : (st.1.heap p).status ≠ PST_CLOSED)
    (hb : (reap_test (st.1.heap p).src || reap_test (st.1.heap p).dst) = true) :
    ((reap_visit st p).1.heap p).status = PST_CLOSED
    ∧ p ∉ (reap_visit st p).1.syntab.conns
    ∧ ((reap_visit st p).1.heap p).enqueued = false := by
  rw [reap_visit_eq]
  by_cases h0 : reap_test (st.1.heap p).src = true
  · rw [if_pos h0]
    have hne : ((st.1.modify p (fun x => { x with enqueued := false })).heap p).status
        ≠ PST_CLOSED := by simpa using hs
    obtain ⟨k1, k2⟩ := destroy_proxy_closes _ p hne
    exact ⟨k1, k2, by rw [destroy_proxy_enqueued]; simp⟩
  · rw [if_neg h0]
    have h1 : reap_test (st.1.heap p).dst = true := by
      have h0' : reap_test (st.1.heap p).src = false := by simpa using h0
      rw [h0'] at hb
      simpa using hb
    rw [if_pos h1]
    have hne : ((st.1.modify p (fun x =>
        { x with enqueued := false,
                 src := { x.src with iostat := iostat_renew x.src.iostat } })).heap p).status
        ≠ PST_CLOSED := by simpa using hs
    obtain ⟨k1, k2⟩ := destroy_proxy_closes _ p hne
    exact ⟨k1, k2, by rw [destroy_proxy_enqueued]; simp⟩

/-- A reap round that finds the test false on both endpoints only renews the
descriptor. -/
theorem reap_visit_renews (st : World × List Nat) (p : Nat)
    (hb : (reap_test (st.1.heap p).src || reap_test (st.1.heap p).dst) = false) :
    (reap_visit st p).1 = st.1.modify p reaped := by
  rw [reap_visit_eq]
  have h0 : reap_test (st.1.heap p).src = false := by
    cases h : reap_test (st.1.heap p).src
    · rfl
    · rw [h] at hb
      simp at hb
  have h1 : reap_test (st.1.heap p).dst = false := by
    rw [h0] at hb
    simpa using hb
  rw [if_neg (by simp [h0]), if_neg (by simp [h1])]

/-- A descriptor that is closed, out of the table and not enqueued stays so
through any reap round. -/
theorem reap_visit_closed_stable (st : World × List Nat) (p q : Nat)
    (hs : (st.1.heap p).status = PST_CLOSED) (hn : p ∉ st.1.syntab.conns)
    (he : (st.1.heap p).enqueued = false) :
    ((reap_visit st q).1.heap p).status = PST_CLOSED
    ∧ p ∉ (reap_visit st q).1.syntab.conns
    ∧ ((reap_visit st q).1.heap p).enqueued = false := by
  by_cases hpq : p = q
  · subst hpq
    rw [reap_visit_eq]
    by_cases h0 : reap_test (st.1.heap p).src = true
    · rw [if_pos h0]
      refine ⟨destroy_proxy_status_closed _ p, ?_, by rw [destroy_proxy_enqueued]; simp⟩
      intro hm
      exact hn (by simpa using destroy_proxy_conns_subset _ p p hm)
    · rw [if_neg h0]
      by_cases h1 : reap_test (st.1.heap p).dst = true
      · rw [if_pos h1]
        refine ⟨destroy_proxy_status_closed _ p, ?_, by rw [destroy_proxy_enqueued]; simp⟩
        intro hm
        exact hn (by simpa using destroy_proxy_conns_subset _ p p hm)
      · rw [if_neg h1]
        exact ⟨by simp [reaped, hs], by simpa using hn, by simp [reaped]⟩
  · obtain ⟨k1, k2⟩ := reap_visit_other st p q hpq
    exact ⟨by rw [k1]; exact hs, fun hm => hn (k2.mp hm), by rw [k1]; exact he⟩

theorem reap_fold_closed_stable (p : Nat) (qs : List Nat) :
    ∀ st : World × List Nat, (st.1.heap p).status = PST_CLOSED → p ∉ st.1.syntab.conns →
      (st.1.heap p).enqueued = false →
      ((qs.foldl reap_visit st).1.heap p).status = PST_CLOSED
      ∧ p ∉ (qs.foldl reap_visit st).1.syntab.conns
      ∧ ((qs.foldl reap_visit st).1.heap p).enqueued = false := by
  induction qs with
  | nil => intro st h1 h2 h3; exact ⟨h1, h2, h3⟩
  | cons q qs ih =>
    intro st h1 h2 h3
    rw [List.foldl_cons]
    obtain ⟨k1, k2, k3⟩ := reap_visit_closed_stable st p q h1 h2 h3
    exact ih (reap_visit st q) k1 k2 k3

theorem reap_fold_destroys (p : Nat) (qs : List Nat) :
    ∀ st : World × List Nat, (st.1.heap p).status ≠ PST_CLOSED →
      (reap_test (st.1.heap p).src || reap_test (st.1.heap p).dst) = true → p ∈ qs →
      ((qs.foldl reap_visit st).1.heap p).status = PST_CLOSED
      ∧ p ∉ (qs.foldl reap_visit st).1.syntab.conns
      ∧ ((qs.foldl reap_visit st).1.heap p).enqueued = false := by
  induction qs with
  | nil => intro st _ _ hp; simp at hp
  | cons q qs ih =>
    intro st hs hb hp
    rw [List.foldl_cons]
    by_cases hpq : p = q
    · subst hpq
      obtain ⟨k1, k2, k3⟩ := reap_visit_destroys st p hs hb
      exact reap_fold_closed_stable p qs (reap_visit st p) k1 k2 k3
    · obtain ⟨k1, _⟩ := reap_visit_other st p q hpq
      have hp1 : p ∈ qs := by
        rcases List.mem_cons.mp hp with h | h
        · exact absurd h hpq
        · exact h
      exact ih (reap_visit st q) (by rw [k1]; exact hs) (by rw [k1]; exact hb) hp1

theorem reaped_test (x : pep_proxy)
    (hb : (reap_test x.src || reap_test x.dst) = false) :
    (reap_test (reaped x).src || reap_test (reaped x).dst) = false ∧ reaped (reaped x) = reaped x := by
  have h0 : reap_test x.src = false := by
    cases h : reap_test x.src
    · rfl
    · rw [h] at hb
      simp at hb
  have h1 : reap_test x.dst = false := by
    rw [h0] at hb
    simpa using hb
  unfold reap_test at h0 h1
  have e0 : x.src.iostat.err = false := by
    cases h : x.src.iostat.err
    · rfl
    · rw [h] at h0
      simp at h0
  have e1 : x.dst.iostat.err = false := by
    cases h : x.dst.iostat.err
    · rfl
    · rw [h] at h1
      simp at h1
  constructor
  · simp [reap_test, reaped, iostat_renew, e0, e1]
  · simp [reaped, iostat_renew]

theorem reap_fold_renews (p : Nat) (qs : List Nat) :
    ∀ st : World × List Nat,
      (reap_test (st.1.heap p).src || reap_test (st.1.heap p).dst) = false → p ∈ qs →
      (qs.foldl reap_visit st).1.heap p = reaped (st.1.heap p)
      ∧ (p ∈ (qs.foldl reap_visit st).1.syntab.conns ↔ p ∈ st.1.syntab.conns) := by
  have keep : ∀ (qs : List Nat) (st : World × List Nat),
      (reap_test (st.1.heap p).src || reap_test (st.1.heap p).dst) = false →
      reaped (st.1.heap p) = st.1.heap p →
      (qs.foldl reap_visit st).1.heap p = st.1.heap p
      ∧ (p ∈ (qs.foldl reap_visit st).1.syntab.conns ↔ p ∈ st.1.syntab.conns) := by
    intro qs
    induction qs with
    | nil => intro st _ _; exact ⟨rfl, Iff.rfl⟩
    | cons q qs ih =>
      intro st hb hfix
      rw [List.foldl_cons]
      by_cases hpq : p = q
      · subst hpq
        have hv := reap_visit_renews st p hb
        have hh : (reap_visit st p).1.heap p = st.1.heap p := by
          rw [hv, modify_heap_same, hfix]
        have hc : (reap_visit st p).1.syntab = st.1.syntab := by rw [hv, modify_syntab]
        obtain ⟨k1, k2⟩ := ih (reap_visit st p) (by rw [hh]; exact hb) (by rw [hh]; exact hfix)
        exact ⟨k1.trans hh, by rw [k2, hc]⟩
      · obtain ⟨k1, k2⟩ := reap_visit_other st p q hpq
        obtain ⟨j1, j2⟩ := ih (reap_visit st q) (by rw [k1]; exact hb) (by rw [k1]; exact hfix)
        exact ⟨j1.trans k1, j2.trans k2⟩
  intro st
  revert st
  induction qs with
  | nil => intro st _ hp; simp at hp
  | cons q qs ih =>
    intro st hb hp
    rw [List.foldl_cons]
    by_cases hpq : p = q
    · subst hpq
      have hv := reap_visit_renews st p hb
      have hh : (reap_visit st p).1.heap p = reaped (st.1.heap p) := by
        rw [hv, modify_heap_same]
      have hc : (reap_visit st p).1.syntab = st.1.syntab := by rw [hv, modify_syntab]
      obtain ⟨t1, t2⟩ := reaped_test (st.1.heap p) hb
      obtain ⟨k1, k2⟩ := keep qs (reap_visit st p) (by rw [hh]; exact t1) (by rw [hh]; exact t2)
      exact ⟨k1.trans hh, by rw [k2, hc]⟩
    · obtain ⟨k1, k2⟩ := reap_visit_other st p q hpq
      have hp1 : p ∈ qs := by
        rcases List.mem_cons.mp hp with h | h
        · exact absurd h hpq
        · exact h
      obtain ⟨j1, j2⟩ := ih (reap_visit st q) (by rw [k1]; exact hb) hp1
      exact ⟨by rw [j1, k1], j2.trans k2⟩

/-- The test of the reap loop in terms of the endpoint's fields: ERROR is set,
or EOF is set and the buffer holds no byte. -/
theorem reap_test_iff (e : pep_endpoint) :
    reap_test e = true
      ↔ (e.iostat.err = true ∨ (e.iostat.eof = true ∧ e.buf.count = 0)) := by
  unfold reap_test pepbuf_empty
  cases h1 : e.iostat.err <;> cases h2 : e.iostat.eof <;> simp

theorem reap_test_pair_iff (x : pep_proxy) :
    (reap_test x.src || reap_test x.dst) = true
      ↔ ((x.src.iostat.err = true ∨ (x.src.iostat.eof = true ∧ x.src.buf.count = 0))
          ∨ (x.dst.iostat.err = true ∨ (x.dst.iostat.eof = true ∧ x.dst.buf.count = 0))) := by
  rw [Bool.or_eq_true, reap_test_iff, reap_test_iff]

/-- C16: the reap step of the poller.  For every descriptor taken back from the
ready queue that was OPEN and in the SYN table: its `enqueued` flag is cleared;
it is destroyed (CLOSED, out of the table) if and only if one of its two
endpoints has ERROR set, or has EOF set while that endpoint's buffer holds no
byte; and if it is not destroyed it stays OPEN in the table, with READ_DONE,
WRITE_DONE and EOF cleared on both endpoints and nothing else changed (ERROR,
which was not set, fds, buffers, masks, times and reference count as they
were). -/
theorem reap_loop_spec (l : List Nat) (w : World) (p : Nat) (hp : p ∈ l)
    (hopen : (w.heap p).status = PST_OPEN) (hin : p ∈ w.syntab.conns) :
    ((reap_loop l w).1.heap p).enqueued = false
    ∧ ((((w.heap p).src.iostat.err = true
          ∨ ((w.heap p).src.iostat.eof = true ∧ (w.heap p).src.buf.count = 0))
        ∨ ((w.heap p).dst.iostat.err = true
          ∨ ((w.heap p).dst.iostat.eof = true ∧ (w.heap p).dst.buf.count = 0))) →
        ((reap_loop l w).1.heap p).status = PST_CLOSED ∧ p ∉ (reap_loop l w).1.syntab.conns)
    ∧ (¬ (((w.heap p).src.iostat.err = true
          ∨ ((w.heap p).src.iostat.eof = true ∧ (w.heap p).src.buf.count = 0))
        ∨ ((w.heap p).dst.iostat.err = true
          ∨ ((w.heap p).dst.iostat.eof = true ∧ (w.heap p).dst.buf.count = 0))) →
        ((reap_loop l w).1.heap p).status = PST_OPEN
        ∧ p ∈ (reap_loop l w).1.syntab.conns
        ∧ ((reap_loop l w).1.heap p).src.iostat
            = { rdone := false, wdone := false, err := false, eof := false }
        ∧ ((reap_loop l w).1.heap p).dst.iostat
            = { rdone := false, wdone := false, err := false, eof := false }
        ∧ (reap_loop l w).1.heap p
            = { w.heap p with
                  enqueued := false,
                  src := { (w.heap p).src with
                    iostat := { rdone := false, wdone := false,
                                err := (w.heap p).src.iostat.err, eof := false } },
                  dst := { (w.heap p).dst with
                    iostat := { rdone := false, wdone := false,
                                err := (w.heap p).dst.iostat.err, eof := false } } })
    ∧ (((reap_loop l w).1.heap p).status = PST_CLOSED
        ↔ (((w.heap p).src.iostat.err = true
              ∨ ((w.heap p).src.iostat.eof = true ∧ (w.heap p).src.buf.count = 0))
            ∨ ((w.heap p).dst.iostat.err = true
              ∨ ((w.heap p).dst.iostat.eof = true ∧ (w.heap p).dst.buf.count = 0)))) := by
  rw [← reap_test_pair_iff (w.heap p)]
  unfold reap_loop
  have hne : (w.heap p).status ≠ PST_CLOSED := by rw [hopen]; decide
  by_cases hb : (reap_test (w.heap p).src || reap_test (w.heap p).dst) = true
  · obtain ⟨k1, k2, k3⟩ := reap_fold_destroys p l (w, l) hne hb hp
    exact ⟨k3, fun _ => ⟨k1, k2⟩, fun hf => absurd hb hf, ⟨fun _ => hb, fun _ => k1⟩⟩
  · have hb' : (reap_test (w.heap p).src || reap_test (w.heap p).dst) = false := by
      simpa using hb
    obtain ⟨k1, k2⟩ := reap_fold_renews p l (w, l) hb' hp
    have hst : ((l.foldl reap_visit (w, l)).1.heap p).status = PST_OPEN := by
      rw [k1]
      exact hopen
    have h0 : reap_test (w.heap p).src = false := by
      cases h : reap_test (w.heap p).src
      · rfl
      · rw [h] at hb'
        simp at hb'
    have h1 : reap_test (w.heap p).dst = false := by
      rw [h0] at hb'
      simpa using hb'
    have e0 : (w.heap p).src.iostat.err = false := by
      unfold reap_test at h0
      cases h : (w.heap p).src.iostat.err
      · rfl
      · rw [h] at h0
        simp at h0
    have e1 : (w.heap p).dst.iostat.err = false := by
      unfold reap_test at h1
      cases h : (w.heap p).dst.iostat.err
      · rfl
      · rw [h] at h1
        simp at h1
    refine ⟨by rw [k1]; rfl, fun hf => absurd hf hb, fun _ => ⟨hst, k2.mpr hin, ?_, ?_, ?_⟩, ?_⟩
    · rw [k1]
      simp [reaped, iostat_renew, e0]
    · rw [k1]
      simp [reaped, iostat_renew, e1]
    · rw [k1]
      rfl
    · constructor
      · intro hc
        rw [hst] at hc
        cases hc
      · intro hf
        exact absurd hf hb

theorem reap_loop_spec_witness :
    (0 ∈ [0]) ∧ ((sample_world finished_proxy [0]).heap 0).status = PST_OPEN
    ∧ 0 ∈ (sample_world finished_proxy [0]).syntab.conns
    ∧ ((sample_world finished_proxy [0]).heap 0).src.iostat.eof = true
    ∧ ((sample_world finished_proxy [0]).heap 0).src.buf.count = 0
    ∧ ((reap_loop [0] (sample_world finished_proxy [0])).1.heap 0).status = PST_CLOSED
    ∧ 0 ∉ (reap_loop [0] (sample_world finished_proxy [0])).1.syntab.conns
    ∧ ((sample_world draining_proxy [0]).heap 0).src.iostat.eof = true
    ∧ ((sample_world draining_proxy [0]).heap 0).src.buf.count = 3
    ∧ ((reap_loop [0] (sample_world draining_proxy [0])).1.heap 0).status = PST_OPEN
    ∧ 0 ∈ (reap_loop [0] (sample_world draining_proxy [0])).1.syntab.conns
    ∧ ((reap_loop [0] (sample_world draining_proxy [0])).1.heap 0).src.iostat
        = { rdone := false, wdone := false, err := false, eof := false }
    ∧ ((reap_loop [0] (sample_world busy_proxy [0])).1.heap 0).enqueued = false
    ∧ ((reap_loop [0] (sample_world busy_proxy [0])).1.heap 0).status = PST_OPEN :=
  ⟨by decide, rfl, by decide, rfl, rfl,
    ((reap_loop_spec [0] (sample_world finished_proxy [0]) 0 (by decide) rfl (by decide)).2.1
      (Or.inl (Or.inr ⟨rfl, rfl⟩))).1,
    ((reap_loop_spec [0] (sample_world finished_proxy [0]) 0 (by decide) rfl (by decide)).2.1
      (Or.inl (Or.inr ⟨rfl, rfl⟩))).2,
    rfl, rfl,
    ((reap_loop_spec [0] (sample_world draining_proxy [0]) 0 (by decide) rfl (by decide)).2.2.1
      (by decide)).1,
    ((reap_loop_spec [0] (sample_world draining_proxy [0]) 0 (by decide) rfl (by decide)).2.2.1
      (by decide)).2.1,
    ((reap_loop_spec [0] (sample_world draining_proxy [0]) 0 (by decide) rfl (by decide)).2.2.1
      (by decide)).2.2.1,
    (reap_loop_spec [0] (sample_world busy_proxy [0]) 0 (by decide) rfl (by decide)).1,
    ((reap_loop_spec [0] (sample_world busy_proxy [0]) 0 (by decide) rfl (by decide)).2.2.1
      (by decide)).1⟩

/-! ## Building the poll arrays -/

theorem prepare_visit_skip (w : World) (st : poll_table × Nat) (p : Nat)
    (h : polled w p = false) : prepare_visit w st p = st := by
  unfold prepare_visit
  unfold polled at h
  have hc : (w.heap p).status = PST_PENDING ∨ (w.heap p).status = PST_CLOSED := by
    by_cases h1 : (w.heap p).status = PST_PENDING
    · exact Or.inl h1
    · by_cases h2 : (w.heap p).status = PST_CLOSED
      · exact Or.inr h2
      · simp [h1, h2] at h
  dsimp only
  rw [if_pos hc]

theorem prepare_visit_take (w : World) (st : poll_table × Nat) (p : Nat)
    (h : polled w p = true) :
    prepare_visit w st p
      = ((st.1.put st.2 (poll_slot w p 0)).put (st.2 + 1) (poll_slot w p 1), st.2 + 2) := by
  unfold prepare_visit
  unfold polled at h
  have hc : ¬ ((w.heap p).status = PST_PENDING ∨ (w.heap p).status = PST_CLOSED) := by
    simpa using h
  dsimp only
  rw [if_neg hc]
  rfl

theorem put_slots_other (pr : poll_table) (i k : Nat) (e : poll_entry) (h : k ≠ i) :
    (pr.put i e).slots k = pr.slots k := by
  simp [poll_table.put, Function.update, h]

theorem put_slots_same (pr : poll_table) (i : Nat) (e : poll_entry) :
    (pr.put i e).slots i = e := by
  simp [poll_table.put]

/-- The walk of `prepare_poll_resources` from any state: the index advances by
two per descriptor taken, the slots of the `j`-th descriptor taken are the two
written for it, and no slot below the starting index or at or above the final
index is touched. -/
theorem prepare_fold_spec (w : World) (l : List Nat) :
    ∀ st : poll_table × Nat,
      (l.foldl (prepare_visit w) st).2 = st.2 + 2 * (l.filter (polled w)).length
      ∧ (∀ j q, (l.filter (polled w))[j]? = some q →
          (l.foldl (prepare_visit w) st).1.slots (st.2 + 2 * j) = poll_slot w q 0
          ∧ (l.foldl (prepare_visit w) st).1.slots (st.2 + 2 * j + 1) = poll_slot w q 1)
      ∧ (∀ i, i < st.2 ∨ (l.foldl (prepare_visit w) st).2 ≤ i →
          (l.foldl (prepare_visit w) st).1.slots i = st.1.slots i)
      ∧ (l.foldl (prepare_visit w) st).1.num_pollfds = st.1.num_pollfds := by
  induction l with
  | nil =>
    intro st
    refine ⟨by simp, ?_, fun _ _ => rfl, rfl⟩
    intro j q h
    simp at h
  | cons a l ih =>
    intro st
    rw [List.foldl_cons]
    by_cases ha : polled w a = true
    · have hf : (a :: l).filter (polled w) = a :: l.filter (polled w) := by
        simp [List.filter, ha]
      rw [hf, prepare_visit_take w st a ha]
      obtain ⟨k1, k2, k3, k4⟩ := ih
        ((st.1.put st.2 (poll_slot w a 0)).put (st.2 + 1) (poll_slot w a 1), st.2 + 2)
      simp only at k1 k2 k3 k4
      refine ⟨?_, ?_, ?_, k4⟩
      · rw [k1]
        simp only [List.length_cons]
        omega
      · intro j q hq
        cases j with
        | zero =>
          have hqa : a = q := by simpa using hq
          subst hqa
          have z : st.2 + 2 * 0 = st.2 := by omega
          rw [z]
          constructor
          · rw [k3 st.2 (Or.inl (by omega)),
              put_slots_other _ _ _ _ (by omega), put_slots_same]
          · rw [k3 (st.2 + 1) (Or.inl (by omega))]
            exact put_slots_same _ _ _
        | succ j =>
          have hq1 : (l.filter (polled w))[j]? = some q := by simpa using hq
          obtain ⟨m1, m2⟩ := k2 j q hq1
          have e1 : st.2 + 2 * (j + 1) = st.2 + 2 + 2 * j := by omega
          rw [e1]
          exact ⟨m1, m2⟩
      · intro i hi
        have hne : i ≠ st.2 ∧ i ≠ st.2 + 1 := by
          rcases hi with h | h
          · omega
          · rw [k1] at h
            omega
        have hi1 : i < st.2 + 2 ∨ (l.foldl (prepare_visit w)
            ((st.1.put st.2 (poll_slot w a 0)).put (st.2 + 1) (poll_slot w a 1), st.2 + 2)).2
              ≤ i := by
          rcases hi with h | h
          · left; omega
          · right; exact h
        rw [k3 i hi1, put_slots_other _ _ _ _ hne.2, put_slots_other _ _ _ _ hne.1]
    · have ha' : polled w a = false := by simpa using ha
      have hf : (a :: l).filter (polled w) = l.filter (polled w) := by
        simp [List.filter, ha']
      rw [hf, prepare_visit_skip w st a ha']
      exact ih st

/-- C17: `prepare_poll_resources` returns `2 * k`, with `k` the number of
descriptors of the SYN table whose status is neither PENDING nor CLOSED; for
the `j`-th such descriptor in table order the slots `2 * j` and `2 * j + 1`
hold the fd and the interest mask of its `src` and `dst` endpoints, `revents`
0 and the back-pointers to those endpoints; no slot at or above the value
returned is written; and when the table holds at most `max_conns` descriptors
the value returned is at most `2 * max_conns`, so that every index written is
below the array size. -/
theorem prepare_poll_resources_spec (w : World) (pr : poll_table) :
    (prepare_poll_resources w pr).2 = 2 * (w.syntab.conns.filter (polled w)).length
    ∧ (∀ q, polled w q = true
        ↔ (w.heap q).status ≠ PST_PENDING ∧ (w.heap q).status ≠ PST_CLOSED)
    ∧ (∀ j q, (w.syntab.conns.filter (polled w))[j]? = some q →
        (prepare_poll_resources w pr).1.slots (2 * j)
          = { fd := (w.heap q).src.fd, events := (w.heap q).src.poll_events, revents := 0,
              owner := q, idx := 0 }
        ∧ (prepare_poll_resources w pr).1.slots (2 * j + 1)
          = { fd := (w.heap q).dst.fd, events := (w.heap q).dst.poll_events, revents := 0,
              owner := q, idx := 1 })
    ∧ (∀ i, (prepare_poll_resources w pr).2 ≤ i →
        (prepare_poll_resources w pr).1.slots i = pr.slots i)
    ∧ (∀ max_conns, w.syntab.conns.length ≤ max_conns →
        (prepare_poll_resources w pr).2 ≤ 2 * max_conns
        ∧ ∀ i, i < (prepare_poll_resources w pr).2 → i < 2 * max_conns) := by
  unfold prepare_poll_resources
  obtain ⟨k1, k2, k3, _⟩ := prepare_fold_spec w w.syntab.conns (pr, 0)
  simp only [Nat.zero_add] at k1 k2 k3
  have hle : ∀ max_conns, w.syntab.conns.length ≤ max_conns →
      (w.syntab.conns.foldl (prepare_visit w) (pr, 0)).2 ≤ 2 * max_conns := by
    intro m hm
    rw [k1]
    have := List.length_filter_le (polled w) w.syntab.conns
    omega
  refine ⟨k1, ?_, ?_, ?_, ?_⟩
  · intro q
    unfold polled
    by_cases h1 : (w.heap q).status = PST_PENDING
    · simp [h1]
    · by_cases h2 : (w.heap q).status = PST_CLOSED
      · simp [h2]
      · simp [h1, h2]
  · intro j q hq
    obtain ⟨m1, m2⟩ := k2 j q hq
    exact ⟨m1, m2⟩
  · intro i hi
    exact k3 i (Or.inr hi)
  · intro m hm
    exact ⟨hle m hm, fun i hi => lt_of_lt_of_le hi (hle m hm)⟩

theorem prepare_poll_resources_spec_witness :
    (prepare_poll_resources three_world zero_poll_table).2 = 4
    ∧ three_world.syntab.conns.filter (polled three_world) = [0, 2]
    ∧ (prepare_poll_resources three_world zero_poll_table).1.slots 2
        = { fd := 5, events := ENDPOINT_POLLEVENTS, revents := 0, owner := 2, idx := 0 }
    ∧ (prepare_poll_resources three_world zero_poll_table).1.slots 3
        = { fd := 6, events := ENDPOINT_POLLEVENTS, revents := 0, owner := 2, idx := 1 }
    ∧ (prepare_poll_resources three_world zero_poll_table).2
        = 2 * (three_world.syntab.conns.filter (polled three_world)).length :=
  ⟨rfl, rfl, rfl, rfl, (prepare_poll_resources_spec three_world zero_poll_table).1⟩

/-! ## The listener's assertion -/

/-- C18 at its failing input.  From the state at program start the listener
accepts a connection from 10.0.0.1:1000: the descriptor is recorded, found,
activated and left CONNECTING in the table under that key.  A second accepted
connection with the same client address and port then finds this descriptor on
the first lookup, and `assert(proxy->status == PST_PENDING)` fails. -/
theorem listener_assert_fails_on_reused_key :
    listener_iteration good_listener_env initial_world
        = .ok (listener_result good_listener_env initial_world)
    ∧ syntab_find (listener_result good_listener_env initial_world)
        { addr := ntohl second_listener_env.cliaddr.sin_addr,
          port := ntohs second_listener_env.cliaddr.sin_port } = some 0
    ∧ ((listener_result good_listener_env initial_world).heap 0).status = PST_CONNECT
    ∧ listener_iteration second_listener_env (listener_result good_listener_env initial_world)
        = .error fault.assert_failed :=
  ⟨rfl, rfl, rfl, rfl⟩

/-! ## The write lock around `destroy_proxy` -/

/-- How `destroy_proxy` uses the write lock: on a descriptor that is not CLOSED
it takes the lock, which is a second acquisition exactly when the caller holds
it, and it leaves the lock released; on a CLOSED descriptor it does not touch
the lock. -/
theorem destroy_proxy_relocks (w : World) (p : Nat) :
    ((w.heap p).status ≠ PST_CLOSED →
      (destroy_proxy w p).relocks = (if w.wr_locked then w.relocks + 1 else w.relocks)
      ∧ (destroy_proxy w p).wr_locked = false)
    ∧ ((w.heap p).status = PST_CLOSED →
      (destroy_proxy w p).relocks = w.relocks ∧ (destroy_proxy w p).wr_locked = w.wr_locked) := by
  constructor
  · intro h
    rw [destroy_proxy_not_closed_eq w p h, (unpin_locks _ p).1, (unpin_locks _ p).2]
    exact ⟨(destroy_before_unpin_locks w p).2.1, (destroy_before_unpin_locks w p).1⟩
  · intro h
    rw [destroy_proxy_closed_eq w p h]
    exact ⟨(unpin_locks w p).2, (unpin_locks w p).1⟩

/-- C19 at its failing input.  One sweep of the garbage collector over a table
with one expired PENDING descriptor, entered with the write lock free: the
sweep takes the lock, then calls `destroy_proxy` on the descriptor, which is
not CLOSED, with the lock held, so `SYNTAB_LOCK_WRITE` inside `destroy_proxy`
acquires a lock its own thread holds (`relocks` goes from 0 to 1).  The calls
of `destroy_proxy` from the listener and from the poller on the sample runs
are made with the lock free. -/
theorem gc_relocks_write_lock :
    (sample_world pending_proxy [0]).wr_locked = false
    ∧ (sample_world pending_proxy [0]).relocks = 0
    ∧ (SYNTAB_LOCK_WRITE (sample_world pending_proxy [0])).wr_locked = true
    ∧ ((SYNTAB_LOCK_WRITE (sample_world pending_proxy [0])).heap 0).status ≠ PST_CLOSED
    ∧ gc_visit 160 60 (SYNTAB_LOCK_WRITE (sample_world pending_proxy [0])) 0
        = destroy_proxy (SYNTAB_LOCK_WRITE (sample_world pending_proxy [0])) 0
    ∧ (garbage_connections_collector 160 60 (sample_world pending_proxy [0])).relocks = 1
    ∧ (listener_result failing_listener_env (sample_world pending_client [0])).relocks = 0
    ∧ (dispatch_result refused_env (sample_pfds POLLIN 0)
        (sample_world connecting_proxy [0])).w.relocks = 0 :=
  ⟨rfl, rfl, rfl, by decide, rfl, rfl, rfl, rfl⟩

end Pepsal
